import Mathlib

/-!
# MyStatefulset controller: a verification development

A shallow embedding of the reconciliation engine of `bryant-rh/my-statefulset`
(`controllers/mystatefulset_controller.go`, `api/v1/mystatefulset_types.go`) and of the
validating webhook (`api/v1/mystatefulset_webhook.go`).

* Kubernetes objects are records whose fields keep the Go field names.
* The cluster behind `client.Client` is an in-memory object store (`World`), as
  the fake client of the repository's tests: `Get`, `List`, `Create`, `Delete`
  and `Update` fail only with NotFound / AlreadyExists, a delete takes effect
  at once.  Every mutating call that takes effect is appended to `World.log`,
  so that "what a pass deletes or creates" is the list of actions it appends.
* Events handed to the recorder are kept apart, in `World.events`.
* A Go panic (nil dereference, slice bounds) is the failure `Failure.panic`.
* Go `int32` counters wrap (`wrap32`); times are integers (nanoseconds).
* The Go field `Type` is written `Type_`.
* The webhook returns its list of field errors; the comparison of two quantities,
  a function of the apimachinery library, is a parameter of `ValidateUpdate`.
-/

set_option linter.dupNamespace false

namespace MySts

/-! ## Go maps -/

/-- Go `map[string]V`. `none` is the nil map; `some l` is a non-nil map given
as an association list in which the first binding of a key is the one that counts. -/
abbrev GoMapOf (V : Type) := Option (List (String × V))

/-- Go `map[string]string`. -/
abbrev GoMap := GoMapOf String

/-- The expression `v, ok := m[k]`. -/
def mapLookup {V : Type} (m : GoMapOf V) (k : String) : Option V := (m.getD []).lookup k

/-- The expression `m[k]` (the zero value `""` when the key is absent). -/
def mapIndex (m : GoMap) (k : String) : String := (mapLookup m k).getD ""

/-- The keys of the map, each once. -/
def mapKeys {V : Type} (m : GoMapOf V) : List String := ((m.getD []).map Prod.fst).dedup

/-- The expression `len(m)`. -/
def mapLen {V : Type} (m : GoMapOf V) : Nat := (mapKeys m).length

/-- The function `reflect.DeepEqual` on two maps with string keys: both nil or both non-nil,
the same length, and deeply equal values under every key (the values are records without
maps, on which deep equality is equality of the Lean values). -/
def mapDeepEqual {V : Type} [DecidableEq V] (a b : GoMapOf V) : Bool :=
  (a.isSome == b.isSome) && (mapLen a == mapLen b) &&
    (mapKeys a).all (fun k => mapLookup a k == mapLookup b k)

/-- The selector built by `client.MatchingLabels(sel)`: an object matches when it carries
every key of `sel` with the same value (the empty selector matches everything). -/
def matchesLabels (sel labels : GoMap) : Bool :=
  (mapKeys sel).all (fun k => mapLookup labels k == mapLookup sel k)

/-! ## Data model -/

/-- Type `metav1.OwnerReference`. -/
structure OwnerReference where
  APIVersion : String
  Kind : String
  Name : String
  UID : String
  Controller : Option Bool
  BlockOwnerDeletion : Option Bool
deriving DecidableEq, Repr

/-- Type `inf.Dec`, the value an `infDecAmount` points to: a `big.Int`, given by its sign
and the words of its magnitude (`none` is the nil slice), and a scale. -/
structure Dec where
  neg : Bool := false
  abs : Option (List Nat) := none
  scale : Int := 0
deriving DecidableEq, Repr

/-- Type `resource.Quantity` as Go holds it, which is what `reflect.DeepEqual` compares: the
`int64Amount` (`value`, `scale`), the pointer of the `infDecAmount` (`none` is nil), the
cached string `s` and the format. Parsing `1000m` gives value 1000 at scale -3 and parsing
`1` gives value 1 at scale 0: two values that denote the same amount and are not deeply
equal. -/
structure Quantity where
  value : Int := 0
  scale : Int := 0
  d : Option Dec := none
  s : String := ""
  Format : String := ""
deriving DecidableEq, Repr

/-- Type `corev1.ResourceList`. -/
abbrev ResourceList := GoMapOf Quantity

/-- Type `corev1.ResourceClaim`. -/
structure ResourceClaim where
  Name : String
deriving DecidableEq, Repr

/-- Type `corev1.ResourceRequirements`; `Claims` is a slice, `none` when nil. -/
structure ResourceRequirements where
  Limits : ResourceList := none
  Requests : ResourceList := none
  Claims : Option (List ResourceClaim) := none
deriving DecidableEq, Repr

/-- Type `corev1.ContainerPort`. -/
structure ContainerPort where
  Name : String := ""
  ContainerPort : Int := 0
deriving DecidableEq, Repr

/-- Type `corev1.EnvVar`. -/
structure EnvVar where
  Name : String
  Value : String
deriving DecidableEq, Repr

/-- Type `corev1.VolumeMount`. -/
structure VolumeMount where
  Name : String
  MountPath : String
deriving DecidableEq, Repr

/-- Type `corev1.Container`. -/
structure Container where
  Name : String := ""
  Image : String := ""
  Resources : ResourceRequirements := {}
  Ports : List ContainerPort := []
  Env : List EnvVar := []
  VolumeMounts : List VolumeMount := []
deriving DecidableEq, Repr

/-- Type `corev1.Volume` with a `PersistentVolumeClaim` source. -/
structure Volume where
  Name : String
  ClaimName : String
deriving DecidableEq, Repr

/-- Type `corev1.PodSpec`. -/
structure PodSpec where
  Containers : List Container := []
  Hostname : String := ""
  Subdomain : String := ""
  Volumes : List Volume := []
deriving DecidableEq, Repr

/-- Type `corev1.PodCondition`. -/
structure PodCondition where
  Type_ : String
  Status : String
  LastTransitionTime : Int := 0
deriving DecidableEq, Repr

/-- Type `corev1.PodStatus`. -/
structure PodStatus where
  Phase : String := ""
  Conditions : List PodCondition := []
deriving DecidableEq, Repr

/-- Type `corev1.Pod`. -/
structure Pod where
  Name : String
  Namespace : String
  Labels : GoMap := none
  OwnerReferences : List OwnerReference := []
  DeletionTimestamp : Option Int := none
  Spec : PodSpec := {}
  Status : PodStatus := {}
deriving DecidableEq, Repr

/-- Type `corev1.PersistentVolumeClaimSpec`. -/
structure PersistentVolumeClaimSpec where
  AccessModes : List String := []
  StorageClassName : Option String := none
  Storage : String := ""
deriving DecidableEq, Repr

/-- Type `corev1.PersistentVolumeClaim`. -/
structure PersistentVolumeClaim where
  Name : String
  Namespace : String := ""
  Labels : GoMap := none
  OwnerReferences : List OwnerReference := []
  Spec : PersistentVolumeClaimSpec := {}
deriving DecidableEq, Repr

/-- Type `metav1.LabelSelector` (the controller reads `MatchLabels` only). -/
structure LabelSelector where
  MatchLabels : GoMap := none
deriving DecidableEq, Repr

/-- Type `PodTemplateSpec` of `mystatefulset_types.go`. -/
structure PodTemplateSpec where
  Labels : GoMap := none
  Spec : PodSpec := {}
deriving DecidableEq, Repr

/-- Type `RollingUpdateStatefulSetStrategy`. -/
structure RollingUpdateStatefulSetStrategy where
  Partition : Option Int := none
deriving DecidableEq, Repr

/-- Type `UpdateStrategy`. -/
structure UpdateStrategy where
  Type_ : String := ""
  RollingUpdate : Option RollingUpdateStatefulSetStrategy := none
deriving DecidableEq, Repr

/-- Constant `RollingUpdateStatefulSetStrategyType`. -/
def RollingUpdateStatefulSetStrategyType : String := "RollingUpdate"

/-- Constant `OnDeleteStatefulSetStrategyType`. -/
def OnDeleteStatefulSetStrategyType : String := "OnDelete"

/-- Type `MyStatefulsetSpec`. -/
structure MyStatefulsetSpec where
  Replicas : Int := 0
  ServiceName : String := ""
  Selector : Option LabelSelector := none
  Template : PodTemplateSpec := {}
  VolumeClaimTemplates : List PersistentVolumeClaim := []
  UpdateStrategy : UpdateStrategy := {}
  MinReadySeconds : Int := 0
deriving DecidableEq, Repr

/-- Type `MyStatefulsetStatus`. -/
structure MyStatefulsetStatus where
  CurrentGeneration : Int := 0
  Replicas : Int := 0
  ReadyReplicas : Int := 0
  CurrentReplicas : Int := 0
  UpdatedReplicas : Int := 0
  AvailableReplicas : Int := 0
  ObservedGeneration : Int := 0
deriving DecidableEq, Repr

/-- Type `MyStatefulset` (object metadata flattened). -/
structure MyStatefulset where
  Name : String
  Namespace : String
  Labels : GoMap := none
  UID : String := ""
  Generation : Int := 0
  DeletionTimestamp : Option Int := none
  Finalizers : List String := []
  Spec : MyStatefulsetSpec := {}
  Status : MyStatefulsetStatus := {}
deriving DecidableEq, Repr

/-- Constant `myStatefulsetFinalizer`. -/
def myStatefulsetFinalizer : String := "mystatefulset.bryant-rh/finalizer"

/-- Modelled from the spec: the value of `appsv1.GroupVersion.String()`; the variable is
declared in `api/v1/groupversion_info.go`, which is not among the sources. The group is
the one of the `+groupName=apps.mystatefulset.com` marker, the version the package `v1`. -/
def GroupVersion : String := "apps.mystatefulset.com/v1"

/-- Type `ctrl.Result`; `RequeueAfter` in seconds, `0` for no requeue. -/
structure Result where
  RequeueAfter : Nat := 0
deriving DecidableEq, Repr

/-! ## The cluster behind `client.Client` -/

/-- What a call can fail with. -/
inductive Failure where
  | notFound
  | alreadyExists
  | error (msg : String)
  | panic (msg : String)
deriving DecidableEq, Repr

deriving instance DecidableEq for Except

/-- The function `errors.IsNotFound`. -/
def Failure.isNotFound : Failure → Bool
  | .notFound => true
  | _ => false

/-- The method `Error()` of an error value: its message. -/
def Failure.Error : Failure → String
  | .notFound => "not found"
  | .alreadyExists => "already exists"
  | .error msg => msg
  | .panic msg => msg

/-- The function `errors.IsAlreadyExists`. -/
def Failure.isAlreadyExists : Failure → Bool
  | .alreadyExists => true
  | _ => false

/-- A mutating call on the cluster API. -/
inductive Action where
  | createPod (pod : Pod)
  | deletePod (Namespace Name : String)
  | createPVC (pvc : PersistentVolumeClaim)
  | deletePVC (Namespace Name : String)
  | update (obj : MyStatefulset)
  | statusUpdate (obj : MyStatefulset)
deriving DecidableEq, Repr

/-- An event handed to `r.Recorder.Event(object, eventtype, reason, message)`. -/
structure Event where
  Object : String
  Type_ : String
  Reason : String
  Message : String
deriving DecidableEq, Repr

/-- The cluster state, and the log of the mutating calls made so far. The order of
`pods` and `pvcs` is the order in which a `List` call returns them; `services` holds the
namespace and name of the services; `events` is what the event recorder was handed. -/
structure World where
  pods : List Pod := []
  pvcs : List PersistentVolumeClaim := []
  services : List (String × String) := []
  objects : List MyStatefulset := []
  log : List Action := []
  events : List Event := []
deriving DecidableEq, Repr

/-- Call `r.Get` for a pod. -/
def getPod (w : World) (ns name : String) : Except Failure Pod :=
  match w.pods.find? (fun p => p.Namespace == ns && p.Name == name) with
  | some p => .ok p
  | none => .error .notFound

/-- Call `r.List` for pods with `client.InNamespace` and `client.MatchingLabels`. -/
def listPods (w : World) (ns : String) (sel : GoMap) : List Pod :=
  w.pods.filter (fun p => p.Namespace == ns && matchesLabels sel p.Labels)

/-- Call `r.Create` for a pod. -/
def apiCreatePod (w : World) (pod : Pod) : Except Failure Unit × World :=
  if w.pods.any (fun p => p.Namespace == pod.Namespace && p.Name == pod.Name) then
    (.error .alreadyExists, w)
  else
    (.ok (), { w with pods := w.pods ++ [pod], log := w.log ++ [.createPod pod] })

/-- Call `r.Delete` for a pod. -/
def apiDeletePod (w : World) (ns name : String) : Except Failure Unit × World :=
  if w.pods.any (fun p => p.Namespace == ns && p.Name == name) then
    (.ok (), { w with
      pods := w.pods.filter (fun p => !(p.Namespace == ns && p.Name == name)),
      log := w.log ++ [.deletePod ns name] })
  else
    (.error .notFound, w)

/-- Call `r.Get` for a claim. -/
def getPVC (w : World) (ns name : String) : Except Failure PersistentVolumeClaim :=
  match w.pvcs.find? (fun c => c.Namespace == ns && c.Name == name) with
  | some c => .ok c
  | none => .error .notFound

/-- Call `r.List` for claims with `client.InNamespace` and `client.MatchingLabels`. -/
def listPVCs (w : World) (ns : String) (sel : GoMap) : List PersistentVolumeClaim :=
  w.pvcs.filter (fun c => c.Namespace == ns && matchesLabels sel c.Labels)

/-- Call `r.Create` for a claim. -/
def apiCreatePVC (w : World) (pvc : PersistentVolumeClaim) : Except Failure Unit × World :=
  if w.pvcs.any (fun c => c.Namespace == pvc.Namespace && c.Name == pvc.Name) then
    (.error .alreadyExists, w)
  else
    (.ok (), { w with pvcs := w.pvcs ++ [pvc], log := w.log ++ [.createPVC pvc] })

/-- Call `r.Delete` for a claim. -/
def apiDeletePVC (w : World) (ns name : String) : Except Failure Unit × World :=
  if w.pvcs.any (fun c => c.Namespace == ns && c.Name == name) then
    (.ok (), { w with
      pvcs := w.pvcs.filter (fun c => !(c.Namespace == ns && c.Name == name)),
      log := w.log ++ [.deletePVC ns name] })
  else
    (.error .notFound, w)

/-- Call `r.Update` for the workload: the stored object takes the metadata and spec of
`m` (the status is a subresource and is kept); an object marked for deletion whose last
finalizer is gone is removed from the store. -/
def apiUpdate (w : World) (m : MyStatefulset) : Except Failure Unit × World :=
  if w.objects.any (fun o => o.Namespace == m.Namespace && o.Name == m.Name) then
    let stored := w.objects.map (fun o =>
      if o.Namespace == m.Namespace && o.Name == m.Name then { m with Status := o.Status } else o)
    (.ok (), { w with
      objects := stored.filter (fun o => !(o.DeletionTimestamp.isSome && o.Finalizers.isEmpty)),
      log := w.log ++ [.update m] })
  else
    (.error .notFound, w)

/-- Call `r.Status().Update` for the workload: the stored object takes the status of `m`. -/
def apiStatusUpdate (w : World) (m : MyStatefulset) : Except Failure Unit × World :=
  if w.objects.any (fun o => o.Namespace == m.Namespace && o.Name == m.Name) then
    (.ok (), { w with
      objects := w.objects.map (fun o =>
        if o.Namespace == m.Namespace && o.Name == m.Name then { o with Status := m.Status } else o),
      log := w.log ++ [.statusUpdate m] })
  else
    (.error .notFound, w)

/-! ## Helper functions of the controller -/

/-- The function `strconv.Atoi` on a one-byte string, its error discarded: the value of a
decimal digit, `0` for any other byte. -/
def atoiDigit (c : Char) : Nat := if c.isDigit then c.toNat - 48 else 0

/-- Function `getOrdinal`: `strconv.Atoi(podName[len(podName)-1:])`, that is the value of
the LAST character of the name. `none` is the panic of the slice expression on the empty
name. (A last character outside ASCII ends in a byte that is no digit: `0`.) -/
def getOrdinal (podName : String) : Option Nat :=
  match podName.toList.getLast? with
  | none => none
  | some c => some (atoiDigit c)

/-- The name `fmt.Sprintf("%s-%d", mystatefulset.Name, ordinal)`. -/
def podNameOf (name : String) (ordinal : Nat) : String :=
  name ++ "-" ++ toString ordinal

/-- The function `reflect.DeepEqual` on two `corev1.ResourceRequirements`, field by field:
the two resource lists as maps of quantities, and the slice `Claims` (both nil or both
non-nil, the same length and the same elements). -/
def resourcesDeepEqual (a b : ResourceRequirements) : Bool :=
  mapDeepEqual a.Limits b.Limits && mapDeepEqual a.Requests b.Requests &&
    decide (a.Claims = b.Claims)

/-- Function `needsUpdate`, its loop over the containers (entered with lists of the same
length): the first index at which the image or the resources differ makes it `true`. -/
def containersDiffer : List Container → List Container → Bool
  | container :: cs, templateContainer :: ts =>
    if container.Image != templateContainer.Image then true
    else if !resourcesDeepEqual container.Resources templateContainer.Resources then true
    else containersDiffer cs ts
  | _, _ => false

/-- Function `needsUpdate`. -/
def needsUpdate (pod : Pod) (mystatefulset : MyStatefulset) : Bool :=
  if !mapDeepEqual pod.Labels mystatefulset.Spec.Template.Labels then true
  else if pod.Spec.Containers.length != mystatefulset.Spec.Template.Spec.Containers.length then true
  else containersDiffer pod.Spec.Containers mystatefulset.Spec.Template.Spec.Containers

/-- Function `isPodReady`, its loop: the first condition of type Ready decides. -/
def readyCondition : List PodCondition → Bool
  | [] => false
  | condition :: rest =>
    if condition.Type_ == "Ready" then condition.Status == "True" else readyCondition rest

/-- Function `isPodReady`. -/
def isPodReady (pod : Pod) : Bool :=
  if pod.Status.Phase != "Running" then false
  else readyCondition pod.Status.Conditions

/-- Function `isPodUpdated`, its loop over the containers (lists of the same length). -/
def imagesMatch : List Container → List Container → Bool
  | container :: cs, templateContainer :: ts =>
    if container.Image != templateContainer.Image then false else imagesMatch cs ts
  | _, _ => true

/-- Function `isPodUpdated`. -/
def isPodUpdated (pod : Pod) (mystatefulset : MyStatefulset) : Bool :=
  if pod.Status.Phase != "Running" then false
  else if pod.Spec.Containers.length != mystatefulset.Spec.Template.Spec.Containers.length then false
  else if !imagesMatch pod.Spec.Containers mystatefulset.Spec.Template.Spec.Containers then false
  else (mapKeys mystatefulset.Spec.Template.Labels).all
    (fun key => mapIndex pod.Labels key == mapIndex mystatefulset.Spec.Template.Labels key)

/-- Function `isPodAvailable`, its loop: the first condition of type Ready with status True
decides, by `time.Since(readyTime) >= minReadySeconds * time.Second` (nanoseconds).
`time.Since` saturates at the ends of the `int64` range, which lie beyond the threshold of
every `int32` number of seconds, so the comparison is that of the exact difference. -/
def readyLongEnough (now : Int) (minReadySeconds : Int) : List PodCondition → Bool
  | [] => false
  | condition :: rest =>
    if condition.Type_ == "Ready" && condition.Status == "True" then
      decide (now - condition.LastTransitionTime ≥ minReadySeconds * 1000000000)
    else readyLongEnough now minReadySeconds rest

/-- Function `isPodAvailable`; `now` is the clock read by `time.Since`. -/
def isPodAvailable (now : Int) (pod : Pod) (minReadySeconds : Int) : Bool :=
  if !isPodReady pod then false
  else if minReadySeconds == 0 then true
  else readyLongEnough now minReadySeconds pod.Status.Conditions

/-! ## `sort.Slice` -/

/-- The inner loop of the insertion sort behind `sort.Slice`: the new element `x` moves left
past every neighbour `p` with `less x p`. The sorted part is given nearest neighbour first.
A comparison that panics (`none`) ends the sort. -/
def sinkLeft {α : Type} (less : α → α → Option Bool) (x : α) : List α → Option (List α)
  | [] => some [x]
  | p :: rest =>
    match less x p with
    | none => none
    | some true => (sinkLeft less x rest).map (fun l => p :: l)
    | some false => some (x :: p :: rest)

/-- The outer loop of the insertion sort; the accumulator is the sorted part, reversed. -/
def sortSliceAux {α : Type} (less : α → α → Option Bool) : List α → List α → Option (List α)
  | acc, [] => some acc.reverse
  | acc, x :: rest =>
    match sinkLeft less x acc with
    | none => none
    | some acc1 => sortSliceAux less acc1 rest

/-- Function `sort.Slice(items, less)`, as the insertion sort that Go runs on a slice of at
most 12 elements, which is stable. On a longer slice Go runs its pattern-defeating quicksort:
the result is again a permutation of the slice in the order of `less`, and the comparison is
called on every element, but elements that compare equal may come in another order than
here. The evaluations of this file sort at most 12 elements, and what is proved for every
slice uses only that the result is a permutation and that the sort panics when a comparison
does. -/
def sortSlice {α : Type} (less : α → α → Option Bool) (items : List α) : Option (List α) :=
  sortSliceAux less [] items

/-- The comparison `getOrdinal(items[i].Name) > getOrdinal(items[j].Name)` of both sorts. -/
def ordinalGreater (a b : Pod) : Option Bool :=
  match getOrdinal a.Name, getOrdinal b.Name with
  | some i, some j => some (decide (i > j))
  | _, _ => none

/-! ## Pod and claim construction -/

/-- The call `metav1.NewControllerRef(mystatefulset, GroupVersion.WithKind("MyStatefulset"))`. -/
def newControllerRef (mystatefulset : MyStatefulset) : OwnerReference :=
  { APIVersion := GroupVersion, Kind := "MyStatefulset", Name := mystatefulset.Name,
    UID := mystatefulset.UID, Controller := some true, BlockOwnerDeletion := some true }

/-- The volume name of a claim template: its name, or `"www"` when that is empty. -/
def volumeNameOf (pvcTemplate : PersistentVolumeClaim) : String :=
  if pvcTemplate.Name != "" then pvcTemplate.Name else "www"

/-- The name `fmt.Sprintf("%s-%s-%d", volumeName, mystatefulset.Name, ordinal)`. -/
def pvcNameOf (volumeName name : String) (ordinal : Nat) : String :=
  volumeName ++ "-" ++ name ++ "-" ++ toString ordinal

/-- Function `createPod`, the pod object it builds. -/
def buildPod (mystatefulset : MyStatefulset) (ordinal : Nat) : Pod :=
  { Name := podNameOf mystatefulset.Name ordinal
    Namespace := mystatefulset.Namespace
    Labels := mystatefulset.Spec.Template.Labels
    OwnerReferences := [newControllerRef mystatefulset]
    Spec := { mystatefulset.Spec.Template.Spec with
      Hostname := podNameOf mystatefulset.Name ordinal
      Subdomain :=
        if mystatefulset.Spec.ServiceName != "" then mystatefulset.Spec.ServiceName
        else mystatefulset.Spec.Template.Spec.Subdomain
      Volumes := mystatefulset.Spec.VolumeClaimTemplates.map (fun pvcTemplate =>
        { Name := volumeNameOf pvcTemplate
          ClaimName := pvcNameOf (volumeNameOf pvcTemplate) mystatefulset.Name ordinal }) } }

/-- Function `createPod`. -/
def createPod (w : World) (mystatefulset : MyStatefulset) (ordinal : Nat) :
    Except Failure Unit × World :=
  if mystatefulset.Spec.Template.Spec.Containers.length == 0 then
    (.error (.error "pod template must contain at least one container"), w)
  else
    match apiCreatePod w (buildPod mystatefulset ordinal) with
    | (.error err, w1) =>
      if err.isAlreadyExists then (.error err, w1)
      else (.error (.error ("failed to create Pod " ++ podNameOf mystatefulset.Name ordinal)), w1)
    | (.ok _, w1) => (.ok (), w1)

/-- Function `reconcilePVCs`, the claim object it creates. -/
def buildPVC (mystatefulset : MyStatefulset) (pvcTemplate : PersistentVolumeClaim)
    (ordinal : Nat) : PersistentVolumeClaim :=
  { Name := pvcNameOf (volumeNameOf pvcTemplate) mystatefulset.Name ordinal
    Namespace := mystatefulset.Namespace
    Labels := pvcTemplate.Labels
    OwnerReferences := [newControllerRef mystatefulset]
    Spec := pvcTemplate.Spec }

/-- Function `reconcilePVCs`, the inner loop over the ordinals. -/
def reconcilePVCsOrdinals (mystatefulset : MyStatefulset) (pvcTemplate : PersistentVolumeClaim) :
    World → List Nat → Except Failure Unit × World
  | w, [] => (.ok (), w)
  | w, ordinal :: rest =>
    match getPVC w mystatefulset.Namespace
        (pvcNameOf (volumeNameOf pvcTemplate) mystatefulset.Name ordinal) with
    | .error err =>
      if err.isNotFound then
        match apiCreatePVC w (buildPVC mystatefulset pvcTemplate ordinal) with
        | (.error _, w1) =>
          (.error (.error ("failed to create PVC " ++
            pvcNameOf (volumeNameOf pvcTemplate) mystatefulset.Name ordinal)), w1)
        | (.ok _, w1) => reconcilePVCsOrdinals mystatefulset pvcTemplate w1 rest
      else (.error err, w)
    | .ok _ => reconcilePVCsOrdinals mystatefulset pvcTemplate w rest

/-- Function `reconcilePVCs`, the outer loop over the claim templates. -/
def reconcilePVCsTemplates (mystatefulset : MyStatefulset) :
    World → List PersistentVolumeClaim → Except Failure Unit × World
  | w, [] => (.ok (), w)
  | w, pvcTemplate :: rest =>
    match reconcilePVCsOrdinals mystatefulset pvcTemplate w
        (List.range mystatefulset.Spec.Replicas.toNat) with
    | (.error err, w1) => (.error err, w1)
    | (.ok _, w1) => reconcilePVCsTemplates mystatefulset w1 rest

/-- Function `reconcilePVCs`. -/
def reconcilePVCs (w : World) (mystatefulset : MyStatefulset) : Except Failure Unit × World :=
  reconcilePVCsTemplates mystatefulset w mystatefulset.Spec.VolumeClaimTemplates

/-! ## Pod reconciliation -/

/-- Function `waitForPodDeletion`: polls `r.Get` until the pod is NotFound; the store does
not change while it polls, so a pod that is still there makes the wait time out. -/
def waitForPodDeletion (w : World) (name ns : String) : Except Failure Unit :=
  match getPod w ns name with
  | .error err => if err.isNotFound then .ok () else .error err
  | .ok _ => .error (.error "timed out waiting for the condition")

/-- Function `reconcilePods`, the loop of the rolling update over the sorted pods. `some r`
is the `return` taken inside the loop, `none` the end of the loop. -/
def rollingUpdateLoop (mystatefulset : MyStatefulset) (partition : Int) :
    World → List Pod → Option (Except Failure Unit) × World
  | w, [] => (none, w)
  | w, pod :: rest =>
    match getOrdinal pod.Name with
    | none => (some (.error (.panic "slice bounds out of range")), w)
    | some ordinal =>
      if (ordinal : Int) ≥ partition && needsUpdate pod mystatefulset then
        match apiDeletePod w pod.Namespace pod.Name with
        | (.error err, w1) =>
          if !err.isNotFound then (some (.error err), w1)
          else
            match waitForPodDeletion w1 pod.Name pod.Namespace with
            | .error err1 => (some (.error err1), w1)
            | .ok _ =>
              match createPod w1 mystatefulset ordinal with
              | (.error err2, w2) => (some (.error err2), w2)
              | (.ok _, w2) => (some (.ok ()), w2)
        | (.ok _, w1) =>
          match waitForPodDeletion w1 pod.Name pod.Namespace with
          | .error err1 => (some (.error err1), w1)
          | .ok _ =>
            match createPod w1 mystatefulset ordinal with
            | (.error err2, w2) => (some (.error err2), w2)
            | (.ok _, w2) => (some (.ok ()), w2)
      else rollingUpdateLoop mystatefulset partition w rest

/-- The partition of the workload: `0` unless `RollingUpdate.Partition` is set. -/
def partitionOf (mystatefulset : MyStatefulset) : Int :=
  match mystatefulset.Spec.UpdateStrategy.RollingUpdate with
  | none => 0
  | some rollingUpdate =>
    match rollingUpdate.Partition with
    | none => 0
    | some partition => partition

/-- How the rolling-update block of `reconcilePods` ends: the pass returns `r`, or control
reaches the Fill loop with the pod list `items` (sorted in place under RollingUpdate). -/
inductive RollingOutcome where
  | returned (r : Except Failure Unit)
  | next (items : List Pod)
deriving DecidableEq, Repr

/-- Function `reconcilePods`, the block `if ... Type == RollingUpdateStatefulSetStrategyType`. -/
def rollingUpdate (w : World) (mystatefulset : MyStatefulset) (existingPods : List Pod) :
    RollingOutcome × World :=
  if mystatefulset.Spec.UpdateStrategy.Type_ == RollingUpdateStatefulSetStrategyType then
    match sortSlice ordinalGreater existingPods with
    | none => (.returned (.error (.panic "slice bounds out of range")), w)
    | some sorted =>
      match rollingUpdateLoop mystatefulset (partitionOf mystatefulset) w sorted with
      | (some r, w1) => (.returned r, w1)
      | (none, w1) => (.next sorted, w1)
  else (.next existingPods, w)

/-- Function `reconcilePods`, the Fill loop over the ordinals `0 .. replicas-1`. -/
def fillLoop (mystatefulset : MyStatefulset) : World → List Nat → Except Failure Unit × World
  | w, [] => (.ok (), w)
  | w, i :: rest =>
    match getPod w mystatefulset.Namespace (podNameOf mystatefulset.Name i) with
    | .error err =>
      if !err.isNotFound then (.error err, w)
      else
        match createPod w mystatefulset i with
        | (.error err1, w1) => (.error err1, w1)
        | (.ok _, w1) => fillLoop mystatefulset w1 rest
    | .ok _ => fillLoop mystatefulset w rest

/-- Function `reconcilePods`, the Drain loop over the listed pods. -/
def drainLoop (mystatefulset : MyStatefulset) : World → List Pod → Except Failure Unit × World
  | w, [] => (.ok (), w)
  | w, pod :: rest =>
    match getOrdinal pod.Name with
    | none => (.error (.panic "slice bounds out of range"), w)
    | some ordinal =>
      if (ordinal : Int) ≥ mystatefulset.Spec.Replicas then
        match apiDeletePod w pod.Namespace pod.Name with
        | (.error err, w1) =>
          if !err.isNotFound then (.error err, w1) else drainLoop mystatefulset w1 rest
        | (.ok _, w1) => drainLoop mystatefulset w1 rest
      else drainLoop mystatefulset w rest

/-- Function `reconcilePods`. -/
def reconcilePods (w : World) (mystatefulset : MyStatefulset) : Except Failure Unit × World :=
  if mystatefulset.Spec.Replicas == 0 then (.ok (), w)
  else if mapLen mystatefulset.Spec.Template.Labels == 0 then
    (.error (.error "pod template labels cannot be empty"), w)
  else
    match mystatefulset.Spec.Selector with
    | none => (.error (.panic "nil pointer dereference"), w)
    | some selector =>
      if !mapDeepEqual selector.MatchLabels mystatefulset.Spec.Template.Labels then
        (.error (.error "pod template labels must match selector"), w)
      else
        match rollingUpdate w mystatefulset
            (listPods w mystatefulset.Namespace selector.MatchLabels) with
        | (.returned r, w1) => (r, w1)
        | (.next items, w1) =>
          match fillLoop mystatefulset w1 (List.range mystatefulset.Spec.Replicas.toNat) with
          | (.error err, w2) => (.error err, w2)
          | (.ok _, w2) => drainLoop mystatefulset w2 items

/-! ## Status -/

/-- Arithmetic of a Go `int32`: the value wraps. -/
def wrap32 (x : Int) : Int := (x + 2147483648) % 4294967296 - 2147483648

/-- The four counters `readyReplicas, currentReplicas, updatedReplicas, availableReplicas`. -/
structure ReplicaCounts where
  readyReplicas : Int := 0
  currentReplicas : Int := 0
  updatedReplicas : Int := 0
  availableReplicas : Int := 0
deriving DecidableEq, Repr

/-- Function `updateStatus`, the body of its loop over the listed pods. -/
def countPod (now : Int) (mystatefulset : MyStatefulset) (c : ReplicaCounts) (pod : Pod) :
    ReplicaCounts :=
  { currentReplicas := wrap32 (c.currentReplicas + 1)
    readyReplicas := if isPodReady pod then wrap32 (c.readyReplicas + 1) else c.readyReplicas
    updatedReplicas :=
      if isPodUpdated pod mystatefulset then wrap32 (c.updatedReplicas + 1) else c.updatedReplicas
    availableReplicas :=
      if isPodAvailable now pod mystatefulset.Spec.MinReadySeconds then
        wrap32 (c.availableReplicas + 1)
      else c.availableReplicas }

/-- Function `updateStatus`, its loop over the listed pods. -/
def countPods (now : Int) (mystatefulset : MyStatefulset) (pods : List Pod) : ReplicaCounts :=
  pods.foldl (countPod now mystatefulset) {}

/-- A status held in a Go `interface{}`: the dynamic type is the struct
`MyStatefulsetStatus` or the pointer `*MyStatefulsetStatus`. -/
inductive StatusValue where
  | struct (s : MyStatefulsetStatus)
  | pointer (s : MyStatefulsetStatus)
deriving DecidableEq, Repr

/-- The function `reflect.DeepEqual(x, y interface{})` on statuses: values of different
dynamic types are never deeply equal; two structs, and the targets of two pointers, are
compared field by field. -/
def reflectDeepEqual : StatusValue → StatusValue → Bool
  | .struct a, .struct b => a == b
  | .pointer a, .pointer b => a == b
  | _, _ => false

/-- Modelled from the spec: the method `func (in *MyStatefulsetStatus) DeepCopy()
*MyStatefulsetStatus` of the generated file `api/v1/zz_generated.deepcopy.go`, which is not
among the sources: it returns a POINTER to a copy of the status (the spec, section 9, warns
of equality checks across "pointer-vs-value fields"). -/
def MyStatefulsetStatus.DeepCopy (s : MyStatefulsetStatus) : StatusValue := .pointer s

/-- Function `updateStatus`, the status it recomputes. -/
def newStatusOf (now : Int) (w : World) (mystatefulset : MyStatefulset) (selector : LabelSelector) :
    MyStatefulsetStatus :=
  let c := countPods now mystatefulset (listPods w mystatefulset.Namespace selector.MatchLabels)
  { ObservedGeneration := mystatefulset.Generation
    Replicas := c.currentReplicas
    ReadyReplicas := c.readyReplicas
    CurrentReplicas := c.currentReplicas
    UpdatedReplicas := c.updatedReplicas
    AvailableReplicas := c.availableReplicas }

/-- Function `updateStatus`; returns the error, the workload object as the function leaves
it in memory, and the cluster. -/
def updateStatus (now : Int) (w : World) (mystatefulset : MyStatefulset) :
    Except Failure Unit × MyStatefulset × World :=
  match mystatefulset.Spec.Selector with
  | none => (.error (.panic "nil pointer dereference"), mystatefulset, w)
  | some selector =>
    let oldStatus := mystatefulset.Status.DeepCopy
    let newStatus := newStatusOf now w mystatefulset selector
    if !reflectDeepEqual oldStatus (.struct newStatus) then
      match apiStatusUpdate w { mystatefulset with Status := newStatus } with
      | (.error err, w1) => (.error err, { mystatefulset with Status := newStatus }, w1)
      | (.ok _, w1) => (.ok (), { mystatefulset with Status := newStatus }, w1)
    else (.ok (), mystatefulset, w)

/-! ## Teardown -/

/-- Function `controllerutil.RemoveFinalizer`. -/
def removeFinalizer (mystatefulset : MyStatefulset) (finalizer : String) : MyStatefulset :=
  { mystatefulset with Finalizers := mystatefulset.Finalizers.filter (fun f => f != finalizer) }

/-- Function `handleDeletion`; returns the result or the error, the workload object as the
function leaves it in memory, and the cluster. -/
def handleDeletion (w : World) (mystatefulset : MyStatefulset) :
    Except Failure Result × MyStatefulset × World :=
  match mystatefulset.Spec.Selector with
  | none => (.error (.panic "nil pointer dereference"), mystatefulset, w)
  | some selector =>
    let podList := listPods w mystatefulset.Namespace selector.MatchLabels
    if podList.length > 0 then
      match sortSlice ordinalGreater podList with
      | none => (.error (.panic "slice bounds out of range"), mystatefulset, w)
      | some [] => (.error (.panic "index out of range"), mystatefulset, w)
      | some (pod :: _) =>
        if pod.DeletionTimestamp.isSome then (.ok { RequeueAfter := 5 }, mystatefulset, w)
        else
          match apiDeletePod w pod.Namespace pod.Name with
          | (.error err, w1) =>
            if !err.isNotFound then (.error err, mystatefulset, w1)
            else (.ok { RequeueAfter := 5 }, mystatefulset, w1)
          | (.ok _, w1) => (.ok { RequeueAfter := 5 }, mystatefulset, w1)
    else
      match listPVCs w mystatefulset.Namespace selector.MatchLabels with
      | pvc :: _ =>
        match apiDeletePVC w pvc.Namespace pvc.Name with
        | (.error err, w1) =>
          if !err.isNotFound then (.error err, mystatefulset, w1)
          else (.ok { RequeueAfter := 5 }, mystatefulset, w1)
        | (.ok _, w1) => (.ok { RequeueAfter := 5 }, mystatefulset, w1)
      | [] =>
        if mystatefulset.Finalizers.contains myStatefulsetFinalizer then
          match apiUpdate w (removeFinalizer mystatefulset myStatefulsetFinalizer) with
          | (.error err, w1) =>
            if !err.isNotFound then
              (.error err, removeFinalizer mystatefulset myStatefulsetFinalizer, w1)
            else (.ok {}, removeFinalizer mystatefulset myStatefulsetFinalizer, w1)
          | (.ok _, w1) => (.ok {}, removeFinalizer mystatefulset myStatefulsetFinalizer, w1)
        else (.ok {}, mystatefulset, w)

/-! ## The reconciler -/

/-- Call `r.Get` for the workload. -/
def getObject (w : World) (ns name : String) : Except Failure MyStatefulset :=
  match w.objects.find? (fun o => o.Namespace == ns && o.Name == name) with
  | some o => .ok o
  | none => .error .notFound

/-- Call `r.Get` for a service. -/
def getService (w : World) (ns name : String) : Except Failure Unit :=
  if w.services.contains (ns, name) then .ok () else .error .notFound

/-- Call `r.Recorder.Event`. -/
def recordEvent (w : World) (mystatefulset : MyStatefulset) (eventtype reason message : String) :
    World :=
  { w with events := w.events ++
      [{ Object := mystatefulset.Name, Type_ := eventtype, Reason := reason, Message := message }] }

/-- Method `Validate` of `mystatefulset_types.go`. -/
def Validate (m : MyStatefulset) : Except Failure Unit :=
  if m.Spec.Replicas < 0 then .error (.error "replicas must be zero or greater")
  else if m.Spec.ServiceName == "" then .error (.error "serviceName is required")
  else if m.Spec.Selector.isNone then .error (.error "selector is required")
  else .ok ()

/-- Function `Reconcile`, its loop over `Spec.Selector.MatchLabels`: `false` when some key is
missing from the template labels or has another value there (`!ok || v != value`). -/
def templateMatchesSelector (selector templateLabels : GoMap) : Bool :=
  (mapKeys selector).all (fun key =>
    match mapLookup templateLabels key with
    | none => false
    | some v => mapLookup selector key == some v)

/-- Function `controllerutil.AddFinalizer`. -/
def addFinalizer (mystatefulset : MyStatefulset) (finalizer : String) : MyStatefulset :=
  if mystatefulset.Finalizers.contains finalizer then mystatefulset
  else { mystatefulset with Finalizers := mystatefulset.Finalizers ++ [finalizer] }

/-- Function `Reconcile`, from the check of the governing service to the end. -/
def reconcileResources (now : Int) (w : World) (mystatefulset : MyStatefulset) :
    Except Failure Result × World :=
  match (if mystatefulset.Spec.ServiceName != "" then
      getService w mystatefulset.Namespace mystatefulset.Spec.ServiceName else .ok ()) with
  | .error err =>
    if err.isNotFound then
      (.error (.error ("headless service " ++ mystatefulset.Spec.ServiceName ++ " not found")),
        recordEvent w mystatefulset "Warning" "ServiceNotFound"
          ("Required headless service " ++ mystatefulset.Spec.ServiceName ++ " not found"))
    else (.error err, w)
  | .ok _ =>
    match reconcilePVCs w mystatefulset with
    | (.error err, w1) => (.error err, w1)
    | (.ok _, w1) =>
      match reconcilePods w1 mystatefulset with
      | (.error err, w2) => (.error err, w2)
      | (.ok _, w2) =>
        match updateStatus now w2 mystatefulset with
        | (.error err, _, w3) => (.error err, w3)
        | (.ok _, _, w3) => (.ok { RequeueAfter := 30 }, w3)

/-- Function `Reconcile`, from the attachment of the finalizer to the end. -/
def reconcileValidated (now : Int) (w : World) (mystatefulset : MyStatefulset) :
    Except Failure Result × World :=
  match (if !mystatefulset.Finalizers.contains myStatefulsetFinalizer then
      apiUpdate w (addFinalizer mystatefulset myStatefulsetFinalizer) else (.ok (), w)) with
  | (.error err, w1) => (.error err, w1)
  | (.ok _, w1) =>
    match Validate (addFinalizer mystatefulset myStatefulsetFinalizer) with
    | .error err =>
      (.error err, recordEvent w1 (addFinalizer mystatefulset myStatefulsetFinalizer)
        "Warning" "ValidationFailed" err.Error)
    | .ok _ => reconcileResources now w1 (addFinalizer mystatefulset myStatefulsetFinalizer)

/-- Function `Reconcile` for the request `ns/name`; `now` is the clock. A deletion timestamp
that is set is taken to be non-zero. -/
def Reconcile (now : Int) (w : World) (ns name : String) : Except Failure Result × World :=
  match getObject w ns name with
  | .error err => if err.isNotFound then (.ok {}, w) else (.error err, w)
  | .ok mystatefulset =>
    if mystatefulset.DeletionTimestamp.isSome then
      ((handleDeletion w mystatefulset).1, (handleDeletion w mystatefulset).2.2)
    else
      match mystatefulset.Spec.Selector with
      | none =>
        (.error (.error "selector cannot be nil"),
          recordEvent w mystatefulset "Warning" "InvalidSpec" "Selector cannot be nil")
      | some selector =>
        if mystatefulset.Spec.Template.Labels.isNone then
          (.error (.error "pod template labels are required"),
            recordEvent w mystatefulset "Warning" "ValidationFailed"
              "pod template labels are required")
        else if !templateMatchesSelector selector.MatchLabels mystatefulset.Spec.Template.Labels then
          (.error (.error "pod template labels must match selector"),
            recordEvent w mystatefulset "Warning" "ValidationFailed"
              "pod template labels must match selector")
        else reconcileValidated now w mystatefulset

/-! ## The admission webhook -/

/-- Constant `minReplicas`. -/
def minReplicas : Int := 0

/-- Constant `maxReplicas`. -/
def maxReplicas : Int := 100

/-- The value a `field.Error` carries in `BadValue`, an `interface{}`: nothing, an `int32`,
a string or a quantity. -/
inductive FieldValue where
  | absent
  | int (i : Int)
  | str (s : String)
  | quantity (q : Quantity)
deriving DecidableEq, Repr

/-- Type `field.Error`: the error type, the path of the field, the value and the detail.
`field.Invalid(path, value, detail)` sets all of them, `field.Required(path, detail)` and
`field.Forbidden(path, detail)` carry the empty string as value, and
`field.Duplicate(path, value)` has no detail. -/
structure FieldError where
  Type_ : String
  Field : String
  BadValue : FieldValue
  Detail : String
deriving DecidableEq, Repr

/-- The path `spec.template.spec.containers[i]`. -/
def containerPathOf (i : Nat) : String :=
  "spec.template.spec.containers[" ++ toString i ++ "]"

/-- Function `validateMyStatefulSet`, the loop over the ports of one container; `portNames`
holds the keys of the map of that name, the port names met so far. -/
def validatePortNames (containerPath : String) : List String → List ContainerPort → List FieldError
  | _, [] => []
  | portNames, port :: rest =>
    if port.Name != "" then
      (if portNames.contains port.Name then
        [{ Type_ := "FieldValueDuplicate",
           Field := containerPath ++ ".ports[" ++ port.Name ++ "]",
           BadValue := .str "port name must be unique", Detail := "" }]
      else []) ++ validatePortNames containerPath (port.Name :: portNames) rest
    else validatePortNames containerPath portNames rest

/-- Function `validateMyStatefulSet`, the loop over the containers, from index `i` on. -/
def validateContainers : Nat → List Container → List FieldError
  | _, [] => []
  | i, container :: rest =>
    (if container.Image == "" then
      [{ Type_ := "FieldValueRequired", Field := containerPathOf i ++ ".image",
         BadValue := .str "", Detail := "container image is required" }]
    else []) ++
    validatePortNames (containerPathOf i) [] container.Ports ++
    validateContainers (i + 1) rest

/-- Function `validateMyStatefulSet`, the list `allErrs` it collects. -/
def validationErrors (r : MyStatefulset) : List FieldError :=
  (if r.Spec.Replicas < minReplicas then
    [{ Type_ := "FieldValueInvalid", Field := "spec.replicas",
       BadValue := .int r.Spec.Replicas, Detail := "must be greater than or equal to 0" }]
  else []) ++
  (if r.Spec.Replicas > maxReplicas then
    [{ Type_ := "FieldValueInvalid", Field := "spec.replicas",
       BadValue := .int r.Spec.Replicas, Detail := "must be less than or equal to 100" }]
  else []) ++
  (if r.Spec.Template.Spec.Containers.length == 0 then
    [{ Type_ := "FieldValueRequired", Field := "spec.template.spec.containers",
       BadValue := .str "", Detail := "at least one container must be specified" }]
  else []) ++
  validateContainers 0 r.Spec.Template.Spec.Containers

/-- Function `validateMyStatefulSet`; the error `apierrors.NewInvalid(kind, r.Name, allErrs)`
is given by its list of field errors. -/
def validateMyStatefulSet (r : MyStatefulset) : Except (List FieldError) Unit :=
  if (validationErrors r).length == 0 then .ok () else .error (validationErrors r)

/-- Function `ValidateCreate`. -/
def ValidateCreate (r : MyStatefulset) : Except (List FieldError) Unit :=
  validateMyStatefulSet r

/-- Function `strings.Contains`: `substr` starts at some position of `s`. -/
def stringsContains (s substr : String) : Bool :=
  s.toList.tails.any (fun t => substr.toList.isPrefixOf t)

/-- Function `isValidImageUpdate`. -/
def isValidImageUpdate (oldImage newImage : String) : Bool :=
  if stringsContains oldImage "prod" && stringsContains newImage "test" then false
  else true

/-- The method `Cpu()` of `corev1.ResourceList`: the entry `cpu`, or the zero quantity of
format `DecimalSI`. -/
def limitsCpu (limits : ResourceList) : Quantity :=
  (mapLookup limits "cpu").getD { Format := "DecimalSI" }

/-- The method `Memory()` of `corev1.ResourceList`: the entry `memory`, or the zero
quantity of format `BinarySI`. -/
def limitsMemory (limits : ResourceList) : Quantity :=
  (mapLookup limits "memory").getD { Format := "BinarySI" }

/-- Function `validateResourceUpdate`. The comparison `cmp` stands for the method
`Quantity.Cmp` of the apimachinery library, which the repository calls and does not
define. -/
def validateResourceUpdate (cmp : Quantity → Quantity → Int) (oldContainer newContainer : Container)
    (path : String) : Option FieldError :=
  if oldContainer.Resources.Limits.isSome && newContainer.Resources.Limits.isSome then
    if cmp (limitsCpu newContainer.Resources.Limits) (limitsCpu oldContainer.Resources.Limits) < 0 then
      some { Type_ := "FieldValueInvalid", Field := path ++ ".resources.limits.cpu",
             BadValue := .quantity (limitsCpu newContainer.Resources.Limits),
             Detail := "cannot decrease CPU limit" }
    else if cmp (limitsMemory newContainer.Resources.Limits)
        (limitsMemory oldContainer.Resources.Limits) < 0 then
      some { Type_ := "FieldValueInvalid", Field := path ++ ".resources.limits.memory",
             BadValue := .quantity (limitsMemory newContainer.Resources.Limits),
             Detail := "cannot decrease memory limit" }
    else none
  else none

/-- Function `ValidateUpdate`, the loop over the new containers, from index `i` on: each is
checked against the first old container of the same name, when there is one. -/
def validateContainerUpdates (cmp : Quantity → Quantity → Int) (oldContainers : List Container) :
    Nat → List Container → List FieldError
  | _, [] => []
  | i, newContainer :: rest =>
    (match oldContainers.find? (fun c => c.Name == newContainer.Name) with
      | none => []
      | some oldContainer =>
        (if !isValidImageUpdate oldContainer.Image newContainer.Image then
          [{ Type_ := "FieldValueInvalid", Field := containerPathOf i ++ ".image",
             BadValue := .str newContainer.Image, Detail := "invalid image update" }]
        else []) ++
        (validateResourceUpdate cmp oldContainer newContainer (containerPathOf i)).toList) ++
    validateContainerUpdates cmp oldContainers (i + 1) rest

/-- Function `ValidateUpdate`, the list `allErrs` of the rules for an update. The product
`oldReplicas*2` is an `int32`. -/
def updateErrors (cmp : Quantity → Quantity → Int) (r oldMyStatefulset : MyStatefulset) :
    List FieldError :=
  (if r.Spec.Replicas != oldMyStatefulset.Spec.Replicas then
    (if r.Spec.Replicas > wrap32 (oldMyStatefulset.Spec.Replicas * 2) then
      [{ Type_ := "FieldValueInvalid", Field := "spec.replicas",
         BadValue := .int r.Spec.Replicas,
         Detail := "cannot increase replicas by more than 100% in a single update" }]
    else [])
  else []) ++
  (if mapIndex oldMyStatefulset.Labels "app" != mapIndex r.Labels "app" then
    [{ Type_ := "FieldValueForbidden", Field := "metadata.labels.app",
       BadValue := .str "", Detail := "app label is immutable" }]
  else []) ++
  validateContainerUpdates cmp oldMyStatefulset.Spec.Template.Spec.Containers 0
    r.Spec.Template.Spec.Containers

/-- Function `ValidateUpdate` of the new object `r` against the old one, which is a
`MyStatefulset` (the type assertion succeeds). -/
def ValidateUpdate (cmp : Quantity → Quantity → Int) (r oldMyStatefulset : MyStatefulset) :
    Except (List FieldError) Unit :=
  match validateMyStatefulSet r with
  | .error err => .error err
  | .ok _ =>
    if (updateErrors cmp r oldMyStatefulset).length > 0 then
      .error (updateErrors cmp r oldMyStatefulset)
    else .ok ()

/-! ## Example objects

A workload `web` in namespace `default` with selector and template labels `app=test` and
one container, as in the repository's tests, and pods `web-<k>` of that workload. -/

/-- The labels `app=test`. -/
def exLabels : GoMap := some [("app", "test")]

/-- A container running `image`. -/
def exContainer (image : String) : Container := { Name := "test-container", Image := image }

/-- Strategy RollingUpdate with no partition set. -/
def exRolling : UpdateStrategy := { Type_ := RollingUpdateStatefulSetStrategyType }

/-- Strategy RollingUpdate with the given partition. -/
def exRollingFrom (partition : Int) : UpdateStrategy :=
  { Type_ := RollingUpdateStatefulSetStrategyType, RollingUpdate := some { Partition := some partition } }

/-- The workload `default/web` with `replicas` replicas of `image`. -/
def exWorkload (replicas : Int) (image : String) (strategy : UpdateStrategy) : MyStatefulset :=
  { Name := "web", Namespace := "default", UID := "uid-web", Generation := 1,
    Spec := { Replicas := replicas, ServiceName := "web-svc",
              Selector := some { MatchLabels := exLabels },
              Template := { Labels := exLabels, Spec := { Containers := [exContainer image] } },
              UpdateStrategy := strategy } }

/-- A Running and Ready pod `default/<name>` with labels `app=test`, running `image`. -/
def exPod (name image : String) : Pod :=
  { Name := name, Namespace := "default", Labels := exLabels,
    Spec := { Containers := [exContainer image] },
    Status := { Phase := "Running", Conditions := [{ Type_ := "Ready", Status := "True" }] } }

/-- The pods `web-0 .. web-(n-1)`, all running `image`. -/
def exPods (n : Nat) (image : String) : List Pod :=
  (List.range n).map (fun i => exPod (podNameOf "web" i) image)

/-- The workload, marked for deletion and holding the controller's finalizer. -/
def exDeleting (m : MyStatefulset) : MyStatefulset :=
  { m with DeletionTimestamp := some 1, Finalizers := [myStatefulsetFinalizer] }

/-- A claim template named `www` that sets no labels. -/
def exClaimTemplate : PersistentVolumeClaim :=
  { Name := "www", Spec := { AccessModes := ["ReadWriteOnce"], Storage := "1Gi" } }

/-- The workload with the claim template `www`. -/
def exWithClaims (m : MyStatefulset) : MyStatefulset :=
  { m with Spec := { m.Spec with VolumeClaimTemplates := [exClaimTemplate] } }

/-- The workload with a template that has no container. -/
def exNoContainer (m : MyStatefulset) : MyStatefulset :=
  { m with Spec := { m.Spec with Template := { m.Spec.Template with Spec := {} } } }

/-- The workload with the extra template label `tier=db`, which its selector lacks. -/
def exExtraLabel (m : MyStatefulset) : MyStatefulset :=
  { m with Spec := { m.Spec with
      Template := { m.Spec.Template with Labels := some [("app", "test"), ("tier", "db")] } } }

/-- A claim `default/<name>` with labels `app=test`. -/
def exClaim (name : String) : PersistentVolumeClaim :=
  { Name := name, Namespace := "default", Labels := exLabels }

/-- The workload `web` with three replicas whose stored status is the one `updateStatus`
recomputes from three Running and Ready pods of the template. -/
def exConverged : MyStatefulset :=
  { exWorkload 3 "nginx:1.19" exRolling with
    Status := { Replicas := 3, ReadyReplicas := 3, CurrentReplicas := 3, UpdatedReplicas := 3,
                AvailableReplicas := 3, ObservedGeneration := 1 } }

/-- The cluster of the converged workload: its three pods and the stored object. -/
def exConvergedWorld : World :=
  { pods := exPods 3 "nginx:1.19", objects := [exConverged] }

/-! ## Notions of the specification -/

/-- Two Go maps are the same value for `reflect.DeepEqual`: both nil or both non-nil, and
every key has the same binding (or none) in both. -/
def GoMapEq {V : Type} (a b : GoMapOf V) : Prop :=
  (a.isSome = b.isSome) ∧ ∀ k, mapLookup a k = mapLookup b k

/-- Two resource requirements are the same Go value: the same limits and the same requests,
each key bound to the same quantity as Go holds it, and the same claims. -/
def ResourcesEq (a b : ResourceRequirements) : Prop :=
  GoMapEq a.Limits b.Limits ∧ GoMapEq a.Requests b.Requests ∧ a.Claims = b.Claims

/-! ## More example objects -/

/-- A claim template named `data` that asks for `storage`. -/
def exDataTemplate (storage : String) : PersistentVolumeClaim :=
  { Name := "data", Spec := { AccessModes := ["ReadWriteOnce"], Storage := storage } }

/-- The workload with the given claim templates. -/
def exWithTemplates (m : MyStatefulset) (ts : List PersistentVolumeClaim) : MyStatefulset :=
  { m with Spec := { m.Spec with VolumeClaimTemplates := ts } }

/-- The workload with the given template labels. -/
def exWithTemplateLabels (m : MyStatefulset) (labels : GoMap) : MyStatefulset :=
  { m with Spec := { m.Spec with Template := { m.Spec.Template with Labels := labels } } }

/-- The workload with the given selector. -/
def exWithSelector (m : MyStatefulset) (selector : Option LabelSelector) : MyStatefulset :=
  { m with Spec := { m.Spec with Selector := selector } }

/-- The pod with the given conditions. -/
def exWithConditions (p : Pod) (conditions : List PodCondition) : Pod :=
  { p with Status := { p.Status with Conditions := conditions } }

/-- The pod in the given phase. -/
def exInPhase (p : Pod) (phase : String) : Pod :=
  { p with Status := { p.Status with Phase := phase } }

/-- The cluster of the scale-down scenario: the workload `web` with the claim template
`www`, stored with 1 replica, its governing service, and the pods and claims of the ordinals
0, 1 and 2 from the time it had 3 replicas. -/
def exScaledDownWorld : World :=
  { pods := exPods 3 "nginx:1.19",
    pvcs := (List.range 3).map
      (buildPVC (exWithClaims (exWorkload 3 "nginx:1.19" exRolling)) exClaimTemplate),
    services := [("default", "web-svc")],
    objects := [exWithClaims (exWorkload 1 "nginx:1.19" exRolling)] }

/-- The workload of the webhook tests: `test-statefulset` in `default` with the label and
selector `app=test` and one container `nginx` running `image`. -/
def exAdmitted (replicas : Int) (image : String) : MyStatefulset :=
  { Name := "test-statefulset", Namespace := "default",
    Spec := { Replicas := replicas,
              Selector := some { MatchLabels := exLabels },
              Template := { Labels := exLabels,
                            Spec := { Containers := [{ Name := "nginx", Image := image }] } } } }

/-- A comparison of quantities for the examples, which set no limits: all compare equal. -/
def exCmp (_ _ : Quantity) : Int := 0

/-- The quantity that parsing `1000m` gives: 1000 at scale -3. -/
def exMilliCpu : Quantity := { value := 1000, scale := -3, Format := "DecimalSI" }

/-- The quantity that parsing `1` gives: 1 at scale 0. -/
def exOneCpu : Quantity := { value := 1, scale := 0, Format := "DecimalSI" }

/-- The pod with the cpu limit `cpu` on each of its containers. -/
def exPodWithCpu (p : Pod) (cpu : Quantity) : Pod :=
  { p with Spec := { p.Spec with
      Containers := p.Spec.Containers.map
        (fun c => { c with Resources := { Limits := some [("cpu", cpu)] } }) } }

/-- The workload with the cpu limit `cpu` on each container of its template. -/
def exWithCpu (m : MyStatefulset) (cpu : Quantity) : MyStatefulset :=
  { m with Spec := { m.Spec with Template := { m.Spec.Template with
      Spec := { m.Spec.Template.Spec with
        Containers := m.Spec.Template.Spec.Containers.map
          (fun c => { c with Resources := { Limits := some [("cpu", cpu)] } }) } } } }

/-- The workload with the given ports on each of its containers. -/
def exWithPorts (m : MyStatefulset) (ports : List ContainerPort) : MyStatefulset :=
  { m with Spec := { m.Spec with Template := { m.Spec.Template with
      Spec := { m.Spec.Template.Spec with
        Containers := m.Spec.Template.Spec.Containers.map (fun c => { c with Ports := ports }) } } } }

/-! # Lemmas -/

/-! ## Ordinals and names -/

theorem toDigitsCore_suffix (b : Nat) : ∀ (fuel n : Nat) (ds : List Char),
    ∃ pre, Nat.toDigitsCore b fuel n ds = pre ++ ds := by
  intro fuel
  induction fuel with
  | zero => intro n ds; exact ⟨[], by simp [Nat.toDigitsCore]⟩
  | succ f ih =>
    intro n ds
    simp only [Nat.toDigitsCore]
    split
    · exact ⟨[Nat.digitChar (n % b)], by simp⟩
    · obtain ⟨pre, h⟩ := ih (n / b) (Nat.digitChar (n % b) :: ds)
      exact ⟨pre ++ [Nat.digitChar (n % b)], by simp [h]⟩

theorem toString_getLast (k : Nat) :
    (toString k).toList.getLast? = some (Nat.digitChar (k % 10)) := by
  show (Nat.repr k).toList.getLast? = _
  unfold Nat.repr Nat.toDigits
  simp only [Nat.toDigitsCore]
  split
  · simp [List.asString]
  · obtain ⟨pre, h⟩ := toDigitsCore_suffix 10 k (k / 10) [Nat.digitChar (k % 10)]
    simp [List.asString, h]

theorem atoiDigit_digitChar (d : Nat) (h : d < 10) : atoiDigit (Nat.digitChar d) = d := by
  interval_cases d <;> decide

/-- The ordinal that `getOrdinal` reads from a name ending in the decimal numeral of `k` is
the last digit of `k`. -/
theorem getOrdinal_append_toString (pre : String) (k : Nat) :
    getOrdinal (pre ++ toString k) = some (k % 10) := by
  unfold getOrdinal
  have h2 : (pre ++ toString k).toList.getLast? = some (Nat.digitChar (k % 10)) := by
    have h := toString_getLast k
    rw [String.toList] at *
    simp only [String.data_append]
    rw [List.getLast?_append, h]
    simp
  rw [h2]
  simp [atoiDigit_digitChar _ (Nat.mod_lt k (by decide))]

theorem getOrdinal_podNameOf (name : String) (k : Nat) :
    getOrdinal (podNameOf name k) = some (k % 10) :=
  getOrdinal_append_toString (name ++ "-") k

theorem getOrdinal_eq_none_iff (s : String) : getOrdinal s = none ↔ s = "" := by
  unfold getOrdinal
  constructor
  · intro h
    split at h
    · rename_i h1
      have : s.toList = [] := by simpa using h1
      cases s
      simp only [String.toList] at this
      subst this
      rfl
    · simp at h
  · intro h
    subst h
    rfl

/-! ## The cluster calls -/

theorem apiDeletePod_log (w : World) (ns name : String) :
    ((apiDeletePod w ns name).1 = .ok () ∧
      (apiDeletePod w ns name).2.log = w.log ++ [.deletePod ns name]) ∨
    ((apiDeletePod w ns name).1 = .error .notFound ∧ (apiDeletePod w ns name).2 = w) := by
  unfold apiDeletePod
  split <;> simp

theorem apiCreatePod_log (w : World) (pod : Pod) :
    ((apiCreatePod w pod).1 = .ok () ∧
      (apiCreatePod w pod).2.log = w.log ++ [.createPod pod]) ∨
    ((apiCreatePod w pod).1 = .error .alreadyExists ∧ (apiCreatePod w pod).2 = w) := by
  unfold apiCreatePod
  split <;> simp

theorem createPod_log (w : World) (m : MyStatefulset) (o : Nat) :
    ((createPod w m o).1 = .ok () ∧
      (createPod w m o).2.log = w.log ++ [.createPod (buildPod m o)]) ∨
    ((∃ e, (createPod w m o).1 = .error e) ∧ (createPod w m o).2 = w) := by
  unfold createPod
  split
  · simp
  · rcases apiCreatePod_log w (buildPod m o) with ⟨h1, h2⟩ | ⟨h1, h2⟩
    · left
      generalize apiCreatePod w (buildPod m o) = r at *
      obtain ⟨r1, r2⟩ := r
      simp only at h1 h2
      subst h1
      simp [h2]
    · right
      generalize apiCreatePod w (buildPod m o) = r at *
      obtain ⟨r1, r2⟩ := r
      simp only at h1 h2
      subst h1 h2
      simp [Failure.isAlreadyExists]

theorem getPod_after_delete (w : World) (ns name : String) :
    getPod (apiDeletePod w ns name).2 ns name = .error .notFound := by
  have key : List.find? (fun p => p.Namespace == ns && p.Name == name)
      (apiDeletePod w ns name).2.pods = none := by
    rw [List.find?_eq_none]
    intro x hx
    unfold apiDeletePod at hx
    by_cases h : (w.pods.any (fun p => p.Namespace == ns && p.Name == name)) = true
    · rw [if_pos h] at hx
      have := (List.mem_filter.mp hx).2
      intro hc
      rw [hc] at this
      simp at this
    · rw [if_neg h] at hx
      intro hc
      exact h (List.any_eq_true.mpr ⟨x, hx, hc⟩)
  unfold getPod
  rw [key]

theorem waitForPodDeletion_after_delete (w : World) (ns name : String) :
    waitForPodDeletion (apiDeletePod w ns name).2 name ns = .ok () := by
  unfold waitForPodDeletion
  rw [getPod_after_delete]
  rfl

/-- What the loop of the rolling update does: it ends without a call (no listed pod is
eligible), or it panics on an empty name before any call, or it deletes the first eligible
pod of the list and creates a pod from the template at the ordinal read from its name. -/
theorem rollingUpdateLoop_spec (m : MyStatefulset) (P : Int) : ∀ (pods : List Pod) (w : World),
    ((rollingUpdateLoop m P w pods).1 = none ∧ (rollingUpdateLoop m P w pods).2 = w ∧
      ∀ pod ∈ pods, ∃ o, getOrdinal pod.Name = some o ∧
        ¬ (P ≤ (o : Int) ∧ needsUpdate pod m = true)) ∨
    ((rollingUpdateLoop m P w pods).1 = some (.error (.panic "slice bounds out of range")) ∧
      (rollingUpdateLoop m P w pods).2 = w ∧ ∃ pod ∈ pods, pod.Name = "") ∨
    (∃ victim ∈ pods, ∃ o, getOrdinal victim.Name = some o ∧ P ≤ (o : Int) ∧
      needsUpdate victim m = true ∧
      rollingUpdateLoop m P w pods =
        (some (createPod (apiDeletePod w victim.Namespace victim.Name).2 m o).1,
          (createPod (apiDeletePod w victim.Namespace victim.Name).2 m o).2)) := by
  intro pods
  induction pods with
  | nil => intro w; left; simp [rollingUpdateLoop]
  | cons pod rest ih =>
    intro w
    cases hord : getOrdinal pod.Name with
    | none =>
      right; left
      refine ⟨by simp [rollingUpdateLoop, hord], by simp [rollingUpdateLoop, hord],
        pod, List.mem_cons_self _ _, (getOrdinal_eq_none_iff _).mp hord⟩
    | some o =>
      by_cases hel : (P ≤ (o : Int) ∧ needsUpdate pod m = true)
      · right; right
        refine ⟨pod, List.mem_cons_self _ _, o, hord, hel.1, hel.2, ?_⟩
        have hw := waitForPodDeletion_after_delete w pod.Namespace pod.Name
        have hcond : ((o : Int) ≥ P && needsUpdate pod m) = true := by
          simp [hel.1, hel.2]
        simp only [rollingUpdateLoop, hord, hcond, if_true]
        rcases apiDeletePod_log w pod.Namespace pod.Name with ⟨h1, _⟩ | ⟨h1, _⟩
        · generalize apiDeletePod w pod.Namespace pod.Name = r at *
          obtain ⟨r1, r2⟩ := r
          simp only at h1 hw
          subst h1
          simp only [hw]
          generalize createPod r2 m o = c
          obtain ⟨c1, c2⟩ := c
          cases c1 <;> rfl
        · generalize apiDeletePod w pod.Namespace pod.Name = r at *
          obtain ⟨r1, r2⟩ := r
          simp only at h1 hw
          subst h1
          simp only [hw, Failure.isNotFound]
          generalize createPod r2 m o = c
          obtain ⟨c1, c2⟩ := c
          cases c1 <;> rfl
      · have hcond : ((o : Int) ≥ P && needsUpdate pod m) = false := by
          by_cases h1 : P ≤ (o : Int)
          · have : needsUpdate pod m = false := by
              cases h : needsUpdate pod m
              · rfl
              · exact absurd ⟨h1, h⟩ hel
            simp [this]
          · simp [h1]
        have hstep : rollingUpdateLoop m P w (pod :: rest) = rollingUpdateLoop m P w rest := by
          simp only [rollingUpdateLoop, hord, hcond]
          rfl
        rw [hstep]
        rcases ih w with ⟨h1, h2, h3⟩ | ⟨h1, h2, p, hp, hp2⟩ | ⟨v, hv, o2, h1, h2, h3, h4⟩
        · left
          refine ⟨h1, h2, ?_⟩
          intro p hp
          rcases List.mem_cons.mp hp with rfl | hp
          · exact ⟨o, hord, hel⟩
          · exact h3 p hp
        · right; left
          exact ⟨h1, h2, p, List.mem_cons_of_mem _ hp, hp2⟩
        · right; right
          exact ⟨v, List.mem_cons_of_mem _ hv, o2, h1, h2, h3, h4⟩

theorem rollingUpdateLoop_log (m : MyStatefulset) (P : Int) (pods : List Pod) (w : World) :
    ∃ acts, (rollingUpdateLoop m P w pods).2.log = w.log ++ acts ∧
      ∀ ns nm, Action.deletePod ns nm ∈ acts →
        ∃ o, getOrdinal nm = some o ∧ P ≤ (o : Int) := by
  rcases rollingUpdateLoop_spec m P pods w with ⟨_, h2, _⟩ | ⟨_, h2, _⟩ |
    ⟨v, _, o, h1, h2, _, h4⟩
  · exact ⟨[], by simp [h2], by simp⟩
  · exact ⟨[], by simp [h2], by simp⟩
  · rw [h4]
    rcases apiDeletePod_log w v.Namespace v.Name with ⟨_, hd⟩ | ⟨_, hd⟩ <;>
      rcases createPod_log (apiDeletePod w v.Namespace v.Name).2 m o with ⟨_, hc⟩ | ⟨_, hc⟩
    · refine ⟨[.deletePod v.Namespace v.Name, .createPod (buildPod m o)], by simp [hc, hd], ?_⟩
      intro ns nm hmem
      simp at hmem
      exact ⟨o, by rw [hmem.2]; exact h1, h2⟩
    · refine ⟨[.deletePod v.Namespace v.Name], by simp [hc, hd], ?_⟩
      intro ns nm hmem
      simp at hmem
      exact ⟨o, by rw [hmem.2]; exact h1, h2⟩
    · refine ⟨[.createPod (buildPod m o)], by rw [hd] at hc; simp [hc, hd], ?_⟩
      intro ns nm hmem
      simp at hmem
    · exact ⟨[], by rw [hd] at hc; simp [hc, hd], by simp⟩

theorem rollingUpdate_log (w : World) (m : MyStatefulset) (existingPods : List Pod) :
    ∃ acts, (rollingUpdate w m existingPods).2.log = w.log ++ acts ∧
      ∀ ns nm, Action.deletePod ns nm ∈ acts →
        ∃ o, getOrdinal nm = some o ∧ partitionOf m ≤ (o : Int) := by
  unfold rollingUpdate
  split
  · split
    · exact ⟨[], by simp, by simp⟩
    · rename_i sorted _
      obtain ⟨acts, h1, h2⟩ := rollingUpdateLoop_log m (partitionOf m) sorted w
      refine ⟨acts, ?_, h2⟩
      split <;> rename_i heq <;> rw [heq] at h1 <;> exact h1
  · exact ⟨[], by simp, by simp⟩

/-! ## `sort.Slice` -/

theorem sinkLeft_perm {α : Type} (less : α → α → Option Bool) (x : α) :
    ∀ (acc r : List α), sinkLeft less x acc = some r → r.Perm (x :: acc) := by
  intro acc
  induction acc with
  | nil =>
    intro r h
    simp [sinkLeft] at h
    subst h
    exact List.Perm.refl _
  | cons p rest ih =>
    intro r h
    unfold sinkLeft at h
    split at h
    · simp at h
    · cases hs : sinkLeft less x rest with
      | none => simp [hs] at h
      | some l =>
        simp [hs] at h
        subst h
        exact ((ih l hs).cons p).trans (List.Perm.swap x p rest)
    · simp at h
      subst h
      exact List.Perm.refl _

theorem sortSliceAux_perm {α : Type} (less : α → α → Option Bool) :
    ∀ (xs acc r : List α), sortSliceAux less acc xs = some r → r.Perm (acc ++ xs) := by
  intro xs
  induction xs with
  | nil =>
    intro acc r h
    simp [sortSliceAux] at h
    subst h
    simp
  | cons x rest ih =>
    intro acc r h
    unfold sortSliceAux at h
    split at h
    · simp at h
    · rename_i acc1 hs
      have h1 := ih acc1 r h
      have h2 := sinkLeft_perm less x acc acc1 hs
      refine h1.trans ?_
      refine (h2.append_right rest).trans ?_
      exact (List.perm_middle : (acc ++ x :: rest).Perm (x :: (acc ++ rest))).symm

theorem sortSlice_perm {α : Type} (less : α → α → Option Bool) (items r : List α)
    (h : sortSlice less items = some r) : r.Perm items := by
  simpa using sortSliceAux_perm less items [] r h

theorem sinkLeft_isSome {α : Type} (less : α → α → Option Bool) (x : α) :
    ∀ (acc : List α), (∀ p ∈ acc, (less x p).isSome) → ∃ r, sinkLeft less x acc = some r := by
  intro acc
  induction acc with
  | nil => intro _; exact ⟨[x], rfl⟩
  | cons p rest ih =>
    intro h
    have hp := h p (List.mem_cons_self _ _)
    obtain ⟨r, hr⟩ := ih (fun q hq => h q (List.mem_cons_of_mem _ hq))
    cases hl : less x p with
    | none => simp [hl] at hp
    | some b =>
      cases b
      · exact ⟨x :: p :: rest, by simp [sinkLeft, hl]⟩
      · exact ⟨p :: r, by simp [sinkLeft, hl, hr]⟩

theorem sortSliceAux_isSome {α : Type} (less : α → α → Option Bool) :
    ∀ (xs acc : List α), (∀ a ∈ acc ++ xs, ∀ b ∈ acc ++ xs, (less a b).isSome) →
      ∃ r, sortSliceAux less acc xs = some r := by
  intro xs
  induction xs with
  | nil => intro acc _; exact ⟨acc.reverse, rfl⟩
  | cons x rest ih =>
    intro acc h
    obtain ⟨acc1, h1⟩ := sinkLeft_isSome less x acc
      (fun p hp => h x (by simp) p (by simp [hp]))
    have hperm := sinkLeft_perm less x acc acc1 h1
    have hmem : ∀ a, a ∈ acc1 ++ rest → a ∈ acc ++ x :: rest := by
      intro a ha
      rcases List.mem_append.mp ha with ha | ha
      · have := hperm.mem_iff.mp ha
        rcases List.mem_cons.mp this with rfl | h3
        · simp
        · simp [h3]
      · simp [ha]
    obtain ⟨r, hr⟩ := ih acc1 (fun a ha b hb => h a (hmem a ha) b (hmem b hb))
    exact ⟨r, by simp [sortSliceAux, h1, hr]⟩

theorem ordinalGreater_isSome (a b : Pod) (ha : a.Name ≠ "") (hb : b.Name ≠ "") :
    (ordinalGreater a b).isSome := by
  unfold ordinalGreater
  cases h1 : getOrdinal a.Name with
  | none => exact absurd ((getOrdinal_eq_none_iff _).mp h1) ha
  | some i =>
    cases h2 : getOrdinal b.Name with
    | none => exact absurd ((getOrdinal_eq_none_iff _).mp h2) hb
    | some j => simp

theorem sortSlice_ordinal_isSome (items : List Pod) (h : ∀ p ∈ items, p.Name ≠ "") :
    ∃ r, sortSlice ordinalGreater items = some r := by
  unfold sortSlice
  apply sortSliceAux_isSome
  intro a ha b hb
  simp only [List.nil_append] at ha hb
  exact ordinalGreater_isSome a b (h a ha) (h b hb)

/-! ## One replacement per pass -/

theorem listPods_mem (w : World) (ns : String) (sel : GoMap) (p : Pod)
    (h : p ∈ listPods w ns sel) : p ∈ w.pods ∧ p.Namespace = ns := by
  unfold listPods at h
  have h1 := List.mem_filter.mp h
  refine ⟨h1.1, ?_⟩
  have h2 := h1.2
  simp only [Bool.and_eq_true, beq_iff_eq] at h2
  exact h2.1

theorem apiDeletePod_of_mem (w : World) (p : Pod) (h : p ∈ w.pods) :
    (apiDeletePod w p.Namespace p.Name).2.log = w.log ++ [.deletePod p.Namespace p.Name] ∧
    (apiDeletePod w p.Namespace p.Name).2.pods =
      w.pods.filter (fun q => !(q.Namespace == p.Namespace && q.Name == p.Name)) := by
  unfold apiDeletePod
  have : (w.pods.any (fun q => q.Namespace == p.Namespace && q.Name == p.Name)) = true :=
    List.any_eq_true.mpr ⟨p, h, by simp⟩
  rw [if_pos this]
  exact ⟨rfl, rfl⟩

theorem createPod_ok_of_free (w : World) (m : MyStatefulset) (o : Nat)
    (hc : m.Spec.Template.Spec.Containers ≠ [])
    (hfree : ∀ q ∈ w.pods, ¬ (q.Namespace = m.Namespace ∧ q.Name = podNameOf m.Name o)) :
    (createPod w m o).1 = .ok () := by
  unfold createPod
  have h0 : (m.Spec.Template.Spec.Containers.length == 0) = false := by
    cases hl : m.Spec.Template.Spec.Containers with
    | nil => exact absurd hl hc
    | cons a l => rfl
  rw [h0]
  simp only [Bool.false_eq_true, if_false]
  unfold apiCreatePod
  have h1 : (w.pods.any (fun p => p.Namespace == (buildPod m o).Namespace &&
      p.Name == (buildPod m o).Name)) = false := by
    rw [List.any_eq_false]
    intro q hq hcon
    simp only [Bool.and_eq_true, beq_iff_eq] at hcon
    exact hfree q hq ⟨hcon.1, hcon.2⟩
  rw [h1]
  rfl

/-! ## Status counts -/

theorem wrap32_succ (x : Int) (h0 : 0 ≤ x) (h1 : x + 1 < 2147483648) : wrap32 (x + 1) = x + 1 := by
  unfold wrap32
  omega

theorem foldl_countPod (now : Int) (m : MyStatefulset) : ∀ (pods : List Pod) (c : ReplicaCounts),
    0 ≤ c.currentReplicas → 0 ≤ c.readyReplicas → 0 ≤ c.updatedReplicas →
    0 ≤ c.availableReplicas →
    c.currentReplicas + pods.length < 2147483648 →
    c.readyReplicas + pods.length < 2147483648 →
    c.updatedReplicas + pods.length < 2147483648 →
    c.availableReplicas + pods.length < 2147483648 →
    (pods.foldl (countPod now m) c).currentReplicas = c.currentReplicas + pods.length ∧
    (pods.foldl (countPod now m) c).readyReplicas = c.readyReplicas + pods.countP isPodReady ∧
    (pods.foldl (countPod now m) c).updatedReplicas =
      c.updatedReplicas + pods.countP (fun p => isPodUpdated p m) ∧
    (pods.foldl (countPod now m) c).availableReplicas =
      c.availableReplicas + pods.countP (fun p => isPodAvailable now p m.Spec.MinReadySeconds) := by
  intro pods
  induction pods with
  | nil => intro c _ _ _ _ _ _ _ _; simp
  | cons pod rest ih =>
    intro c h1 h2 h3 h4 b1 b2 b3 b4
    simp only [List.length_cons, Nat.cast_add, Nat.cast_one] at b1 b2 b3 b4
    have e1 : (countPod now m c pod).currentReplicas = c.currentReplicas + 1 := by
      simp only [countPod]
      exact wrap32_succ _ h1 (by omega)
    have e2 : (countPod now m c pod).readyReplicas =
        c.readyReplicas + (if isPodReady pod = true then 1 else 0) := by
      simp only [countPod]
      split
      · exact wrap32_succ _ h2 (by omega)
      · simp
    have e3 : (countPod now m c pod).updatedReplicas =
        c.updatedReplicas + (if isPodUpdated pod m = true then 1 else 0) := by
      simp only [countPod]
      split
      · exact wrap32_succ _ h3 (by omega)
      · simp
    have e4 : (countPod now m c pod).availableReplicas =
        c.availableReplicas +
          (if isPodAvailable now pod m.Spec.MinReadySeconds = true then 1 else 0) := by
      simp only [countPod]
      split
      · exact wrap32_succ _ h4 (by omega)
      · simp
    have hih := ih (countPod now m c pod)
      (by rw [e1]; omega) (by rw [e2]; split <;> omega) (by rw [e3]; split <;> omega)
      (by rw [e4]; split <;> omega)
      (by rw [e1]; omega) (by rw [e2]; split <;> omega) (by rw [e3]; split <;> omega)
      (by rw [e4]; split <;> omega)
    simp only [List.foldl_cons, List.length_cons, List.countP_cons]
    obtain ⟨r1, r2, r3, r4⟩ := hih
    rw [r1, r2, r3, r4, e1, e2, e3, e4]
    refine ⟨?_, ?_, ?_, ?_⟩
    · push_cast; ring
    · split
      · push_cast; ring
      · simp
    · split
      · push_cast; ring
      · simp
    · split
      · push_cast; ring
      · simp

theorem readyCondition_of_all (conds : List PodCondition)
    (hex : ∃ c ∈ conds, c.Type_ = "Ready")
    (hall : ∀ c ∈ conds, c.Type_ = "Ready" → c.Status = "True") :
    readyCondition conds = true := by
  induction conds with
  | nil => simp at hex
  | cons c rest ih =>
    unfold readyCondition
    by_cases h : c.Type_ = "Ready"
    · simp [h, hall c (List.mem_cons_self _ _) h]
    · simp only [beq_iff_eq, h, if_false]
      apply ih
      · obtain ⟨d, hd, hd2⟩ := hex
        rcases List.mem_cons.mp hd with rfl | hd
        · exact absurd hd2 h
        · exact ⟨d, hd, hd2⟩
      · exact fun d hd => hall d (List.mem_cons_of_mem _ hd)

theorem imagesMatch_of_map_eq : ∀ (cs ts : List Container),
    cs.map (fun c => c.Image) = ts.map (fun c => c.Image) → imagesMatch cs ts = true := by
  intro cs
  induction cs with
  | nil => intro ts _; cases ts <;> rfl
  | cons c rest ih =>
    intro ts h
    cases ts with
    | nil => rfl
    | cons t ts =>
      simp only [List.map_cons, List.cons.injEq] at h
      unfold imagesMatch
      simp [h.1, ih ts h.2]

theorem reflectDeepEqual_pointer_struct (s t : MyStatefulsetStatus) :
    reflectDeepEqual s.DeepCopy (.struct t) = false := rfl

theorem updateStatus_status (now : Int) (w : World) (m : MyStatefulset) (sel : LabelSelector)
    (hsel : m.Spec.Selector = some sel) :
    (updateStatus now w m).2.1.Status = newStatusOf now w m sel := by
  unfold updateStatus
  simp only [hsel, reflectDeepEqual_pointer_struct, Bool.not_false, if_true]
  split <;> rfl

/-! ## Effects of the calls on the whole cluster -/

theorem apiDeletePod_world (w : World) (ns name : String) :
    (apiDeletePod w ns name).2 = w ∨
    (apiDeletePod w ns name).2 =
      { w with pods := w.pods.filter (fun p => !(p.Namespace == ns && p.Name == name)),
               log := w.log ++ [.deletePod ns name] } := by
  unfold apiDeletePod
  split
  · right; rfl
  · left; rfl

theorem createPod_world (w : World) (m : MyStatefulset) (o : Nat) :
    ((∃ e, (createPod w m o).1 = .error e) ∧ (createPod w m o).2 = w) ∨
    ((createPod w m o).1 = .ok () ∧
      (createPod w m o).2 =
        { w with pods := w.pods ++ [buildPod m o], log := w.log ++ [.createPod (buildPod m o)] }) := by
  unfold createPod
  split
  · left; exact ⟨⟨_, rfl⟩, rfl⟩
  · by_cases hany : (w.pods.any (fun p => p.Namespace == (buildPod m o).Namespace &&
        p.Name == (buildPod m o).Name)) = true
    · left
      simp [apiCreatePod, hany, Failure.isAlreadyExists]
    · right
      simp [apiCreatePod, hany]

theorem apiCreatePVC_of_absent (w : World) (c : PersistentVolumeClaim)
    (h : getPVC w c.Namespace c.Name = .error .notFound) :
    apiCreatePVC w c = (.ok (), { w with pvcs := w.pvcs ++ [c], log := w.log ++ [.createPVC c] }) := by
  unfold apiCreatePVC
  have hany : (w.pvcs.any (fun d => d.Namespace == c.Namespace && d.Name == c.Name)) = false := by
    unfold getPVC at h
    cases hf : w.pvcs.find? (fun d => d.Namespace == c.Namespace && d.Name == c.Name) with
    | some d => simp [hf] at h
    | none =>
      rw [List.find?_eq_none] at hf
      rw [List.any_eq_false]
      exact hf
  rw [hany]
  rfl

theorem getPVC_cases (w : World) (ns name : String) :
    (getPVC w ns name = .error .notFound ∧
      ∀ c ∈ w.pvcs, ¬ (c.Namespace = ns ∧ c.Name = name)) ∨
    (∃ c ∈ w.pvcs, c.Namespace = ns ∧ c.Name = name ∧ getPVC w ns name = .ok c) := by
  unfold getPVC
  cases hf : w.pvcs.find? (fun c => c.Namespace == ns && c.Name == name) with
  | none =>
    left
    refine ⟨rfl, ?_⟩
    rw [List.find?_eq_none] at hf
    intro c hc hcon
    exact hf c hc (by simp [hcon.1, hcon.2])
  | some c =>
    right
    have h1 := List.find?_some hf
    have h2 := List.mem_of_find?_eq_some hf
    simp only [Bool.and_eq_true, beq_iff_eq] at h1
    exact ⟨c, h2, h1.1, h1.2, rfl⟩

theorem getPod_cases (w : World) (ns name : String) :
    (getPod w ns name = .error .notFound ∧
      ∀ p ∈ w.pods, ¬ (p.Namespace = ns ∧ p.Name = name)) ∨
    (∃ p ∈ w.pods, p.Namespace = ns ∧ p.Name = name ∧ getPod w ns name = .ok p) := by
  unfold getPod
  cases hf : w.pods.find? (fun p => p.Namespace == ns && p.Name == name) with
  | none =>
    left
    refine ⟨rfl, ?_⟩
    rw [List.find?_eq_none] at hf
    intro p hp hcon
    exact hf p hp (by simp [hcon.1, hcon.2])
  | some p =>
    right
    have h1 := List.find?_some hf
    have h2 := List.mem_of_find?_eq_some hf
    simp only [Bool.and_eq_true, beq_iff_eq] at h1
    exact ⟨p, h2, h1.1, h1.2, rfl⟩

/-! ## Fill and Drain -/

/-- What the Fill loop does: it appends pods built from the template, one for an ordinal
of its list, and logs their creation; when it returns no error every ordinal of the list has
its pod in the workload's namespace. -/
theorem fillLoop_spec (m : MyStatefulset) : ∀ (l : List Nat) (w : World),
    ∃ new : List Pod,
      (fillLoop m w l).2 =
        { w with pods := w.pods ++ new, log := w.log ++ new.map Action.createPod } ∧
      (∀ p ∈ new, ∃ i ∈ l, p = buildPod m i) ∧
      ((fillLoop m w l).1 = .ok () → ∀ i ∈ l, ∃ p ∈ w.pods ++ new,
        p.Namespace = m.Namespace ∧ p.Name = podNameOf m.Name i) := by
  intro l
  induction l with
  | nil =>
    intro w
    exact ⟨[], by simp [fillLoop], by simp, by simp⟩
  | cons i rest ih =>
    intro w
    rcases getPod_cases w m.Namespace (podNameOf m.Name i) with ⟨hget, _⟩ | ⟨p, hp, hns, hnm, hget⟩
    · rcases createPod_world w m i with ⟨⟨e, he⟩, hw⟩ | ⟨hok, hw⟩
      · refine ⟨[], ?_, by simp, ?_⟩
        · simp only [fillLoop, hget, Failure.isNotFound]
          generalize createPod w m i = c at *
          obtain ⟨c1, c2⟩ := c
          simp only at he hw
          subst he hw
          simp
        · intro h
          exfalso
          simp only [fillLoop, hget, Failure.isNotFound] at h
          generalize createPod w m i = c at *
          obtain ⟨c1, c2⟩ := c
          simp only at he
          subst he
          simp at h
      · have hstep : fillLoop m w (i :: rest) = fillLoop m (createPod w m i).2 rest := by
          simp only [fillLoop, hget, Failure.isNotFound]
          generalize createPod w m i = c at *
          obtain ⟨c1, c2⟩ := c
          simp only at hok
          subst hok
          simp
        obtain ⟨new, h1, h2, h3⟩ := ih (createPod w m i).2
        rw [hw] at h1 h3
        refine ⟨buildPod m i :: new, ?_, ?_, ?_⟩
        · rw [hstep, hw, h1]
          simp
        · intro q hq
          rcases List.mem_cons.mp hq with rfl | hq
          · exact ⟨i, List.mem_cons_self _ _, rfl⟩
          · obtain ⟨j, hj, hj2⟩ := h2 q hq
            exact ⟨j, List.mem_cons_of_mem _ hj, hj2⟩
        · intro h j hj
          rw [hstep, hw] at h
          rcases List.mem_cons.mp hj with rfl | hj
          · exact ⟨buildPod m j, by simp, rfl, rfl⟩
          · obtain ⟨q, hq, hq2⟩ := h3 h j hj
            exact ⟨q, by simpa using hq, hq2⟩
    · have hstep : fillLoop m w (i :: rest) = fillLoop m w rest := by
        simp only [fillLoop, hget]
      obtain ⟨new, h1, h2, h3⟩ := ih w
      refine ⟨new, by rw [hstep, h1], ?_, ?_⟩
      · intro q hq
        obtain ⟨j, hj, hj2⟩ := h2 q hq
        exact ⟨j, List.mem_cons_of_mem _ hj, hj2⟩
      · intro h j hj
        rw [hstep] at h
        rcases List.mem_cons.mp hj with rfl | hj
        · exact ⟨p, by simp [hp], hns, hnm⟩
        · exact h3 h j hj

/-- What the Drain loop does: every call it logs deletes a listed pod whose ordinal, as
`getOrdinal` reads it, is at or above the replica count; claims, objects and events are
left alone; a pod that no logged call names is still there. -/
theorem drainLoop_spec (m : MyStatefulset) : ∀ (items : List Pod) (w : World),
    ∃ acts : List Action,
      (drainLoop m w items).2.log = w.log ++ acts ∧
      (∀ a ∈ acts, ∃ d ∈ items, ∃ o : Nat, a = .deletePod d.Namespace d.Name ∧
        getOrdinal d.Name = some o ∧ m.Spec.Replicas ≤ (o : Int)) ∧
      (drainLoop m w items).2.pvcs = w.pvcs ∧
      (drainLoop m w items).2.objects = w.objects ∧
      (drainLoop m w items).2.events = w.events ∧
      (drainLoop m w items).2.services = w.services ∧
      (∀ q ∈ w.pods, (∀ ns nm, Action.deletePod ns nm ∈ acts →
        ¬ (q.Namespace = ns ∧ q.Name = nm)) → q ∈ (drainLoop m w items).2.pods) ∧
      (∀ q ∈ (drainLoop m w items).2.pods, q ∈ w.pods) := by
  intro items
  induction items with
  | nil =>
    intro w
    exact ⟨[], by simp [drainLoop], by simp, rfl, rfl, rfl, rfl, fun q hq _ => hq, fun q hq => hq⟩
  | cons pod rest ih =>
    intro w
    cases hord : getOrdinal pod.Name with
    | none =>
      refine ⟨[], ?_, by simp, ?_, ?_, ?_, ?_, ?_, ?_⟩ <;>
        simp [drainLoop, hord]
    | some o =>
      by_cases hge : (o : Int) ≥ m.Spec.Replicas
      · have hstep : drainLoop m w (pod :: rest) =
            drainLoop m (apiDeletePod w pod.Namespace pod.Name).2 rest := by
          simp only [drainLoop, hord, hge, decide_True, if_true]
          rcases apiDeletePod_log w pod.Namespace pod.Name with ⟨h1, _⟩ | ⟨h1, _⟩
          · generalize apiDeletePod w pod.Namespace pod.Name = r at *
            obtain ⟨r1, r2⟩ := r
            simp only at h1
            subst h1
            rfl
          · generalize apiDeletePod w pod.Namespace pod.Name = r at *
            obtain ⟨r1, r2⟩ := r
            simp only at h1
            subst h1
            simp [Failure.isNotFound]
        obtain ⟨acts, h1, h2, h3, h4, h5, h6, h7, h8⟩ :=
          ih (apiDeletePod w pod.Namespace pod.Name).2
        rw [hstep]
        rcases apiDeletePod_world w pod.Namespace pod.Name with hw | hw
        · rw [hw] at h1 h3 h4 h5 h6 h7 h8 ⊢
          refine ⟨acts, h1, ?_, h3, h4, h5, h6, h7, h8⟩
          intro a ha
          obtain ⟨d, hd, o2, e1, e2, e3⟩ := h2 a ha
          exact ⟨d, List.mem_cons_of_mem _ hd, o2, e1, e2, e3⟩
        · rw [hw] at h1 h3 h4 h5 h6 h7 h8 ⊢
          refine ⟨Action.deletePod pod.Namespace pod.Name :: acts, ?_, ?_, h3, h4, h5, h6, ?_, ?_⟩
          · rw [h1]; simp
          · intro a ha
            rcases List.mem_cons.mp ha with rfl | ha
            · exact ⟨pod, List.mem_cons_self _ _, o, rfl, hord, hge⟩
            · obtain ⟨d, hd, o2, e1, e2, e3⟩ := h2 a ha
              exact ⟨d, List.mem_cons_of_mem _ hd, o2, e1, e2, e3⟩
          · intro q hq hno
            apply h7 q
            · simp only [List.mem_filter, Bool.not_eq_true', Bool.and_eq_false_imp, beq_iff_eq]
              refine ⟨hq, ?_⟩
              intro hns
              have := hno pod.Namespace pod.Name (List.mem_cons_self _ _)
              simp only [not_and] at this
              simpa using this hns
            · intro ns nm hmem
              exact hno ns nm (List.mem_cons_of_mem _ hmem)
          · intro q hq
            have := h8 q hq
            exact (List.mem_filter.mp this).1
      · have hstep : drainLoop m w (pod :: rest) = drainLoop m w rest := by
          simp only [drainLoop, hord, hge, decide_False]
          rfl
        obtain ⟨acts, h1, h2, h3, h4, h5, h6, h7, h8⟩ := ih w
        rw [hstep]
        refine ⟨acts, h1, ?_, h3, h4, h5, h6, h7, h8⟩
        intro a ha
        obtain ⟨d, hd, o2, e1, e2, e3⟩ := h2 a ha
        exact ⟨d, List.mem_cons_of_mem _ hd, o2, e1, e2, e3⟩

theorem reconcilePods_unfold (w : World) (m : MyStatefulset) (sel : LabelSelector)
    (hrep : m.Spec.Replicas ≠ 0) (hsel : m.Spec.Selector = some sel) :
    reconcilePods w m =
      if mapLen m.Spec.Template.Labels == 0 then
        (.error (.error "pod template labels cannot be empty"), w)
      else if !mapDeepEqual sel.MatchLabels m.Spec.Template.Labels then
        (.error (.error "pod template labels must match selector"), w)
      else
        match rollingUpdate w m (listPods w m.Namespace sel.MatchLabels) with
        | (.returned r, w1) => (r, w1)
        | (.next items, w1) =>
          match fillLoop m w1 (List.range m.Spec.Replicas.toNat) with
          | (.error err, w2) => (.error err, w2)
          | (.ok _, w2) => drainLoop m w2 items := by
  unfold reconcilePods
  have h1 : (m.Spec.Replicas == 0) = false := by simpa using hrep
  simp only [h1, hsel, Bool.false_eq_true, if_false]

theorem rollingUpdate_next_world (w : World) (m : MyStatefulset) (l items : List Pod)
    (h : (rollingUpdate w m l).1 = .next items) : (rollingUpdate w m l).2 = w := by
  unfold rollingUpdate at h ⊢
  split
  · rename_i hs
    simp only [hs, if_true] at h
    split
    · rfl
    · rename_i sorted hsort
      simp only [hsort] at h
      rcases rollingUpdateLoop_spec m (partitionOf m) sorted w with ⟨h1, h2, _⟩ | ⟨h1, _, _⟩ |
        ⟨v, _, o, _, _, _, h4⟩
      · generalize rollingUpdateLoop m (partitionOf m) w sorted = r at *
        obtain ⟨r1, r2⟩ := r
        simp only at h1 h2
        subst h1 h2
        rfl
      · generalize rollingUpdateLoop m (partitionOf m) w sorted = r at *
        obtain ⟨r1, r2⟩ := r
        simp only at h1
        subst h1
        simp at h
      · rw [h4] at h
        simp at h
  · rfl

theorem rollingUpdate_of_not_rolling (w : World) (m : MyStatefulset) (l : List Pod)
    (h : m.Spec.UpdateStrategy.Type_ ≠ RollingUpdateStatefulSetStrategyType) :
    rollingUpdate w m l = (.next l, w) := by
  unfold rollingUpdate
  have : (m.Spec.UpdateStrategy.Type_ == RollingUpdateStatefulSetStrategyType) = false := by
    simpa using h
  simp [this]

/-- The pass when the rolling-update block hands over to Fill: the pods of Fill are
appended, then Drain runs on the cluster Fill left. -/
theorem reconcilePods_next (w : World) (m : MyStatefulset) (sel : LabelSelector)
    (items : List Pod)
    (hrep : m.Spec.Replicas ≠ 0) (hsel : m.Spec.Selector = some sel)
    (hnext : (rollingUpdate w m (listPods w m.Namespace sel.MatchLabels)).1 = .next items)
    (hok : (reconcilePods w m).1 = .ok ()) :
    (fillLoop m w (List.range m.Spec.Replicas.toNat)).1 = .ok () ∧
    reconcilePods w m =
      drainLoop m (fillLoop m w (List.range m.Spec.Replicas.toNat)).2 items := by
  have hw := rollingUpdate_next_world w m _ items hnext
  rw [reconcilePods_unfold w m sel hrep hsel] at hok ⊢
  split at hok
  · simp at hok
  · split at hok
    · simp at hok
    · rename_i h1 h2
      simp only [h1, h2, if_false]
      generalize rollingUpdate w m (listPods w m.Namespace sel.MatchLabels) = r at *
      obtain ⟨r1, r2⟩ := r
      simp only at hnext hw
      subst hnext hw
      simp only at hok ⊢
      generalize fillLoop m r2 (List.range m.Spec.Replicas.toNat) = f at *
      obtain ⟨f1, f2⟩ := f
      cases f1 with
      | error e => simp at hok
      | ok u => exact ⟨rfl, rfl⟩

theorem reconcilePods_world_of_zero (w : World) (m : MyStatefulset)
    (h : m.Spec.Replicas = 0) : reconcilePods w m = (.ok (), w) := by
  unfold reconcilePods
  simp [h]

theorem reconcilePods_world_of_none (w : World) (m : MyStatefulset)
    (h : m.Spec.Selector = none) : (reconcilePods w m).2 = w := by
  unfold reconcilePods
  split
  · rfl
  · split
    · rfl
    · simp [h]

/-- The calls of a pass under a strategy other than RollingUpdate: creations by Fill, of pods
built from the template for ordinals below the replica count, then deletions by Drain, of
listed pods whose ordinal as `getOrdinal` reads it is at or above the replica count. -/
theorem reconcilePods_not_rolling_log (w : World) (m : MyStatefulset)
    (hstrategy : m.Spec.UpdateStrategy.Type_ ≠ RollingUpdateStatefulSetStrategyType) :
    ∃ (new : List Pod) (acts : List Action),
      (reconcilePods w m).2.log = w.log ++ (new.map Action.createPod ++ acts) ∧
      (∀ p ∈ new, ∃ i : Nat, (i : Int) < m.Spec.Replicas ∧ p = buildPod m i) ∧
      (∀ a ∈ acts, ∃ ns nm, ∃ o : Nat, a = .deletePod ns nm ∧
        getOrdinal nm = some o ∧ m.Spec.Replicas ≤ (o : Int)) := by
  by_cases hrep : m.Spec.Replicas = 0
  · exact ⟨[], [], by simp [reconcilePods_world_of_zero w m hrep], by simp, by simp⟩
  · cases hsel : m.Spec.Selector with
    | none => exact ⟨[], [], by simp [reconcilePods_world_of_none w m hsel], by simp, by simp⟩
    | some sel =>
      rw [reconcilePods_unfold w m sel hrep hsel]
      split
      · exact ⟨[], [], by simp, by simp, by simp⟩
      · split
        · exact ⟨[], [], by simp, by simp, by simp⟩
        · rw [rollingUpdate_of_not_rolling w m _ hstrategy]
          simp only
          obtain ⟨new, hf1, hf2, _⟩ := fillLoop_spec m (List.range m.Spec.Replicas.toNat) w
          have hnew : ∀ p ∈ new, ∃ i : Nat, (i : Int) < m.Spec.Replicas ∧ p = buildPod m i := by
            intro p hp
            obtain ⟨i, hi, hi2⟩ := hf2 p hp
            rw [List.mem_range] at hi
            exact ⟨i, by omega, hi2⟩
          generalize hfe : fillLoop m w (List.range m.Spec.Replicas.toNat) = f at *
          obtain ⟨f1, f2⟩ := f
          simp only at hf1
          cases f1 with
          | error e =>
            exact ⟨new, [], by simp [hf1], hnew, by simp⟩
          | ok u =>
            simp only
            obtain ⟨acts, hd1, hd2, _⟩ :=
              drainLoop_spec m (listPods w m.Namespace sel.MatchLabels) f2
            refine ⟨new, acts, ?_, hnew, ?_⟩
            · rw [hd1, hf1]; simp
            · intro a ha
              obtain ⟨d, _, o, e1, e2, e3⟩ := hd2 a ha
              exact ⟨d.Namespace, d.Name, o, e1, e2, e3⟩

/-! ## Claim names -/

theorem digitChar_isDigit (d : Nat) (h : d < 10) : (Nat.digitChar d).isDigit = true := by
  interval_cases d <;> decide

theorem toDigitsCore_isDigit : ∀ (fuel n : Nat) (ds : List Char),
    ∀ c ∈ Nat.toDigitsCore 10 fuel n ds, c ∈ ds ∨ c.isDigit = true := by
  intro fuel
  induction fuel with
  | zero => intro n ds c hc; left; simpa [Nat.toDigitsCore] using hc
  | succ f ih =>
    intro n ds c hc
    simp only [Nat.toDigitsCore] at hc
    split at hc
    · rcases List.mem_cons.mp hc with rfl | hc
      · right; exact digitChar_isDigit _ (Nat.mod_lt n (by decide))
      · left; exact hc
    · rcases ih _ _ c hc with h | h
      · rcases List.mem_cons.mp h with rfl | h
        · right; exact digitChar_isDigit _ (Nat.mod_lt n (by decide))
        · left; exact h
      · right; exact h

theorem toString_isDigit (k : Nat) : ∀ c ∈ (toString k).data, c.isDigit = true := by
  intro c hc
  have : c ∈ Nat.toDigitsCore 10 (k + 1) k [] := by
    simpa [toString, Nat.repr, Nat.toDigits, List.asString] using hc
  rcases toDigitsCore_isDigit _ _ _ c this with h | h
  · simp at h
  · exact h

theorem append_cons_inj_of_not_mem {α : Type} (c : α) :
    ∀ (a b x y : List α), c ∉ x → c ∉ y → a ++ c :: x = b ++ c :: y → a = b ∧ x = y := by
  intro a
  induction a with
  | nil =>
    intro b x y hx hy h
    cases b with
    | nil => simp at h; exact ⟨rfl, h⟩
    | cons b0 bs =>
      simp only [List.nil_append, List.cons_append, List.cons.injEq] at h
      exfalso
      apply hx
      rw [h.2]
      simp
  | cons a0 as ih =>
    intro b x y hx hy h
    cases b with
    | nil =>
      simp only [List.nil_append, List.cons_append, List.cons.injEq] at h
      exfalso
      apply hy
      rw [← h.2]
      simp
    | cons b0 bs =>
      simp only [List.cons_append, List.cons.injEq] at h
      obtain ⟨h1, h2⟩ := ih bs x y hx hy h.2
      exact ⟨by rw [h.1, h1], h2⟩

/-- Two claim names of one workload that are equal have the same volume name. -/
theorem pvcNameOf_volume_inj (v v2 n : String) (i j : Nat)
    (h : pvcNameOf v n i = pvcNameOf v2 n j) : v = v2 := by
  unfold pvcNameOf at h
  have hd := congrArg String.data h
  simp only [String.data_append] at hd
  have hi : '-' ∉ (toString i).data := fun hc => by
    have := toString_isDigit i _ hc
    exact absurd this (by decide)
  have hj : '-' ∉ (toString j).data := fun hc => by
    have := toString_isDigit j _ hc
    exact absurd this (by decide)
  have h1 : (v.data ++ ['-'] ++ n.data) ++ '-' :: (toString i).data =
      (v2.data ++ ['-'] ++ n.data) ++ '-' :: (toString j).data := by
    simpa [List.append_assoc] using hd
  obtain ⟨h2, _⟩ := append_cons_inj_of_not_mem '-' _ _ _ _ hi hj h1
  have h3 : v.data ++ ('-' :: n.data) = v2.data ++ ('-' :: n.data) := by
    simpa [List.append_assoc] using h2
  have h4 := List.append_cancel_right h3
  exact String.ext h4

/-! ## The claim manager -/

/-- What the inner loop of `reconcilePVCs` does for one template: it returns no error and
appends the claims it creates; each was built from the template for an ordinal of the list
and had no claim of its name before; every ordinal of the list had its claim before or has
the one built from the template now. -/
theorem reconcilePVCsOrdinals_spec (m : MyStatefulset) (t : PersistentVolumeClaim) :
    ∀ (l : List Nat) (w : World), ∃ new : List PersistentVolumeClaim,
      reconcilePVCsOrdinals m t w l =
        (.ok (), { w with pvcs := w.pvcs ++ new, log := w.log ++ new.map Action.createPVC }) ∧
      (∀ c ∈ new, ∃ i ∈ l, c = buildPVC m t i ∧
        ∀ d ∈ w.pvcs, ¬ (d.Namespace = m.Namespace ∧ d.Name = c.Name)) ∧
      (∀ i ∈ l,
        (∃ d ∈ w.pvcs, d.Namespace = m.Namespace ∧
          d.Name = pvcNameOf (volumeNameOf t) m.Name i) ∨
        buildPVC m t i ∈ new) := by
  intro l
  induction l with
  | nil =>
    intro w
    exact ⟨[], by simp [reconcilePVCsOrdinals], by simp, by simp⟩
  | cons i rest ih =>
    intro w
    rcases getPVC_cases w m.Namespace (pvcNameOf (volumeNameOf t) m.Name i) with
      ⟨hget, habs⟩ | ⟨d, hd, hns, hnm, hget⟩
    · have hcreate := apiCreatePVC_of_absent w (buildPVC m t i) hget
      obtain ⟨new, h1, h2, h3⟩ := ih
        { w with pvcs := w.pvcs ++ [buildPVC m t i],
                 log := w.log ++ [.createPVC (buildPVC m t i)] }
      refine ⟨buildPVC m t i :: new, ?_, ?_, ?_⟩
      · simp only [reconcilePVCsOrdinals, hget, Failure.isNotFound, if_true, hcreate, h1]
        simp
      · intro c hc
        rcases List.mem_cons.mp hc with rfl | hc
        · exact ⟨i, List.mem_cons_self _ _, rfl, habs⟩
        · obtain ⟨j, hj, hj2, hj3⟩ := h2 c hc
          exact ⟨j, List.mem_cons_of_mem _ hj, hj2, fun d hd => hj3 d (by simp [hd])⟩
      · intro j hj
        rcases List.mem_cons.mp hj with rfl | hj
        · right; simp
        · rcases h3 j hj with ⟨d, hd, hd1, hd2⟩ | h
          · simp only [List.mem_append, List.mem_singleton] at hd
            rcases hd with hd | rfl
            · left; exact ⟨d, hd, hd1, hd2⟩
            · right
              have : buildPVC m t j = buildPVC m t i := by
                simp only [buildPVC] at hd2 ⊢
                rw [hd2]
              rw [this]; simp
          · right; exact List.mem_cons_of_mem _ h
    · obtain ⟨new, h1, h2, h3⟩ := ih w
      refine ⟨new, ?_, ?_, ?_⟩
      · simp only [reconcilePVCsOrdinals, hget, h1]
      · intro c hc
        obtain ⟨j, hj, hj2, hj3⟩ := h2 c hc
        exact ⟨j, List.mem_cons_of_mem _ hj, hj2, hj3⟩
      · intro j hj
        rcases List.mem_cons.mp hj with rfl | hj
        · left; exact ⟨d, hd, hns, hnm⟩
        · exact h3 j hj

/-- What `reconcilePVCs` does over a list of templates: it returns no error and appends the
claims it creates, each built from a template of the list for an ordinal below the replica
count; a pair (template, ordinal) whose claim name was free before has, afterwards, the claim
built from the first template of the list with that volume name. -/
theorem reconcilePVCsTemplates_spec (m : MyStatefulset) :
    ∀ (ts : List PersistentVolumeClaim) (w : World), ∃ new : List PersistentVolumeClaim,
      reconcilePVCsTemplates m w ts =
        (.ok (), { w with pvcs := w.pvcs ++ new, log := w.log ++ new.map Action.createPVC }) ∧
      (∀ c ∈ new, ∃ t ∈ ts, ∃ i : Nat, (i : Int) < m.Spec.Replicas ∧ c = buildPVC m t i) ∧
      (∀ t ∈ ts, ∀ i : Nat, (i : Int) < m.Spec.Replicas →
        (∃ d ∈ w.pvcs, d.Namespace = m.Namespace ∧
          d.Name = pvcNameOf (volumeNameOf t) m.Name i) ∨
        (∃ t0, ts.find? (fun x => volumeNameOf x == volumeNameOf t) = some t0 ∧
          buildPVC m t0 i ∈ new)) := by
  intro ts
  induction ts with
  | nil =>
    intro w
    exact ⟨[], by simp [reconcilePVCsTemplates], by simp, by simp⟩
  | cons t1 rest ih =>
    intro w
    obtain ⟨new1, h1, h2, h3⟩ :=
      reconcilePVCsOrdinals_spec m t1 (List.range m.Spec.Replicas.toNat) w
    obtain ⟨new2, g1, g2, g3⟩ := ih
      { w with pvcs := w.pvcs ++ new1, log := w.log ++ new1.map Action.createPVC }
    refine ⟨new1 ++ new2, ?_, ?_, ?_⟩
    · simp only [reconcilePVCsTemplates, h1, g1]
      simp
    · intro c hc
      rcases List.mem_append.mp hc with hc | hc
      · obtain ⟨i, hi, hi2, _⟩ := h2 c hc
        rw [List.mem_range] at hi
        exact ⟨t1, List.mem_cons_self _ _, i, by omega, hi2⟩
      · obtain ⟨t, ht, i, hi, hi2⟩ := g2 c hc
        exact ⟨t, List.mem_cons_of_mem _ ht, i, hi, hi2⟩
    · intro t ht i hi
      have hmem : i ∈ List.range m.Spec.Replicas.toNat := by
        rw [List.mem_range]; omega
      by_cases hv : volumeNameOf t1 = volumeNameOf t
      · rcases h3 i hmem with ⟨d, hd, hd1, hd2⟩ | h
        · left; exact ⟨d, hd, hd1, by rw [← hv]; exact hd2⟩
        · right
          refine ⟨t1, by simp [List.find?, hv], ?_⟩
          simp [h]
      · have htrest : t ∈ rest := by
          rcases List.mem_cons.mp ht with rfl | ht
          · exact absurd rfl hv
          · exact ht
        rcases g3 t htrest i hi with ⟨d, hd, hd1, hd2⟩ | ⟨t0, ht0, hb⟩
        · simp only [List.mem_append] at hd
          rcases hd with hd | hd
          · left; exact ⟨d, hd, hd1, hd2⟩
          · exfalso
            obtain ⟨j, _, hj2, _⟩ := h2 d hd
            rw [hj2] at hd2
            simp only [buildPVC] at hd2
            exact hv (pvcNameOf_volume_inj _ _ _ _ _ hd2)
        · right
          refine ⟨t0, ?_, by simp [hb]⟩
          have : (volumeNameOf t1 == volumeNameOf t) = false := by simpa using hv
          simp [List.find?, this, ht0]

theorem reconcilePVCs_spec (w : World) (m : MyStatefulset) :
    ∃ new : List PersistentVolumeClaim,
      reconcilePVCs w m =
        (.ok (), { w with pvcs := w.pvcs ++ new, log := w.log ++ new.map Action.createPVC }) ∧
      (∀ c ∈ new, ∃ t ∈ m.Spec.VolumeClaimTemplates, ∃ i : Nat,
        (i : Int) < m.Spec.Replicas ∧ c = buildPVC m t i) ∧
      (∀ t ∈ m.Spec.VolumeClaimTemplates, ∀ i : Nat, (i : Int) < m.Spec.Replicas →
        (∃ d ∈ w.pvcs, d.Namespace = m.Namespace ∧
          d.Name = pvcNameOf (volumeNameOf t) m.Name i) ∨
        (∃ t0, m.Spec.VolumeClaimTemplates.find?
            (fun x => volumeNameOf x == volumeNameOf t) = some t0 ∧
          buildPVC m t0 i ∈ new)) :=
  reconcilePVCsTemplates_spec m m.Spec.VolumeClaimTemplates w

theorem find?_eq_self_of_nodup {α β : Type} [DecidableEq β] (f : α → β) :
    ∀ (ts : List α) (t : α), (ts.map f).Nodup → t ∈ ts →
      ts.find? (fun x => f x == f t) = some t := by
  intro ts
  induction ts with
  | nil => intro t _ ht; simp at ht
  | cons a rest ih =>
    intro t hnd ht
    simp only [List.map_cons, List.nodup_cons] at hnd
    rcases List.mem_cons.mp ht with rfl | ht
    · simp [List.find?]
    · have hne : f a ≠ f t := by
        intro heq
        apply hnd.1
        rw [heq]
        exact List.mem_map_of_mem f ht
      have : (f a == f t) = false := by simpa using hne
      simp [List.find?, this, ih t hnd.2 ht]

theorem reconcilePVCs_exists (w : World) (m : MyStatefulset)
    (t : PersistentVolumeClaim) (i : Nat)
    (ht : t ∈ m.Spec.VolumeClaimTemplates) (hi : (i : Int) < m.Spec.Replicas) :
    ∃ c ∈ (reconcilePVCs w m).2.pvcs,
      c.Namespace = m.Namespace ∧ c.Name = pvcNameOf (volumeNameOf t) m.Name i := by
  obtain ⟨new, h1, _, h3⟩ := reconcilePVCs_spec w m
  rw [h1]
  rcases h3 t ht i hi with ⟨d, hd, hd1, hd2⟩ | ⟨t0, ht0, hb⟩
  · exact ⟨d, by simp [hd], hd1, hd2⟩
  · have hv : volumeNameOf t0 = volumeNameOf t := by
      have := List.find?_some ht0
      simpa using this
    exact ⟨buildPVC m t0 i, by simp [hb], rfl, by simp [buildPVC, hv]⟩

/-! ## Claims are left alone -/

theorem apiDeletePod_pvcs (w : World) (ns name : String) :
    (apiDeletePod w ns name).2.pvcs = w.pvcs := by
  rcases apiDeletePod_world w ns name with h | h <;> rw [h]

theorem createPod_pvcs (w : World) (m : MyStatefulset) (o : Nat) :
    (createPod w m o).2.pvcs = w.pvcs := by
  rcases createPod_world w m o with ⟨_, h⟩ | ⟨_, h⟩ <;> rw [h]

theorem rollingUpdate_pvcs (w : World) (m : MyStatefulset) (l : List Pod) :
    (rollingUpdate w m l).2.pvcs = w.pvcs := by
  unfold rollingUpdate
  split
  · split
    · rfl
    · rename_i sorted _
      have key : (rollingUpdateLoop m (partitionOf m) w sorted).2.pvcs = w.pvcs := by
        rcases rollingUpdateLoop_spec m (partitionOf m) sorted w with ⟨_, h2, _⟩ | ⟨_, h2, _⟩ |
          ⟨v, _, o, _, _, _, h4⟩
        · rw [h2]
        · rw [h2]
        · rw [h4]
          simp only
          rw [createPod_pvcs, apiDeletePod_pvcs]
      split <;> rename_i heq <;> rw [heq] at key <;> exact key
  · rfl

theorem reconcilePods_pvcs (w : World) (m : MyStatefulset) :
    (reconcilePods w m).2.pvcs = w.pvcs := by
  by_cases hrep : m.Spec.Replicas = 0
  · rw [reconcilePods_world_of_zero w m hrep]
  · cases hsel : m.Spec.Selector with
    | none => rw [reconcilePods_world_of_none w m hsel]
    | some sel =>
      rw [reconcilePods_unfold w m sel hrep hsel]
      split
      · rfl
      · split
        · rfl
        · have hr := rollingUpdate_pvcs w m (listPods w m.Namespace sel.MatchLabels)
          generalize rollingUpdate w m (listPods w m.Namespace sel.MatchLabels) = r at *
          obtain ⟨r1, r2⟩ := r
          cases r1 with
          | returned e => exact hr
          | next items =>
            simp only at hr ⊢
            obtain ⟨new, hf1, _, _⟩ := fillLoop_spec m (List.range m.Spec.Replicas.toNat) r2
            generalize fillLoop m r2 (List.range m.Spec.Replicas.toNat) = f at *
            obtain ⟨f1, f2⟩ := f
            simp only at hf1
            cases f1 with
            | error e => simp only; rw [hf1]; exact hr
            | ok u =>
              simp only
              obtain ⟨_, _, _, hd3, _⟩ := drainLoop_spec m items f2
              rw [hd3, hf1]
              exact hr

theorem apiStatusUpdate_pvcs (w : World) (m : MyStatefulset) :
    (apiStatusUpdate w m).2.pvcs = w.pvcs := by
  unfold apiStatusUpdate
  split <;> rfl

theorem updateStatus_pvcs (now : Int) (w : World) (m : MyStatefulset) :
    (updateStatus now w m).2.2.pvcs = w.pvcs := by
  unfold updateStatus
  split
  · rfl
  · rename_i sel _
    simp only [reflectDeepEqual_pointer_struct, Bool.not_false, if_true]
    have h := apiStatusUpdate_pvcs w { m with Status := newStatusOf now w m sel }
    generalize apiStatusUpdate w { m with Status := newStatusOf now w m sel } = r at *
    obtain ⟨r1, r2⟩ := r
    cases r1 <;> exact h

/-! ## Go maps -/

theorem lookup_isSome_iff_mem {V : Type} (l : List (String × V)) (k : String) :
    (l.lookup k).isSome = true ↔ k ∈ l.map Prod.fst := by
  induction l with
  | nil => simp [List.lookup]
  | cons e rest ih =>
    obtain ⟨a, b⟩ := e
    by_cases h : k = a
    · subst h; simp [List.lookup]
    · have : (k == a) = false := by simpa using h
      simp [List.lookup, this, ih, h]

theorem mem_mapKeys_iff {V : Type} (m : GoMapOf V) (k : String) :
    k ∈ mapKeys m ↔ (mapLookup m k).isSome = true := by
  unfold mapKeys mapLookup
  rw [List.mem_dedup, lookup_isSome_iff_mem]

theorem templateMatchesSelector_false (sel labels : GoMap) (key v : String)
    (h1 : mapLookup sel key = some v) (h2 : mapLookup labels key ≠ some v) :
    templateMatchesSelector sel labels = false := by
  unfold templateMatchesSelector
  rw [List.all_eq_false]
  refine ⟨key, (mem_mapKeys_iff sel key).mpr (by simp [h1]), ?_⟩
  cases hl : mapLookup labels key with
  | none => simp
  | some v2 =>
    simp only [h1]
    intro hc
    apply h2
    rw [hl]
    have hv : v = v2 := by simpa using hc
    rw [hv]

/-! ## The reconciler -/

theorem mapLookup_eq_none_of_not_mem {V : Type} (m : GoMapOf V) (k : String)
    (h : k ∉ mapKeys m) :
    mapLookup m k = none := by
  rw [mem_mapKeys_iff] at h
  cases hl : mapLookup m k with
  | none => rfl
  | some v => rw [hl] at h; simp at h

/-- The function `reflect.DeepEqual` on two label maps decides that they are the same Go
map: same nil-ness and the same binding under every key. -/
theorem mapDeepEqual_iff {V : Type} [DecidableEq V] (a b : GoMapOf V) :
    mapDeepEqual a b = true ↔ GoMapEq a b := by
  unfold mapDeepEqual GoMapEq mapLen
  simp only [Bool.and_eq_true, beq_iff_eq, List.all_eq_true]
  constructor
  · rintro ⟨⟨h1, h2⟩, h3⟩
    refine ⟨h1, ?_⟩
    have hsub : mapKeys a ⊆ mapKeys b := by
      intro k hk
      rw [mem_mapKeys_iff] at hk ⊢
      rw [← h3 k ((mem_mapKeys_iff a k).mpr hk)]
      exact hk
    have hnda : (mapKeys a).Nodup := by unfold mapKeys; exact List.nodup_dedup _
    have hperm : (mapKeys a).Perm (mapKeys b) :=
      (List.subperm_of_subset hnda hsub).perm_of_length_le (by omega)
    intro k
    by_cases hk : k ∈ mapKeys a
    · exact h3 k hk
    · rw [mapLookup_eq_none_of_not_mem a k hk,
        mapLookup_eq_none_of_not_mem b k (fun hb => hk (hperm.mem_iff.mpr hb))]
  · rintro ⟨h1, h2⟩
    refine ⟨⟨h1, ?_⟩, fun k _ => h2 k⟩
    have hnda : (mapKeys a).Nodup := by unfold mapKeys; exact List.nodup_dedup _
    have hndb : (mapKeys b).Nodup := by unfold mapKeys; exact List.nodup_dedup _
    have hperm : (mapKeys a).Perm (mapKeys b) := by
      rw [List.perm_ext_iff_of_nodup hnda hndb]
      intro k
      rw [mem_mapKeys_iff, mem_mapKeys_iff, h2 k]
    exact hperm.length_eq

theorem resourcesDeepEqual_iff (a b : ResourceRequirements) :
    resourcesDeepEqual a b = true ↔ ResourcesEq a b := by
  unfold resourcesDeepEqual ResourcesEq
  rw [Bool.and_eq_true, Bool.and_eq_true, mapDeepEqual_iff, mapDeepEqual_iff, decide_eq_true_eq,
    and_assoc]

theorem containersDiffer_iff : ∀ (cs ts : List Container),
    containersDiffer cs ts = true ↔
      ∃ (i : Nat) (c t : Container), cs[i]? = some c ∧ ts[i]? = some t ∧
        (c.Image ≠ t.Image ∨ ¬ ResourcesEq c.Resources t.Resources) := by
  intro cs
  induction cs with
  | nil =>
    intro ts
    simp [containersDiffer]
  | cons c rest ih =>
    intro ts
    cases ts with
    | nil => simp [containersDiffer]
    | cons t ts =>
      unfold containersDiffer
      by_cases himg : c.Image = t.Image
      · by_cases hres : resourcesDeepEqual c.Resources t.Resources = true
        · have hres2 := (resourcesDeepEqual_iff _ _).mp hres
          simp only [himg, bne_self_eq_false, Bool.false_eq_true, if_false, hres, Bool.not_true]
          rw [ih ts]
          constructor
          · rintro ⟨i, c2, t2, h1, h2, h3⟩
            exact ⟨i + 1, c2, t2, by simpa using h1, by simpa using h2, h3⟩
          · rintro ⟨i, c2, t2, h1, h2, h3⟩
            cases i with
            | zero =>
              simp only [List.getElem?_cons_zero, Option.some.injEq] at h1 h2
              subst h1 h2
              rcases h3 with h3 | h3
              · exact absurd himg h3
              · exact absurd hres2 h3
            | succ j =>
              exact ⟨j, c2, t2, by simpa using h1, by simpa using h2, h3⟩
        · have hres2 : ¬ ResourcesEq c.Resources t.Resources :=
            fun h => hres ((resourcesDeepEqual_iff _ _).mpr h)
          have : resourcesDeepEqual c.Resources t.Resources = false := by
            simpa using hres
          simp only [himg, bne_self_eq_false, Bool.false_eq_true, if_false, this, Bool.not_false,
            if_true, true_iff]
          exact ⟨0, c, t, by simp, by simp, Or.inr hres2⟩
      · have : (c.Image != t.Image) = true := by simpa using himg
        simp only [this, if_true, true_iff]
        exact ⟨0, c, t, by simp, by simp, Or.inl himg⟩

/-! ## Readiness -/

theorem readyCondition_iff_find : ∀ (conds : List PodCondition),
    readyCondition conds = true ↔
      ∃ c, conds.find? (fun c => c.Type_ == "Ready") = some c ∧ c.Status = "True" := by
  intro conds
  induction conds with
  | nil => simp [readyCondition]
  | cons c rest ih =>
    unfold readyCondition
    by_cases h : c.Type_ = "Ready"
    · simp [h, List.find?]
    · have : (c.Type_ == "Ready") = false := by simpa using h
      simp only [this, Bool.false_eq_true, if_false, List.find?, ih]

theorem find?_eq_of_filter_le_one {α : Type} (p : α → Bool) :
    ∀ (l : List α) (c : α), (l.filter p).length ≤ 1 → c ∈ l → p c = true →
      l.find? p = some c := by
  intro l
  induction l with
  | nil => intro c _ hc; simp at hc
  | cons a rest ih =>
    intro c hlen hc hp
    by_cases hpa : p a = true
    · simp only [List.filter, hpa, List.length_cons] at hlen
      have hnil : rest.filter p = [] := by
        cases hf : rest.filter p with
        | nil => rfl
        | cons x xs => rw [hf] at hlen; simp at hlen
      rcases List.mem_cons.mp hc with rfl | hc
      · simp [List.find?, hpa]
      · exfalso
        have : c ∈ rest.filter p := List.mem_filter.mpr ⟨hc, hp⟩
        rw [hnil] at this
        simp at this
    · have hpa2 : p a = false := by simpa using hpa
      simp only [List.filter, hpa2] at hlen
      rcases List.mem_cons.mp hc with rfl | hc
      · rw [hp] at hpa2; simp at hpa2
      · simp only [List.find?, hpa2]
        exact ih c hlen hc hp

/-! ## Availability and fresh pods -/

theorem readyLongEnough_of_ready (now m : Int) : ∀ (conds : List PodCondition),
    readyCondition conds = true →
      ∃ c, conds.find? (fun c => c.Type_ == "Ready") = some c ∧
        readyLongEnough now m conds = decide (now - c.LastTransitionTime ≥ m * 1000000000) := by
  intro conds
  induction conds with
  | nil => intro h; simp [readyCondition] at h
  | cons c rest ih =>
    intro h
    unfold readyCondition at h
    by_cases ht : c.Type_ = "Ready"
    · have ht2 : (c.Type_ == "Ready") = true := by simpa using ht
      rw [if_pos ht2] at h
      refine ⟨c, by simp [List.find?, ht], ?_⟩
      unfold readyLongEnough
      simp [ht2, h]
    · have ht2 : (c.Type_ == "Ready") = false := by simpa using ht
      simp only [ht2, Bool.false_eq_true, if_false] at h
      obtain ⟨d, hd, hl⟩ := ih h
      refine ⟨d, by simp [List.find?, ht2, hd], ?_⟩
      unfold readyLongEnough
      simp only [ht2, Bool.false_and, Bool.false_eq_true, if_false]
      exact hl

theorem isPodReady_conditions (pod : Pod) (h : isPodReady pod = true) :
    readyCondition pod.Status.Conditions = true := by
  unfold isPodReady at h
  split at h
  · exact absurd h (by decide)
  · exact h

theorem mapDeepEqual_self {V : Type} [DecidableEq V] (a : GoMapOf V) :
    mapDeepEqual a a = true :=
  (mapDeepEqual_iff a a).mpr ⟨rfl, fun _ => rfl⟩

theorem containersDiffer_self : ∀ (cs : List Container), containersDiffer cs cs = false := by
  intro cs
  induction cs with
  | nil => rfl
  | cons c rest ih =>
    unfold containersDiffer
    simp [resourcesDeepEqual, mapDeepEqual_self, ih]

theorem rollingUpdateLoop_buildPod (m : MyStatefulset) (P : Int) (w : World) :
    ∀ (ordinals : List Nat),
      rollingUpdateLoop m P w (ordinals.map (buildPod m)) = (none, w) := by
  intro ordinals
  induction ordinals with
  | nil => rfl
  | cons i rest ih =>
    have hn : (buildPod m i).Name = podNameOf m.Name i := rfl
    have hu : needsUpdate (buildPod m i) m = false := by
      unfold needsUpdate
      have h1 : (buildPod m i).Labels = m.Spec.Template.Labels := rfl
      have h2 : (buildPod m i).Spec.Containers = m.Spec.Template.Spec.Containers := rfl
      rw [h1, h2]
      simp [mapDeepEqual_self, containersDiffer_self]
    rw [List.map_cons]
    unfold rollingUpdateLoop
    rw [hn, getOrdinal_podNameOf]
    simp only [hu, Bool.and_false, Bool.false_eq_true, if_false]
    exact ih

/-! ## The admission webhook -/

theorem not_pairwise_iff_getElem? {α : Type} (R : α → α → Prop) (l : List α) :
    ¬ l.Pairwise R ↔
      ∃ (i j : Nat) (a b : α), i < j ∧ l[i]? = some a ∧ l[j]? = some b ∧ ¬ R a b := by
  rw [List.pairwise_iff_getElem]
  constructor
  · intro h
    by_contra hcon
    apply h
    intro i j hi hj hij
    by_contra hr
    exact hcon ⟨i, j, l[i], l[j], hij, by simp [hi], by simp [hj], hr⟩
  · rintro ⟨i, j, a, b, hij, ha, hb, hr⟩ h
    obtain ⟨hi, rfl⟩ := List.getElem?_eq_some.mp ha
    obtain ⟨hj, rfl⟩ := List.getElem?_eq_some.mp hb
    exact hr (h i j hi hj hij)

theorem validatePortNames_eq_nil (path : String) :
    ∀ (ports : List ContainerPort) (seen : List String),
    validatePortNames path seen ports = [] ↔
      (∀ p ∈ ports, p.Name ≠ "" → p.Name ∉ seen) ∧
      ports.Pairwise (fun p q => ¬ (p.Name = q.Name ∧ p.Name ≠ "")) := by
  intro ports
  induction ports with
  | nil => intro seen; simp [validatePortNames]
  | cons port rest ih =>
    intro seen
    unfold validatePortNames
    by_cases hn : port.Name = ""
    · have hb : (port.Name != "") = false := by simp [hn]
      simp only [hb, Bool.false_eq_true, if_false, ih seen, List.pairwise_cons, List.mem_cons,
        forall_eq_or_imp]
      constructor
      · rintro ⟨h1, h2⟩
        exact ⟨⟨fun h => absurd hn h, h1⟩, fun q _ hq => hq.2 hn, h2⟩
      · rintro ⟨⟨_, h1⟩, _, h2⟩
        exact ⟨h1, h2⟩
    · have hb : (port.Name != "") = true := by simpa using hn
      simp only [hb, if_true, List.append_eq_nil, ih (port.Name :: seen), List.pairwise_cons,
        List.mem_cons, forall_eq_or_imp]
      constructor
      · rintro ⟨h0, h1, h2⟩
        have hseen : port.Name ∉ seen := by
          intro hmem
          have : seen.contains port.Name = true := by simpa using hmem
          rw [if_pos this] at h0
          simp at h0
        refine ⟨⟨fun _ => hseen, ?_⟩, ?_, h2⟩
        · intro p hp hpn hmem
          exact h1 p hp hpn (Or.inr hmem)
        · intro q hq hcon
          have hqn : q.Name ≠ "" := by rw [← hcon.1]; exact hn
          exact h1 q hq hqn (Or.inl hcon.1.symm)
      · rintro ⟨⟨h0, h1⟩, h3, h2⟩
        refine ⟨?_, ?_, h2⟩
        · rw [if_neg]
          intro hcon
          exact h0 hn (by simpa using hcon)
        · intro p hp hpn hmem
          rcases hmem with hmem | hmem
          · exact h3 p hp ⟨hmem.symm, hn⟩
          · exact h1 p hp hpn hmem

theorem validateContainers_eq_nil : ∀ (cs : List Container) (i : Nat),
    validateContainers i cs = [] ↔
      ∀ c ∈ cs, c.Image ≠ "" ∧
        c.Ports.Pairwise (fun p q => ¬ (p.Name = q.Name ∧ p.Name ≠ "")) := by
  intro cs
  induction cs with
  | nil => intro i; simp [validateContainers]
  | cons c rest ih =>
    intro i
    unfold validateContainers
    simp only [List.append_eq_nil, ih (i + 1), validatePortNames_eq_nil, List.mem_cons,
      forall_eq_or_imp, List.not_mem_nil, not_false_eq_true, implies_true, true_and]
    constructor
    · rintro ⟨⟨h1, h2⟩, h3⟩
      refine ⟨⟨?_, h2⟩, h3⟩
      intro himg
      simp [himg] at h1
    · rintro ⟨⟨h1, h2⟩, h3⟩
      refine ⟨⟨?_, h2⟩, h3⟩
      have : (c.Image == "") = false := by simpa using h1
      simp [this]

theorem validationErrors_eq_nil (r : MyStatefulset) :
    validationErrors r = [] ↔
      0 ≤ r.Spec.Replicas ∧ r.Spec.Replicas ≤ 100 ∧ r.Spec.Template.Spec.Containers ≠ [] ∧
      ∀ c ∈ r.Spec.Template.Spec.Containers, c.Image ≠ "" ∧
        c.Ports.Pairwise (fun p q => ¬ (p.Name = q.Name ∧ p.Name ≠ "")) := by
  unfold validationErrors minReplicas maxReplicas
  simp only [List.append_eq_nil, validateContainers_eq_nil]
  constructor
  · rintro ⟨⟨⟨h1, h2⟩, h3⟩, h4⟩
    refine ⟨?_, ?_, ?_, h4⟩
    · by_contra hc
      rw [if_pos (by omega)] at h1
      simp at h1
    · by_contra hc
      rw [if_pos (by omega)] at h2
      simp at h2
    · intro hc
      simp [hc] at h3
  · rintro ⟨h1, h2, h3, h4⟩
    refine ⟨⟨⟨?_, ?_⟩, ?_⟩, h4⟩
    · rw [if_neg (by omega)]
    · rw [if_neg (by omega)]
    · cases hcs : r.Spec.Template.Spec.Containers with
      | nil => exact absurd hcs h3
      | cons a l => simp

theorem validateMyStatefulSet_ok_iff (r : MyStatefulset) :
    validateMyStatefulSet r = .ok () ↔ validationErrors r = [] := by
  unfold validateMyStatefulSet
  cases h : validationErrors r with
  | nil => simp
  | cons a l => simp

theorem validateMyStatefulSet_error_iff (r : MyStatefulset) :
    (∃ e, validateMyStatefulSet r = .error e) ↔ validationErrors r ≠ [] := by
  unfold validateMyStatefulSet
  cases h : validationErrors r with
  | nil => simp
  | cons a l => simp

theorem stringsContains_iff (s substr : String) :
    stringsContains s substr = true ↔ substr.toList <:+: s.toList := by
  unfold stringsContains
  rw [List.any_eq_true, List.infix_iff_prefix_suffix]
  constructor
  · rintro ⟨t, ht, hp⟩
    exact ⟨t, List.isPrefixOf_iff_prefix.mp hp, (List.mem_tails _ _).mp ht⟩
  · rintro ⟨t, hp, ht⟩
    exact ⟨t, (List.mem_tails _ _).mpr ht, List.isPrefixOf_iff_prefix.mpr hp⟩

theorem validateResourceUpdate_same (cmp : Quantity → Quantity → Int) (hcmp : ∀ q, 0 ≤ cmp q q)
    (c : Container) (path : String) : validateResourceUpdate cmp c c path = none := by
  unfold validateResourceUpdate
  have h1 := hcmp (limitsCpu c.Resources.Limits)
  have h2 := hcmp (limitsMemory c.Resources.Limits)
  split
  · rw [if_neg (by omega), if_neg (by omega)]
  · rfl

theorem validateContainerUpdates_same (cmp : Quantity → Quantity → Int) (hcmp : ∀ q, 0 ≤ cmp q q)
    (cs : List Container) (hnd : (cs.map (fun c => c.Name)).Nodup)
    (himg : ∀ c ∈ cs, ¬ (stringsContains c.Image "prod" = true ∧
      stringsContains c.Image "test" = true)) :
    ∀ (l : List Container) (i : Nat), (∀ c ∈ l, c ∈ cs) →
      validateContainerUpdates cmp cs i l = [] := by
  intro l
  induction l with
  | nil => intro i _; rfl
  | cons c rest ih =>
    intro i hsub
    have hc : c ∈ cs := hsub c (List.mem_cons_self _ _)
    have hf : cs.find? (fun x => x.Name == c.Name) = some c :=
      find?_eq_self_of_nodup (fun c => c.Name) cs c hnd hc
    have hi : isValidImageUpdate c.Image c.Image = true := by
      unfold isValidImageUpdate
      have := himg c hc
      rw [if_neg]
      simpa using this
    unfold validateContainerUpdates
    rw [hf]
    simp only [hi, validateResourceUpdate_same cmp hcmp, Bool.not_true, Bool.false_eq_true,
      if_false, Option.toList, List.append_nil, List.nil_append]
    exact ih (i + 1) (fun d hd => hsub d (List.mem_cons_of_mem _ hd))

/-- The replica rule of `ValidateUpdate` alone: when the new object is the old one with
another replica count, both pass the create validation, the container names are pairwise
distinct, no image contains both `prod` and `test`, and a quantity does not compare below
itself, the update is rejected exactly when the new count is more than twice the old. -/
theorem ValidateUpdate_replicas_only (cmp : Quantity → Quantity → Int) (hcmp : ∀ q, 0 ≤ cmp q q)
    (old : MyStatefulset) (n : Int)
    (hold : ValidateCreate old = .ok ())
    (hnew : ValidateCreate { old with Spec := { old.Spec with Replicas := n } } = .ok ())
    (hnd : (old.Spec.Template.Spec.Containers.map (fun c => c.Name)).Nodup)
    (himg : ∀ c ∈ old.Spec.Template.Spec.Containers,
      ¬ (stringsContains c.Image "prod" = true ∧ stringsContains c.Image "test" = true)) :
    ((∃ e, ValidateUpdate cmp { old with Spec := { old.Spec with Replicas := n } } old =
        .error e) ↔ n > 2 * old.Spec.Replicas) ∧
    (ValidateUpdate cmp { old with Spec := { old.Spec with Replicas := n } } old = .ok () ↔
      n ≤ 2 * old.Spec.Replicas) := by
  have h1 := (validationErrors_eq_nil old).mp ((validateMyStatefulSet_ok_iff old).mp hold)
  have hnew2 : validateMyStatefulSet { old with Spec := { old.Spec with Replicas := n } } =
      .ok () := hnew
  have hw : wrap32 (old.Spec.Replicas * 2) = old.Spec.Replicas * 2 := by
    unfold wrap32
    omega
  have hcs := validateContainerUpdates_same cmp hcmp _ hnd himg
    old.Spec.Template.Spec.Containers 0 (fun c hc => hc)
  have herr : updateErrors cmp { old with Spec := { old.Spec with Replicas := n } } old =
      if n != old.Spec.Replicas then
        (if n > old.Spec.Replicas * 2 then
          [{ Type_ := "FieldValueInvalid", Field := "spec.replicas", BadValue := .int n,
             Detail := "cannot increase replicas by more than 100% in a single update" }]
        else [])
      else [] := by
    unfold updateErrors
    simp [hw, hcs]
  unfold ValidateUpdate
  rw [hnew2, herr]
  by_cases hne : n = old.Spec.Replicas
  · have : ¬ n > 2 * old.Spec.Replicas := by omega
    simp [hne, this]
    omega
  · have hb : (n != old.Spec.Replicas) = true := by simpa using hne
    by_cases hgt : n > old.Spec.Replicas * 2
    · simp [hb, hgt]
      omega
    · simp [hb, hgt]
      omega

/-! ## The calls of a pass -/

/-- The calls of Fill followed by Drain, as they run when the rolling-update block hands
over: creations of pods built from the template for ordinals below the replica count, then
deletions of listed pods whose ordinal as `getOrdinal` reads it is at or above it. -/
theorem fillDrain_log (m : MyStatefulset) (w : World) (items : List Pod) :
    ∃ (new : List Pod) (acts : List Action),
      (match fillLoop m w (List.range m.Spec.Replicas.toNat) with
        | (.error err, w2) => ((.error err : Except Failure Unit), w2)
        | (.ok _, w2) => drainLoop m w2 items).2.log =
        w.log ++ (new.map Action.createPod ++ acts) ∧
      (∀ p ∈ new, ∃ i : Nat, (i : Int) < m.Spec.Replicas ∧ p = buildPod m i) ∧
      (∀ a ∈ acts, ∃ ns nm, ∃ o : Nat, a = .deletePod ns nm ∧
        getOrdinal nm = some o ∧ m.Spec.Replicas ≤ (o : Int)) := by
  obtain ⟨new, hf1, hf2, _⟩ := fillLoop_spec m (List.range m.Spec.Replicas.toNat) w
  have hnew : ∀ p ∈ new, ∃ i : Nat, (i : Int) < m.Spec.Replicas ∧ p = buildPod m i := by
    intro p hp
    obtain ⟨i, hi, hi2⟩ := hf2 p hp
    rw [List.mem_range] at hi
    exact ⟨i, by omega, hi2⟩
  generalize hfe : fillLoop m w (List.range m.Spec.Replicas.toNat) = f at *
  obtain ⟨f1, f2⟩ := f
  simp only at hf1
  cases f1 with
  | error e =>
    exact ⟨new, [], by simp [hf1], hnew, by simp⟩
  | ok u =>
    simp only
    obtain ⟨acts, hd1, hd2, _⟩ := drainLoop_spec m items f2
    refine ⟨new, acts, ?_, hnew, ?_⟩
    · rw [hd1, hf1]; simp
    · intro a ha
      obtain ⟨d, _, o, e1, e2, e3⟩ := hd2 a ha
      exact ⟨d.Namespace, d.Name, o, e1, e2, e3⟩

/-- The calls of a pass, whatever the strategy: either those of Fill and Drain (creations
of pods built from the template for ordinals below the replica count, then deletions), or,
under RollingUpdate, one replacement: the deletion of a pod of the cluster that differs from
the template, whose ordinal `o` as `getOrdinal` reads it is at or above the partition,
followed by the creation of the pod built for `o` when the pass returns no error. -/
theorem reconcilePods_log_cases (w : World) (m : MyStatefulset) :
    (∃ (new : List Pod) (acts : List Action),
      (reconcilePods w m).2.log = w.log ++ (new.map Action.createPod ++ acts) ∧
      (∀ p ∈ new, ∃ i : Nat, (i : Int) < m.Spec.Replicas ∧ p = buildPod m i) ∧
      (∀ a ∈ acts, ∃ ns nm, ∃ o : Nat, a = .deletePod ns nm ∧
        getOrdinal nm = some o ∧ m.Spec.Replicas ≤ (o : Int))) ∨
    (m.Spec.UpdateStrategy.Type_ = RollingUpdateStatefulSetStrategyType ∧
      ∃ victim ∈ w.pods, ∃ o : Nat, getOrdinal victim.Name = some o ∧
        partitionOf m ≤ (o : Int) ∧ needsUpdate victim m = true ∧
        (reconcilePods w m).2.log =
          w.log ++ Action.deletePod victim.Namespace victim.Name ::
            (if (reconcilePods w m).1 = .ok () then [Action.createPod (buildPod m o)]
             else [])) := by
  by_cases hstrategy : m.Spec.UpdateStrategy.Type_ = RollingUpdateStatefulSetStrategyType
  swap
  · left
    exact reconcilePods_not_rolling_log w m hstrategy
  have hleft : (reconcilePods w m).2 = w →
      ∃ (new : List Pod) (acts : List Action),
        (reconcilePods w m).2.log = w.log ++ (new.map Action.createPod ++ acts) ∧
        (∀ p ∈ new, ∃ i : Nat, (i : Int) < m.Spec.Replicas ∧ p = buildPod m i) ∧
        (∀ a ∈ acts, ∃ ns nm, ∃ o : Nat, a = .deletePod ns nm ∧
          getOrdinal nm = some o ∧ m.Spec.Replicas ≤ (o : Int)) := by
    intro h
    exact ⟨[], [], by simp [h], by simp, by simp⟩
  by_cases hrep : m.Spec.Replicas = 0
  · left
    exact hleft (by rw [reconcilePods_world_of_zero w m hrep])
  cases hsel : m.Spec.Selector with
  | none =>
    left
    exact hleft (reconcilePods_world_of_none w m hsel)
  | some sel =>
    have hunf := reconcilePods_unfold w m sel hrep hsel
    by_cases hl : (mapLen m.Spec.Template.Labels == 0) = true
    · left
      exact hleft (by rw [hunf, if_pos hl])
    by_cases hd : (!mapDeepEqual sel.MatchLabels m.Spec.Template.Labels) = true
    · left
      exact hleft (by rw [hunf, if_neg hl, if_pos hd])
    rw [if_neg hl, if_neg hd] at hunf
    cases hsort : sortSlice ordinalGreater (listPods w m.Namespace sel.MatchLabels) with
    | none =>
      left
      apply hleft
      rw [hunf]
      simp [rollingUpdate, hstrategy, hsort]
    | some sorted =>
      have hperm := sortSlice_perm _ _ _ hsort
      have hru : rollingUpdate w m (listPods w m.Namespace sel.MatchLabels) =
          match rollingUpdateLoop m (partitionOf m) w sorted with
          | (some r, w1) => (.returned r, w1)
          | (none, w1) => (.next sorted, w1) := by
        simp [rollingUpdate, hstrategy, hsort]
      rw [hru] at hunf
      rcases rollingUpdateLoop_spec m (partitionOf m) sorted w with ⟨h1, h2, _⟩ |
          ⟨h1, h2, _⟩ | ⟨v, hv, o, ho, hpart, hneeds, h4⟩
      · left
        generalize rollingUpdateLoop m (partitionOf m) w sorted = r at *
        obtain ⟨r1, r2⟩ := r
        simp only at h1 h2
        subst h1 h2
        simp only at hunf
        rw [hunf]
        exact fillDrain_log m r2 sorted
      · left
        apply hleft
        generalize rollingUpdateLoop m (partitionOf m) w sorted = r at *
        obtain ⟨r1, r2⟩ := r
        simp only at h1 h2
        subst h1 h2
        rw [hunf]
      · right
        have hvl := hperm.mem_iff.mp hv
        obtain ⟨hvw, _⟩ := listPods_mem _ _ _ _ hvl
        obtain ⟨hdlog, _⟩ := apiDeletePod_of_mem w v hvw
        rw [h4] at hunf
        simp only at hunf
        refine ⟨hstrategy, v, hvw, o, ho, hpart, hneeds, ?_⟩
        rw [hunf]
        rcases createPod_log (apiDeletePod w v.Namespace v.Name).2 m o with
          ⟨hc1, hc2⟩ | ⟨⟨e, hc1⟩, hc2⟩
        · simp [hc1, hc2, hdlog]
        · simp [hc1, hc2, hdlog]

/-! ## The claims -/

/-- C1. Drain misses pods: with 3 replicas and the up-to-date pods `web-0, web-1, web-2,
web-10`, the pass returns no error, replaces nothing and leaves the cluster as it was, so
the pod of ordinal 10 remains; with 0 replicas and the pod `web-0`, the pass returns at
once and the pod of ordinal 0 remains. -/
theorem reconcilePods_drain_misses :
    reconcilePods { pods := exPods 3 "nginx:1.19" ++ [exPod "web-10" "nginx:1.19"] }
        (exWorkload 3 "nginx:1.19" exRolling) =
      (.ok (), { pods := exPods 3 "nginx:1.19" ++ [exPod "web-10" "nginx:1.19"] }) ∧
    getOrdinal "web-10" = some 0 ∧
    reconcilePods { pods := [exPod "web-0" "nginx:1.19"] } (exWorkload 0 "nginx:1.19" exRolling) =
      (.ok (), { pods := [exPod "web-0" "nginx:1.19"] }) := by
  decide

/-- C2. The status write is not skipped: `reflect.DeepEqual` of the pointer returned by
`DeepCopy` and the new status struct is false whatever the two statuses; on the converged
workload, whose stored status equals the recomputed one field by field, `updateStatus`
issues the status write. -/
theorem updateStatus_writes_equal_status :
    (∀ s t : MyStatefulsetStatus, reflectDeepEqual s.DeepCopy (.struct t) = false) ∧
    newStatusOf 0 exConvergedWorld exConverged { MatchLabels := exLabels } = exConverged.Status ∧
    (updateStatus 0 exConvergedWorld exConverged).1 = .ok () ∧
    (updateStatus 0 exConvergedWorld exConverged).2.2.log = [.statusUpdate exConverged] :=
  ⟨fun _ _ => rfl, by decide, by decide, by decide⟩

/-- C3. Rolling update respects the partition: whatever the workload, the cluster and the
list of existing pods, the calls that the rolling-update block of `reconcilePods` makes
never delete a pod named `<name>-<k>` whose ordinal `k` (the whole number in the name, of
any number of digits) is below the partition. -/
theorem rollingUpdate_respects_partition (w : World) (m : MyStatefulset)
    (existingPods : List Pod) (ns name : String) (k : Nat)
    (hk : (k : Int) < partitionOf m) :
    Action.deletePod ns (podNameOf name k) ∉
      ((rollingUpdate w m existingPods).2.log.drop w.log.length) := by
  obtain ⟨acts, h1, h2⟩ := rollingUpdate_log w m existingPods
  rw [h1, List.drop_left]
  intro hmem
  obtain ⟨o, ho, hP⟩ := h2 ns _ hmem
  rw [getOrdinal_podNameOf] at ho
  have : k % 10 = o := by simpa using ho
  have hle : k % 10 ≤ k := Nat.mod_le k 10
  omega

/-- C3, at an input: partition 2, pods 0, 1, 2 on an old image; the block replaces pod 2
and does not delete pod 1. -/
theorem rollingUpdate_respects_partition_witness :
    ((1 : Nat) : Int) < partitionOf (exWorkload 3 "nginx:1.19" (exRollingFrom 2)) ∧
    (rollingUpdate { pods := exPods 3 "nginx:1.18" }
        (exWorkload 3 "nginx:1.19" (exRollingFrom 2)) (exPods 3 "nginx:1.18")).2.log =
      [.deletePod "default" "web-2",
       .createPod (buildPod (exWorkload 3 "nginx:1.19" (exRollingFrom 2)) 2)] ∧
    Action.deletePod "default" (podNameOf "web" 1) ∉
      ((rollingUpdate { pods := exPods 3 "nginx:1.18" }
        (exWorkload 3 "nginx:1.19" (exRollingFrom 2)) (exPods 3 "nginx:1.18")).2.log.drop
          ({ pods := exPods 3 "nginx:1.18" } : World).log.length) :=
  ⟨by decide, by decide, rollingUpdate_respects_partition _ _ _ "default" "web" 1 (by decide)⟩

/-- C4. No replacement though a pod at or above the partition differs from the template.
First input: strategy RollingUpdate with partition 5, 11 replicas, the pods `web-0 .. web-9`
up to date and the pod `web-10` on an old image: its ordinal 10 is at or above the
partition and it differs from the template, `getOrdinal` reads its ordinal as 0, below the
partition, and the pass returns nil without a call. Second input: the template carries the
label `tier=db` that the selector `app=test` lacks (an object that `Reconcile` accepts) and
the pod `web-0` runs an old image: the pass returns the error of the deep comparison of
selector and template labels without a call. -/
theorem reconcilePods_no_replacement :
    ((exWorkload 11 "nginx:1.19" (exRollingFrom 5)).Spec.UpdateStrategy.Type_ =
        RollingUpdateStatefulSetStrategyType ∧
      partitionOf (exWorkload 11 "nginx:1.19" (exRollingFrom 5)) = 5 ∧
      (exPod "web-10" "nginx:1.18").Name = podNameOf "web" 10 ∧
      exPod "web-10" "nginx:1.18" ∈
        listPods { pods := exPods 10 "nginx:1.19" ++ [exPod "web-10" "nginx:1.18"] }
          "default" exLabels ∧
      needsUpdate (exPod "web-10" "nginx:1.18")
        (exWorkload 11 "nginx:1.19" (exRollingFrom 5)) = true ∧
      getOrdinal (exPod "web-10" "nginx:1.18").Name = some 0 ∧
      reconcilePods { pods := exPods 10 "nginx:1.19" ++ [exPod "web-10" "nginx:1.18"] }
          (exWorkload 11 "nginx:1.19" (exRollingFrom 5)) =
        (.ok (), { pods := exPods 10 "nginx:1.19" ++ [exPod "web-10" "nginx:1.18"] })) ∧
    ((exExtraLabel (exWorkload 1 "nginx:1.19" exRolling)).Spec.UpdateStrategy.Type_ =
        RollingUpdateStatefulSetStrategyType ∧
      needsUpdate (exPod "web-0" "nginx:1.18")
        (exExtraLabel (exWorkload 1 "nginx:1.19" exRolling)) = true ∧
      reconcilePods { pods := [exPod "web-0" "nginx:1.18"] }
          (exExtraLabel (exWorkload 1 "nginx:1.19" exRolling)) =
        (.error (.error "pod template labels must match selector"),
          { pods := [exPod "web-0" "nginx:1.18"] })) := by
  decide

/-- C5. Not the highest ordinal: partition 0, pods `web-0 .. web-10` all on an old image;
the pass replaces pod 9, while pod 10 differs from the template too. -/
theorem reconcilePods_replaces_nine_before_ten :
    needsUpdate (exPod "web-10" "nginx:1.18") (exWorkload 11 "nginx:1.19" exRolling) = true ∧
    exPod "web-10" "nginx:1.18" ∈ exPods 11 "nginx:1.18" ∧
    (reconcilePods { pods := exPods 11 "nginx:1.18" } (exWorkload 11 "nginx:1.19" exRolling)).1 =
      .ok () ∧
    (reconcilePods { pods := exPods 11 "nginx:1.18" } (exWorkload 11 "nginx:1.19" exRolling)).2.log =
      [.deletePod "default" "web-9",
       .createPod (buildPod (exWorkload 11 "nginx:1.19" exRolling) 9)] := by
  decide

/-- C6. The replacement changes name: 13 replicas, the only pod is `web-12` on an old image;
the pass deletes `web-12` and creates `web-2`. -/
theorem reconcilePods_replacement_renamed :
    (reconcilePods { pods := [exPod "web-12" "nginx:1.18"] }
        (exWorkload 13 "nginx:1.19" exRolling)).1 = .ok () ∧
    (reconcilePods { pods := [exPod "web-12" "nginx:1.18"] }
        (exWorkload 13 "nginx:1.19" exRolling)).2.log =
      [.deletePod "default" "web-12",
       .createPod (buildPod (exWorkload 13 "nginx:1.19" exRolling) 2)] ∧
    (buildPod (exWorkload 13 "nginx:1.19" exRolling) 2).Name = "web-2" := by
  decide

/-- C7. The finalizer goes while a claim remains: for the workload with the claim template
`www` (no labels), `reconcilePVCs` creates the claim `www-web-0` without labels; once the
workload is marked for deletion and its pods are gone, `handleDeletion` lists no claim
under the selector `app=test`, removes the finalizer (the object leaves the store) and the
claim is still in the cluster. -/
theorem handleDeletion_leaves_claim :
    (reconcilePVCs {} (exWithClaims (exWorkload 1 "nginx:1.19" exRolling))).2.pvcs =
      [buildPVC (exWithClaims (exWorkload 1 "nginx:1.19" exRolling)) exClaimTemplate 0] ∧
    (buildPVC (exWithClaims (exWorkload 1 "nginx:1.19" exRolling)) exClaimTemplate 0).Name =
      "www-web-0" ∧
    handleDeletion
        { pvcs := [buildPVC (exWithClaims (exWorkload 1 "nginx:1.19" exRolling)) exClaimTemplate 0],
          objects := [exDeleting (exWithClaims (exWorkload 1 "nginx:1.19" exRolling))] }
        (exDeleting (exWithClaims (exWorkload 1 "nginx:1.19" exRolling))) =
      (.ok {},
        removeFinalizer (exDeleting (exWithClaims (exWorkload 1 "nginx:1.19" exRolling)))
          myStatefulsetFinalizer,
        { pvcs := [buildPVC (exWithClaims (exWorkload 1 "nginx:1.19" exRolling)) exClaimTemplate 0],
          objects := [],
          log := [.update (removeFinalizer
            (exDeleting (exWithClaims (exWorkload 1 "nginx:1.19" exRolling)))
            myStatefulsetFinalizer)] }) := by
  decide

/-- C8. Teardown deletes pod 9 first: the workload is marked for deletion and its pods
`web-0 .. web-10` exist, none marked deleting; one `handleDeletion` pass deletes `web-9` and
requeues after 5 seconds, and `web-10` is still there. -/
theorem handleDeletion_deletes_nine_before_ten :
    (handleDeletion { pods := exPods 11 "nginx:1.19" }
        (exDeleting (exWorkload 11 "nginx:1.19" exRolling))).1 = .ok { RequeueAfter := 5 } ∧
    (handleDeletion { pods := exPods 11 "nginx:1.19" }
        (exDeleting (exWorkload 11 "nginx:1.19" exRolling))).2.2.log =
      [.deletePod "default" "web-9"] ∧
    exPod "web-10" "nginx:1.19" ∈
      (handleDeletion { pods := exPods 11 "nginx:1.19" }
        (exDeleting (exWorkload 11 "nginx:1.19" exRolling))).2.2.pods := by
  decide

/-- C9. Teardown order with ordinals 9 and 10: the workload is marked for deletion, its pods
are `web-9` and `web-10` (p = 2) and one claim is listed (c = 1); four passes of
`handleDeletion`, each on the cluster the pass before left, delete pod 9, then pod 10,
then the claim, and the fourth removes the finalizer and requests no requeue. -/
theorem handleDeletion_passes_nine_ten :
    (handleDeletion
      (handleDeletion
        (handleDeletion
          (handleDeletion
            { pods := [exPod "web-9" "nginx:1.19", exPod "web-10" "nginx:1.19"],
              pvcs := [exClaim "www-web-0"],
              objects := [exDeleting (exWorkload 11 "nginx:1.19" exRolling)] }
            (exDeleting (exWorkload 11 "nginx:1.19" exRolling))).2.2
          (exDeleting (exWorkload 11 "nginx:1.19" exRolling))).2.2
        (exDeleting (exWorkload 11 "nginx:1.19" exRolling))).2.2
      (exDeleting (exWorkload 11 "nginx:1.19" exRolling))) =
    (.ok { RequeueAfter := 0 },
      removeFinalizer (exDeleting (exWorkload 11 "nginx:1.19" exRolling)) myStatefulsetFinalizer,
      { objects := [],
        log := [.deletePod "default" "web-9", .deletePod "default" "web-10",
                .deletePVC "default" "www-web-0",
                .update (removeFinalizer (exDeleting (exWorkload 11 "nginx:1.19" exRolling))
                  myStatefulsetFinalizer)] }) := by
  decide

/-- C10. Status is a pure count over the pod list: for a workload with a selector and a
list of selector-matching pods (shorter than 2^31, the range of the `int32` counters),
`updateStatus` sets Replicas and CurrentReplicas to the number of listed pods, ReadyReplicas,
UpdatedReplicas and AvailableReplicas to the number of listed pods satisfying `isPodReady`,
`isPodUpdated` and `isPodAvailable`, and ObservedGeneration to the generation; when
minReadySeconds is 0 and every listed pod is Running, has a Ready condition, all of them
True, has the images of the template and carries every template label, all four counts are
the number of pods. -/
theorem updateStatus_counts (now : Int) (w : World) (m : MyStatefulset) (sel : LabelSelector)
    (hsel : m.Spec.Selector = some sel)
    (hlen : (listPods w m.Namespace sel.MatchLabels).length < 2147483648) :
    ((updateStatus now w m).2.1.Status.Replicas =
        (listPods w m.Namespace sel.MatchLabels).length ∧
      (updateStatus now w m).2.1.Status.CurrentReplicas =
        (listPods w m.Namespace sel.MatchLabels).length ∧
      (updateStatus now w m).2.1.Status.ReadyReplicas =
        (listPods w m.Namespace sel.MatchLabels).countP isPodReady ∧
      (updateStatus now w m).2.1.Status.UpdatedReplicas =
        (listPods w m.Namespace sel.MatchLabels).countP (fun p => isPodUpdated p m) ∧
      (updateStatus now w m).2.1.Status.AvailableReplicas =
        (listPods w m.Namespace sel.MatchLabels).countP
          (fun p => isPodAvailable now p m.Spec.MinReadySeconds) ∧
      (updateStatus now w m).2.1.Status.ObservedGeneration = m.Generation) ∧
    (m.Spec.MinReadySeconds = 0 →
      (∀ p ∈ listPods w m.Namespace sel.MatchLabels,
        p.Status.Phase = "Running" ∧
        (∃ c ∈ p.Status.Conditions, c.Type_ = "Ready") ∧
        (∀ c ∈ p.Status.Conditions, c.Type_ = "Ready" → c.Status = "True") ∧
        p.Spec.Containers.map (fun c => c.Image) =
          m.Spec.Template.Spec.Containers.map (fun c => c.Image) ∧
        (∀ key ∈ mapKeys m.Spec.Template.Labels,
          mapLookup p.Labels key = mapLookup m.Spec.Template.Labels key)) →
      (updateStatus now w m).2.1.Status.ReadyReplicas =
        (listPods w m.Namespace sel.MatchLabels).length ∧
      (updateStatus now w m).2.1.Status.CurrentReplicas =
        (listPods w m.Namespace sel.MatchLabels).length ∧
      (updateStatus now w m).2.1.Status.UpdatedReplicas =
        (listPods w m.Namespace sel.MatchLabels).length ∧
      (updateStatus now w m).2.1.Status.AvailableReplicas =
        (listPods w m.Namespace sel.MatchLabels).length) := by
  have hst := updateStatus_status now w m sel hsel
  have hlen2 : (0 : Int) + ((listPods w m.Namespace sel.MatchLabels).length : Int) < 2147483648 := by
    omega
  obtain ⟨c1, c2, c3, c4⟩ := foldl_countPod now m (listPods w m.Namespace sel.MatchLabels) {}
    (le_refl _) (le_refl _) (le_refl _) (le_refl _) hlen2 hlen2 hlen2 hlen2
  have main : (updateStatus now w m).2.1.Status.Replicas =
        (listPods w m.Namespace sel.MatchLabels).length ∧
      (updateStatus now w m).2.1.Status.CurrentReplicas =
        (listPods w m.Namespace sel.MatchLabels).length ∧
      (updateStatus now w m).2.1.Status.ReadyReplicas =
        (listPods w m.Namespace sel.MatchLabels).countP isPodReady ∧
      (updateStatus now w m).2.1.Status.UpdatedReplicas =
        (listPods w m.Namespace sel.MatchLabels).countP (fun p => isPodUpdated p m) ∧
      (updateStatus now w m).2.1.Status.AvailableReplicas =
        (listPods w m.Namespace sel.MatchLabels).countP
          (fun p => isPodAvailable now p m.Spec.MinReadySeconds) ∧
      (updateStatus now w m).2.1.Status.ObservedGeneration = m.Generation := by
    rw [hst]
    refine ⟨?_, ?_, ?_, ?_, ?_, rfl⟩
    · simp only [newStatusOf, countPods]; rw [c1]; simp
    · simp only [newStatusOf, countPods]; rw [c1]; simp
    · simp only [newStatusOf, countPods]; rw [c2]; simp
    · simp only [newStatusOf, countPods]; rw [c3]; simp
    · simp only [newStatusOf, countPods]; rw [c4]; simp
  refine ⟨main, ?_⟩
  intro hmin hall
  obtain ⟨_, m2, m3, m4, m5, _⟩ := main
  have hready : ∀ p ∈ listPods w m.Namespace sel.MatchLabels, isPodReady p = true := by
    intro p hp
    obtain ⟨h1, h2, h3, _, _⟩ := hall p hp
    unfold isPodReady
    simp [h1, readyCondition_of_all _ h2 h3]
  have hupdated : ∀ p ∈ listPods w m.Namespace sel.MatchLabels, isPodUpdated p m = true := by
    intro p hp
    obtain ⟨h1, _, _, h4, h5⟩ := hall p hp
    have hl : p.Spec.Containers.length = m.Spec.Template.Spec.Containers.length := by
      simpa using congrArg List.length h4
    unfold isPodUpdated
    simp only [h1, hl, imagesMatch_of_map_eq _ _ h4, bne_self_eq_false, Bool.false_eq_true,
      if_false, Bool.not_true, List.all_eq_true, beq_iff_eq]
    intro key hkey
    unfold mapIndex
    rw [h5 key hkey]
  have havail : ∀ p ∈ listPods w m.Namespace sel.MatchLabels,
      isPodAvailable now p m.Spec.MinReadySeconds = true := by
    intro p hp
    unfold isPodAvailable
    simp [hready p hp, hmin]
  refine ⟨?_, m2, ?_, ?_⟩
  · rw [m3, List.countP_eq_length.mpr]
    intro p hp; exact hready p hp
  · rw [m4, List.countP_eq_length.mpr]
    intro p hp; exact hupdated p hp
  · rw [m5, List.countP_eq_length.mpr]
    intro p hp; exact havail p hp

/-- C10, at an input: the three Running and Ready pods of the converged workload give
ready = current = updated = available = 3. -/
theorem updateStatus_counts_witness :
    exConverged.Spec.Selector = some { MatchLabels := exLabels } ∧
    (listPods exConvergedWorld exConverged.Namespace exLabels).length = 3 ∧
    (updateStatus 0 exConvergedWorld exConverged).2.1.Status.ReadyReplicas = 3 ∧
    (updateStatus 0 exConvergedWorld exConverged).2.1.Status.CurrentReplicas = 3 ∧
    (updateStatus 0 exConvergedWorld exConverged).2.1.Status.UpdatedReplicas = 3 ∧
    (updateStatus 0 exConvergedWorld exConverged).2.1.Status.AvailableReplicas = 3 :=
  ⟨rfl, by decide,
    (updateStatus_counts 0 exConvergedWorld exConverged { MatchLabels := exLabels } rfl
      (by decide)).2 rfl (by decide)⟩

/-- C11. Fill: for a workload with N > 0 replicas, in a pass of `reconcilePods` that
performs no rolling replacement (the rolling-update block hands over to Fill) and returns no
error, afterwards a pod named `<name>-<i>` exists in the workload's namespace for every
`i` in `[0, N)`, and every pod named `<name>-<i>` with `i < N` that existed before the pass
is still there, unchanged. -/
theorem reconcilePods_fill (w : World) (m : MyStatefulset) (sel : LabelSelector)
    (items : List Pod)
    (hN : 0 < m.Spec.Replicas) (hsel : m.Spec.Selector = some sel)
    (hnext : (rollingUpdate w m (listPods w m.Namespace sel.MatchLabels)).1 = .next items)
    (hok : (reconcilePods w m).1 = .ok ()) :
    (∀ i : Nat, (i : Int) < m.Spec.Replicas →
      ∃ p ∈ (reconcilePods w m).2.pods,
        p.Namespace = m.Namespace ∧ p.Name = podNameOf m.Name i) ∧
    (∀ p ∈ w.pods, ∀ i : Nat, (i : Int) < m.Spec.Replicas → p.Name = podNameOf m.Name i →
      p ∈ (reconcilePods w m).2.pods) := by
  obtain ⟨hfill, heq⟩ := reconcilePods_next w m sel items (by omega) hsel hnext hok
  obtain ⟨new, hf1, _, hf3⟩ := fillLoop_spec m (List.range m.Spec.Replicas.toNat) w
  obtain ⟨acts, _, hd2, _, _, _, _, hd7, _⟩ :=
    drainLoop_spec m items (fillLoop m w (List.range m.Spec.Replicas.toNat)).2
  have hkeep : ∀ q ∈ (fillLoop m w (List.range m.Spec.Replicas.toNat)).2.pods, ∀ i : Nat,
      (i : Int) < m.Spec.Replicas → q.Name = podNameOf m.Name i →
      q ∈ (reconcilePods w m).2.pods := by
    intro q hq i hi hname
    rw [heq]
    apply hd7 q hq
    intro ns nm hmem hcon
    obtain ⟨d, _, o, e1, e2, e3⟩ := hd2 _ hmem
    have hnm : nm = d.Name := by
      have := Action.deletePod.inj e1
      exact this.2
    rw [← hnm, ← hcon.2, hname, getOrdinal_podNameOf] at e2
    have : i % 10 = o := by simpa using e2
    have hle : i % 10 ≤ i := Nat.mod_le i 10
    omega
  constructor
  · intro i hi
    have hmem : i ∈ List.range m.Spec.Replicas.toNat := by
      rw [List.mem_range]; omega
    obtain ⟨p, hp, hp1, hp2⟩ := hf3 hfill i hmem
    have hp' : p ∈ (fillLoop m w (List.range m.Spec.Replicas.toNat)).2.pods := by
      rw [hf1]; exact hp
    exact ⟨p, hkeep p hp' i hi hp2, hp1, hp2⟩
  · intro p hp i hi hname
    have hp' : p ∈ (fillLoop m w (List.range m.Spec.Replicas.toNat)).2.pods := by
      rw [hf1]; simp [hp]
    exact hkeep p hp' i hi hname

/-- C11, at an input: replicas = 3 with the pods 0 and 1 present: the pass creates exactly
pod 2, and afterwards the pods 0, 1 and 2 exist. -/
theorem reconcilePods_fill_witness :
    (0 : Int) < (exWorkload 3 "nginx:1.19" exRolling).Spec.Replicas ∧
    (reconcilePods { pods := exPods 2 "nginx:1.19" } (exWorkload 3 "nginx:1.19" exRolling)).1 =
      .ok () ∧
    (reconcilePods { pods := exPods 2 "nginx:1.19" } (exWorkload 3 "nginx:1.19" exRolling)).2.log =
      [.createPod (buildPod (exWorkload 3 "nginx:1.19" exRolling) 2)] ∧
    (∀ i : Nat, (i : Int) < (exWorkload 3 "nginx:1.19" exRolling).Spec.Replicas →
      ∃ p ∈ (reconcilePods { pods := exPods 2 "nginx:1.19" }
          (exWorkload 3 "nginx:1.19" exRolling)).2.pods,
        p.Namespace = (exWorkload 3 "nginx:1.19" exRolling).Namespace ∧
        p.Name = podNameOf (exWorkload 3 "nginx:1.19" exRolling).Name i) :=
  ⟨by decide, by decide, by decide,
    (reconcilePods_fill { pods := exPods 2 "nginx:1.19" } (exWorkload 3 "nginx:1.19" exRolling)
      { MatchLabels := exLabels } [exPod "web-1" "nginx:1.19", exPod "web-0" "nginx:1.19"]
      (by decide) rfl (by decide) (by decide)).1⟩

/-- C12, counterexample: two claim templates are both named `data`, the first asks for 1Gi
and the second for 2Gi; with 1 replica and no claim in the cluster, `reconcilePVCs` returns
no error and creates the one claim `data-web-0`, with the spec of the first template: the
claim of the second template was absent and no claim has the second template's spec. -/
theorem reconcilePVCs_postcondition_counterexample :
    reconcilePVCs {} (exWithTemplates (exWorkload 1 "nginx:1.19" exRolling)
        [exDataTemplate "1Gi", exDataTemplate "2Gi"]) =
      (.ok (),
        { pvcs := [buildPVC (exWithTemplates (exWorkload 1 "nginx:1.19" exRolling)
              [exDataTemplate "1Gi", exDataTemplate "2Gi"]) (exDataTemplate "1Gi") 0],
          log := [.createPVC (buildPVC (exWithTemplates (exWorkload 1 "nginx:1.19" exRolling)
              [exDataTemplate "1Gi", exDataTemplate "2Gi"]) (exDataTemplate "1Gi") 0)] }) ∧
    pvcNameOf (volumeNameOf (exDataTemplate "2Gi")) "web" 0 = "data-web-0" ∧
    (buildPVC (exWithTemplates (exWorkload 1 "nginx:1.19" exRolling)
        [exDataTemplate "1Gi", exDataTemplate "2Gi"]) (exDataTemplate "1Gi") 0).Spec ≠
      (exDataTemplate "2Gi").Spec := by
  decide

/-- C12 (amended). Claim postcondition: after `reconcilePVCs` (which returns no error), for
every claim template `t` and every ordinal `i` in `[0, replicas)` a claim named
`<vol(t)>-<name>-<i>` exists in the workload's namespace, where `vol(t)` is the template's
name, or `"www"` when that name is empty; when that claim was absent before, the pass has
created it with the spec and labels of the first claim template whose volume name is
`vol(t)` (the template `t` itself when the volume names of the templates are pairwise
distinct) and a controller owner reference to the workload. -/
theorem reconcilePVCs_postcondition (w : World) (m : MyStatefulset)
    (t : PersistentVolumeClaim) (i : Nat)
    (ht : t ∈ m.Spec.VolumeClaimTemplates) (hi : (i : Int) < m.Spec.Replicas) :
    (reconcilePVCs w m).1 = .ok () ∧
    (volumeNameOf t = if t.Name = "" then "www" else t.Name) ∧
    (∃ c ∈ (reconcilePVCs w m).2.pvcs,
      c.Namespace = m.Namespace ∧ c.Name = pvcNameOf (volumeNameOf t) m.Name i) ∧
    ((∀ d ∈ w.pvcs, ¬ (d.Namespace = m.Namespace ∧
          d.Name = pvcNameOf (volumeNameOf t) m.Name i)) →
      ∃ t0, m.Spec.VolumeClaimTemplates.find?
          (fun x => volumeNameOf x == volumeNameOf t) = some t0 ∧
        ((m.Spec.VolumeClaimTemplates.map volumeNameOf).Nodup → t0 = t) ∧
        ∃ c ∈ (reconcilePVCs w m).2.pvcs,
          Action.createPVC c ∈ (reconcilePVCs w m).2.log.drop w.log.length ∧
          c.Namespace = m.Namespace ∧ c.Name = pvcNameOf (volumeNameOf t) m.Name i ∧
          c.Spec = t0.Spec ∧ c.Labels = t0.Labels ∧
          c.OwnerReferences = [newControllerRef m] ∧
          (newControllerRef m).Controller = some true ∧
          (newControllerRef m).Name = m.Name ∧ (newControllerRef m).UID = m.UID) := by
  obtain ⟨new, h1, h2, h3⟩ := reconcilePVCs_spec w m
  rw [h1]
  refine ⟨rfl, ?_, ?_, ?_⟩
  · unfold volumeNameOf
    by_cases hn : t.Name = "" <;> simp [hn]
  · rcases h3 t ht i hi with ⟨d, hd, hd1, hd2⟩ | ⟨t0, ht0, hb⟩
    · exact ⟨d, by simp [hd], hd1, hd2⟩
    · have hv : volumeNameOf t0 = volumeNameOf t := by
        have := List.find?_some ht0
        simpa using this
      exact ⟨buildPVC m t0 i, by simp [hb], rfl, by simp [buildPVC, hv]⟩
  · intro habs
    rcases h3 t ht i hi with ⟨d, hd, hd1, hd2⟩ | ⟨t0, ht0, hb⟩
    · exact absurd ⟨hd1, hd2⟩ (habs d hd)
    · have hv : volumeNameOf t0 = volumeNameOf t := by
        have := List.find?_some ht0
        simpa using this
      refine ⟨t0, ht0, ?_, buildPVC m t0 i, by simp [hb], ?_, rfl, by simp [buildPVC, hv],
        rfl, rfl, rfl, rfl, rfl, rfl⟩
      · intro hnd
        have := find?_eq_self_of_nodup volumeNameOf _ t hnd ht
        rw [this] at ht0
        exact (Option.some.inj ht0).symm
      · simp only [List.drop_left]
        exact List.mem_map_of_mem _ hb

/-- C12 (amended), at an input: the workload `web` with the claim template `www` and 2
replicas, in a cluster that already holds the claim `www-web-0`; the pass creates
`www-web-1` from the template. -/
theorem reconcilePVCs_postcondition_witness :
    exClaimTemplate ∈ (exWithClaims (exWorkload 2 "nginx:1.19" exRolling)).Spec.VolumeClaimTemplates ∧
    ((1 : Nat) : Int) < (exWithClaims (exWorkload 2 "nginx:1.19" exRolling)).Spec.Replicas ∧
    (∀ d ∈ ({ pvcs := [exClaim "www-web-0"] } : World).pvcs,
      ¬ (d.Namespace = "default" ∧ d.Name = pvcNameOf (volumeNameOf exClaimTemplate) "web" 1)) ∧
    (reconcilePVCs { pvcs := [exClaim "www-web-0"] }
        (exWithClaims (exWorkload 2 "nginx:1.19" exRolling))).2.pvcs =
      [exClaim "www-web-0",
       buildPVC (exWithClaims (exWorkload 2 "nginx:1.19" exRolling)) exClaimTemplate 1] ∧
    ∃ c ∈ (reconcilePVCs { pvcs := [exClaim "www-web-0"] }
        (exWithClaims (exWorkload 2 "nginx:1.19" exRolling))).2.pvcs,
      c.Namespace = "default" ∧ c.Name = pvcNameOf (volumeNameOf exClaimTemplate) "web" 1 :=
  ⟨by decide, by decide, by decide, by decide,
    (reconcilePVCs_postcondition { pvcs := [exClaim "www-web-0"] }
      (exWithClaims (exWorkload 2 "nginx:1.19" exRolling)) exClaimTemplate 1
      (by decide) (by decide)).2.2.1⟩

/-- C13. Claims are retained outside teardown: whatever the workload and the cluster,
`reconcilePVCs` keeps every claim that existed, as it was, and only appends the claims it
creates; `reconcilePods` and `updateStatus` leave the claims exactly as they were. In the
scale-down scenario (3 pods and 3 claims, replicas now 1) a whole `Reconcile` pass deletes
the pods of the ordinals 1 and 2 and leaves the three claims unchanged. -/
theorem claims_retained (now : Int) (w : World) (m : MyStatefulset) :
    (∃ new, (reconcilePVCs w m).2.pvcs = w.pvcs ++ new) ∧
    (reconcilePods w m).2.pvcs = w.pvcs ∧
    (updateStatus now w m).2.2.pvcs = w.pvcs ∧
    ((Reconcile 0 exScaledDownWorld "default" "web").1 = .ok { RequeueAfter := 30 } ∧
      (Reconcile 0 exScaledDownWorld "default" "web").2.pods = [exPod "web-0" "nginx:1.19"] ∧
      (Reconcile 0 exScaledDownWorld "default" "web").2.pvcs = exScaledDownWorld.pvcs ∧
      exScaledDownWorld.pvcs.map (fun c => c.Name) = ["www-web-0", "www-web-1", "www-web-2"]) := by
  refine ⟨?_, reconcilePods_pvcs w m, updateStatus_pvcs now w m, by decide⟩
  obtain ⟨new, h1, _, _⟩ := reconcilePVCs_spec w m
  exact ⟨new, by rw [h1]⟩

/-- C14. Pod volumes agree with the claim manager: whatever the workload, the cluster and
the ordinal `i`, a pod that `createPod` creates has exactly one volume per claim template,
in template order; the volume for template `t` has the name `vol(t)` (the template name, or
`"www"` when empty) and references the claim `<vol(t)>-<name>-<i>`; that is the name of the
claim `reconcilePVCs` builds for `(t, i)`, every claim `reconcilePVCs` creates has such a
name, and for `i` below the replica count the referenced claim exists after
`reconcilePVCs`. -/
theorem createPod_volumes (w : World) (m : MyStatefulset) (i : Nat) :
    (∀ p, Action.createPod p ∈ (createPod w m i).2.log.drop w.log.length →
      p.Spec.Volumes = m.Spec.VolumeClaimTemplates.map (fun t =>
        { Name := volumeNameOf t, ClaimName := pvcNameOf (volumeNameOf t) m.Name i }) ∧
      p.Spec.Volumes.length = m.Spec.VolumeClaimTemplates.length) ∧
    (∀ t ∈ m.Spec.VolumeClaimTemplates,
      (volumeNameOf t = if t.Name = "" then "www" else t.Name) ∧
      (buildPVC m t i).Name = pvcNameOf (volumeNameOf t) m.Name i ∧
      ((i : Int) < m.Spec.Replicas →
        ∃ c ∈ (reconcilePVCs w m).2.pvcs,
          c.Namespace = m.Namespace ∧ c.Name = pvcNameOf (volumeNameOf t) m.Name i)) ∧
    (∀ c, Action.createPVC c ∈ (reconcilePVCs w m).2.log.drop w.log.length →
      ∃ t ∈ m.Spec.VolumeClaimTemplates, ∃ j : Nat,
        c.Name = pvcNameOf (volumeNameOf t) m.Name j) := by
  refine ⟨?_, ?_, ?_⟩
  · intro p hp
    have hp2 : p = buildPod m i := by
      rcases createPod_world w m i with ⟨_, h⟩ | ⟨_, h⟩
      · rw [h] at hp; simp at hp
      · rw [h] at hp
        simpa using hp
    subst hp2
    exact ⟨rfl, by simp [buildPod]⟩
  · intro t ht
    refine ⟨?_, rfl, ?_⟩
    · unfold volumeNameOf
      by_cases hn : t.Name = "" <;> simp [hn]
    · intro hi
      exact reconcilePVCs_exists w m t i ht hi
  · intro c hc
    obtain ⟨new, h1, h2, _⟩ := reconcilePVCs_spec w m
    rw [h1] at hc
    simp only [List.drop_left, List.mem_map] at hc
    obtain ⟨c2, hc2, hc3⟩ := hc
    have : c2 = c := Action.createPVC.inj hc3
    subst this
    obtain ⟨t, ht, j, _, hj⟩ := h2 c2 hc2
    exact ⟨t, ht, j, by rw [hj]; rfl⟩

/-- C14, at an input: the workload `web` with the claim template `www`; the pod created for
ordinal 0 has the one volume `www`, which references the claim `www-web-0`, and that claim
exists after `reconcilePVCs`. -/
theorem createPod_volumes_witness :
    Action.createPod (buildPod (exWithClaims (exWorkload 2 "nginx:1.19" exRolling)) 0) ∈
      (createPod {} (exWithClaims (exWorkload 2 "nginx:1.19" exRolling)) 0).2.log.drop
        ({} : World).log.length ∧
    (buildPod (exWithClaims (exWorkload 2 "nginx:1.19" exRolling)) 0).Spec.Volumes =
      [{ Name := "www", ClaimName := "www-web-0" }] ∧
    ((0 : Nat) : Int) < (exWithClaims (exWorkload 2 "nginx:1.19" exRolling)).Spec.Replicas ∧
    ∃ c ∈ (reconcilePVCs {} (exWithClaims (exWorkload 2 "nginx:1.19" exRolling))).2.pvcs,
      c.Namespace = "default" ∧ c.Name = pvcNameOf (volumeNameOf exClaimTemplate) "web" 0 :=
  ⟨by decide,
    ((createPod_volumes {} (exWithClaims (exWorkload 2 "nginx:1.19" exRolling)) 0).1 _
      (by decide)).1,
    by decide,
    ((createPod_volumes {} (exWithClaims (exWorkload 2 "nginx:1.19" exRolling)) 0).2.1
      exClaimTemplate (by decide)).2.2 (by decide)⟩

/-- C15. Invalid selector is rejected before any mutation: for a stored workload that is
not marked for deletion and whose selector is nil, or whose template labels are nil, or for
which some selector matchLabels key is missing from the template labels or has another
value there, `Reconcile` returns an error and leaves pods, claims, services and stored
objects as they were and makes no mutating call (no finalizer write, no status write); it
only hands a warning event to the recorder. -/
theorem Reconcile_rejects_invalid_selector (now : Int) (w : World) (ns name : String)
    (m : MyStatefulset)
    (hget : getObject w ns name = .ok m) (hdel : m.DeletionTimestamp = none)
    (hbad : m.Spec.Selector = none ∨ m.Spec.Template.Labels = none ∨
      ∃ sel key v, m.Spec.Selector = some sel ∧ mapLookup sel.MatchLabels key = some v ∧
        mapLookup m.Spec.Template.Labels key ≠ some v) :
    (∃ msg, (Reconcile now w ns name).1 = .error (.error msg)) ∧
    (Reconcile now w ns name).2.pods = w.pods ∧
    (Reconcile now w ns name).2.pvcs = w.pvcs ∧
    (Reconcile now w ns name).2.services = w.services ∧
    (Reconcile now w ns name).2.objects = w.objects ∧
    (Reconcile now w ns name).2.log = w.log ∧
    (∃ e, (Reconcile now w ns name).2.events = w.events ++ [e] ∧ e.Type_ = "Warning") := by
  unfold Reconcile
  simp only [hget, hdel, Option.isSome_none, Bool.false_eq_true, if_false]
  cases hsel : m.Spec.Selector with
  | none =>
    exact ⟨⟨_, rfl⟩, rfl, rfl, rfl, rfl, rfl, ⟨_, rfl, rfl⟩⟩
  | some sel =>
    simp only
    by_cases hl : m.Spec.Template.Labels.isNone = true
    · simp only [hl, if_true]
      exact ⟨⟨_, rfl⟩, rfl, rfl, rfl, rfl, rfl, ⟨_, rfl, rfl⟩⟩
    · have hmis : templateMatchesSelector sel.MatchLabels m.Spec.Template.Labels = false := by
        rcases hbad with h | h | ⟨sel2, key, v, h1, h2, h3⟩
        · rw [hsel] at h; simp at h
        · rw [h] at hl; simp at hl
        · rw [hsel] at h1
          have : sel2 = sel := (Option.some.inj h1).symm
          subst this
          exact templateMatchesSelector_false _ _ key v h2 h3
      simp only [hl, hmis, Bool.false_eq_true, if_false, Bool.not_false, if_true]
      exact ⟨⟨_, rfl⟩, rfl, rfl, rfl, rfl, rfl, ⟨_, rfl, rfl⟩⟩

/-- C15, at an input: the stored workload `web` has the selector `app=test` and the
template labels `app=other`; `Reconcile` returns the validation error and makes no call. -/
theorem Reconcile_rejects_invalid_selector_witness :
    getObject { pods := exPods 1 "nginx:1.18",
                objects := [exWithTemplateLabels (exWorkload 3 "nginx:1.19" exRolling)
                  (some [("app", "other")])] } "default" "web" =
      .ok (exWithTemplateLabels (exWorkload 3 "nginx:1.19" exRolling) (some [("app", "other")])) ∧
    (Reconcile 0 { pods := exPods 1 "nginx:1.18",
                   objects := [exWithTemplateLabels (exWorkload 3 "nginx:1.19" exRolling)
                     (some [("app", "other")])] } "default" "web").1 =
      .error (.error "pod template labels must match selector") ∧
    (Reconcile 0 { pods := exPods 1 "nginx:1.18",
                   objects := [exWithTemplateLabels (exWorkload 3 "nginx:1.19" exRolling)
                     (some [("app", "other")])] } "default" "web").2.log =
      ({ pods := exPods 1 "nginx:1.18",
         objects := [exWithTemplateLabels (exWorkload 3 "nginx:1.19" exRolling)
           (some [("app", "other")])] } : World).log :=
  ⟨by decide, by decide,
    (Reconcile_rejects_invalid_selector 0 _ "default" "web"
      (exWithTemplateLabels (exWorkload 3 "nginx:1.19" exRolling) (some [("app", "other")]))
      (by decide) rfl
      (Or.inr (Or.inr ⟨{ MatchLabels := exLabels }, "app", "test", rfl, by decide,
        by decide⟩))).2.2.2.2.2.1⟩

/-- C16. A strict-subset selector is rejected by `reconcilePods`: the workload `web` has the
selector `app=test` and the template labels `app=test, tier=db`, 3 replicas, and its
governing service exists. The validation of `Reconcile` accepts it (the finalizer is
written), and `reconcilePods` then returns "pod template labels must match selector": no
pod is created. -/
theorem Reconcile_rejects_subset_selector :
    templateMatchesSelector exLabels (some [("app", "test"), ("tier", "db")]) = true ∧
    Reconcile 0 { services := [("default", "web-svc")],
                  objects := [exExtraLabel (exWorkload 3 "nginx:1.19" exRolling)] }
        "default" "web" =
      (.error (.error "pod template labels must match selector"),
        { services := [("default", "web-svc")],
          objects := [addFinalizer (exExtraLabel (exWorkload 3 "nginx:1.19" exRolling))
            myStatefulsetFinalizer],
          log := [.update (addFinalizer (exExtraLabel (exWorkload 3 "nginx:1.19" exRolling))
            myStatefulsetFinalizer)] }) ∧
    reconcilePods {} (exExtraLabel (exWorkload 3 "nginx:1.19" exRolling)) =
      (.error (.error "pod template labels must match selector"), {}) := by
  decide

/-- C17. OnDelete never replaces pods: under a strategy whose type is not RollingUpdate,
whatever the cluster, a pass of `reconcilePods` deletes no pod named `<name>-<k>` with
`k` below the replica count, however the pod differs from the template; every call it makes
is a creation by Fill (a pod built from the template for an ordinal below the replica
count) or a deletion by Drain (a pod whose ordinal, as `getOrdinal` reads it, is at or
above the replica count). -/
theorem reconcilePods_onDelete (w : World) (m : MyStatefulset)
    (hstrategy : m.Spec.UpdateStrategy.Type_ ≠ RollingUpdateStatefulSetStrategyType) :
    (∀ (ns name : String) (k : Nat), (k : Int) < m.Spec.Replicas →
      Action.deletePod ns (podNameOf name k) ∉ (reconcilePods w m).2.log.drop w.log.length) ∧
    (∀ a ∈ (reconcilePods w m).2.log.drop w.log.length,
      (∃ i : Nat, (i : Int) < m.Spec.Replicas ∧ a = .createPod (buildPod m i)) ∨
      (∃ ns nm, ∃ o : Nat, a = .deletePod ns nm ∧ getOrdinal nm = some o ∧
        m.Spec.Replicas ≤ (o : Int))) := by
  obtain ⟨new, acts, h1, h2, h3⟩ := reconcilePods_not_rolling_log w m hstrategy
  rw [h1, List.drop_left]
  constructor
  · intro ns name k hk hmem
    rcases List.mem_append.mp hmem with hmem | hmem
    · simp at hmem
    · obtain ⟨ns2, nm, o, e1, e2, e3⟩ := h3 _ hmem
      have hnm : podNameOf name k = nm := (Action.deletePod.inj e1).2
      rw [← hnm, getOrdinal_podNameOf] at e2
      have : k % 10 = o := by simpa using e2
      have hle : k % 10 ≤ k := Nat.mod_le k 10
      omega
  · intro a ha
    rcases List.mem_append.mp ha with ha | ha
    · left
      obtain ⟨p, hp, rfl⟩ := List.mem_map.mp ha
      obtain ⟨i, hi, rfl⟩ := h2 p hp
      exact ⟨i, hi, rfl⟩
    · right
      exact h3 a ha

/-- C17, at an input: strategy OnDelete, 3 replicas of `nginx:1.19`, the pods 0, 1, 2 on
`nginx:1.18`: the pass makes no call, and pod 2 is not deleted. -/
theorem reconcilePods_onDelete_witness :
    (exWorkload 3 "nginx:1.19" { Type_ := OnDeleteStatefulSetStrategyType }).Spec.UpdateStrategy.Type_ ≠
      RollingUpdateStatefulSetStrategyType ∧
    needsUpdate (exPod "web-2" "nginx:1.18")
      (exWorkload 3 "nginx:1.19" { Type_ := OnDeleteStatefulSetStrategyType }) = true ∧
    (reconcilePods { pods := exPods 3 "nginx:1.18" }
      (exWorkload 3 "nginx:1.19" { Type_ := OnDeleteStatefulSetStrategyType })).2.log = [] ∧
    Action.deletePod "default" (podNameOf "web" 2) ∉
      (reconcilePods { pods := exPods 3 "nginx:1.18" }
        (exWorkload 3 "nginx:1.19" { Type_ := OnDeleteStatefulSetStrategyType })).2.log.drop
          ({ pods := exPods 3 "nginx:1.18" } : World).log.length :=
  ⟨by decide, by decide, by decide,
    (reconcilePods_onDelete { pods := exPods 3 "nginx:1.18" }
      (exWorkload 3 "nginx:1.19" { Type_ := OnDeleteStatefulSetStrategyType })
      (by decide)).1 "default" "web" 2 (by decide)⟩

/-- C18. Update detection policy: `needsUpdate(pod, workload)` is true exactly when the
pod's label map is not the template's label map, or the pod's container count is not the
template's, or at some index the image or the resource requirements of the pod's container
are not those of the template's container at that index. The comparison is the structural
one of `reflect.DeepEqual`: maps are the same when both are nil or both are not and every
key has the same binding, resource requirements when limits, requests and claims are, and a
quantity is the Go value (`1000m` and `1` are two). So two pods with the same labels and,
container by container, the same image and resources get the same answer, whatever their
container names, env, volume mounts, volumes and status. -/
theorem needsUpdate_iff (pod : Pod) (m : MyStatefulset) :
    (needsUpdate pod m = true ↔
      (¬ GoMapEq pod.Labels m.Spec.Template.Labels ∨
        pod.Spec.Containers.length ≠ m.Spec.Template.Spec.Containers.length ∨
        ∃ (i : Nat) (c t : Container),
          pod.Spec.Containers[i]? = some c ∧ m.Spec.Template.Spec.Containers[i]? = some t ∧
          (c.Image ≠ t.Image ∨ ¬ ResourcesEq c.Resources t.Resources))) ∧
    (∀ pod2 : Pod, pod2.Labels = pod.Labels →
      pod2.Spec.Containers.map (fun c => (c.Image, c.Resources)) =
        pod.Spec.Containers.map (fun c => (c.Image, c.Resources)) →
      needsUpdate pod2 m = needsUpdate pod m) := by
  have main : ∀ p : Pod, (needsUpdate p m = true ↔
      (¬ GoMapEq p.Labels m.Spec.Template.Labels ∨
        p.Spec.Containers.length ≠ m.Spec.Template.Spec.Containers.length ∨
        ∃ (i : Nat) (c t : Container),
          p.Spec.Containers[i]? = some c ∧ m.Spec.Template.Spec.Containers[i]? = some t ∧
          (c.Image ≠ t.Image ∨ ¬ ResourcesEq c.Resources t.Resources))) := by
    intro p
    unfold needsUpdate
    by_cases hl : mapDeepEqual p.Labels m.Spec.Template.Labels = true
    · have hl2 := (mapDeepEqual_iff _ _).mp hl
      by_cases hn : p.Spec.Containers.length = m.Spec.Template.Spec.Containers.length
      · simp only [hl, Bool.not_true, Bool.false_eq_true, if_false, hn, bne_self_eq_false,
          containersDiffer_iff, hl2, not_true_eq_false, ne_eq, false_or]
      · have : (p.Spec.Containers.length != m.Spec.Template.Spec.Containers.length) = true := by
          simpa using hn
        simp only [hl, Bool.not_true, Bool.false_eq_true, if_false, this, if_true, true_iff]
        exact Or.inr (Or.inl hn)
    · have hl2 : ¬ GoMapEq p.Labels m.Spec.Template.Labels :=
        fun h => hl ((mapDeepEqual_iff _ _).mpr h)
      have : mapDeepEqual p.Labels m.Spec.Template.Labels = false := by simpa using hl
      simp only [this, Bool.not_false, if_true, true_iff]
      exact Or.inl hl2
  refine ⟨main pod, ?_⟩
  intro pod2 hlab hcont
  have hlen : pod2.Spec.Containers.length = pod.Spec.Containers.length := by
    simpa using congrArg List.length hcont
  have hidx : ∀ (i : Nat) (c : Container), pod2.Spec.Containers[i]? = some c →
      ∃ c2, pod.Spec.Containers[i]? = some c2 ∧ c2.Image = c.Image ∧ c2.Resources = c.Resources := by
    intro i c hc
    have h1 : (pod2.Spec.Containers.map (fun c => (c.Image, c.Resources)))[i]? =
        some (c.Image, c.Resources) := by simp [hc]
    rw [hcont] at h1
    simp only [List.getElem?_map, Option.map_eq_some'] at h1
    obtain ⟨c2, hc2, heq⟩ := h1
    simp only [Prod.mk.injEq] at heq
    exact ⟨c2, hc2, heq.1, heq.2⟩
  have hidx2 : ∀ (i : Nat) (c : Container), pod.Spec.Containers[i]? = some c →
      ∃ c2, pod2.Spec.Containers[i]? = some c2 ∧ c2.Image = c.Image ∧ c2.Resources = c.Resources := by
    intro i c hc
    have h1 : (pod.Spec.Containers.map (fun c => (c.Image, c.Resources)))[i]? =
        some (c.Image, c.Resources) := by simp [hc]
    rw [← hcont] at h1
    simp only [List.getElem?_map, Option.map_eq_some'] at h1
    obtain ⟨c2, hc2, heq⟩ := h1
    simp only [Prod.mk.injEq] at heq
    exact ⟨c2, hc2, heq.1, heq.2⟩
  have hiff : needsUpdate pod2 m = true ↔ needsUpdate pod m = true := by
    rw [main pod2, main pod, hlab, hlen]
    constructor
    · rintro (h | h | ⟨i, c, t, h1, h2, h3⟩)
      · exact Or.inl h
      · exact Or.inr (Or.inl h)
      · obtain ⟨c2, hc2, e1, e2⟩ := hidx i c h1
        exact Or.inr (Or.inr ⟨i, c2, t, hc2, h2, by rw [e1, e2]; exact h3⟩)
    · rintro (h | h | ⟨i, c, t, h1, h2, h3⟩)
      · exact Or.inl h
      · exact Or.inr (Or.inl h)
      · obtain ⟨c2, hc2, e1, e2⟩ := hidx2 i c h1
        exact Or.inr (Or.inr ⟨i, c2, t, hc2, h2, by rw [e1, e2]; exact h3⟩)
  cases h1 : needsUpdate pod2 m <;> cases h2 : needsUpdate pod m <;> simp_all

/-- C18, at two inputs: a pod that differs from `web-0` in its container name, env, volume
mounts, volumes and status only gets the same answer from `needsUpdate`; a pod whose cpu
limit is the quantity `1000m` differs from a template whose cpu limit is the quantity `1`,
though the image and the keys of the limits are the same. -/
theorem needsUpdate_iff_witness :
    ({ exPod "web-0" "nginx:1.18" with
        Spec := { Containers := [{ Name := "other", Image := "nginx:1.18",
                                   Env := [{ Name := "A", Value := "1" }],
                                   VolumeMounts := [{ Name := "www", MountPath := "/data" }] }],
                  Volumes := [{ Name := "www", ClaimName := "www-web-0" }] },
        Status := {} } : Pod).Labels = (exPod "web-0" "nginx:1.18").Labels ∧
    needsUpdate
      { exPod "web-0" "nginx:1.18" with
        Spec := { Containers := [{ Name := "other", Image := "nginx:1.18",
                                   Env := [{ Name := "A", Value := "1" }],
                                   VolumeMounts := [{ Name := "www", MountPath := "/data" }] }],
                  Volumes := [{ Name := "www", ClaimName := "www-web-0" }] },
        Status := {} }
      (exWorkload 3 "nginx:1.19" exRolling) =
    needsUpdate (exPod "web-0" "nginx:1.18") (exWorkload 3 "nginx:1.19" exRolling) ∧
    needsUpdate (exPodWithCpu (exPod "web-0" "nginx:1.19") exMilliCpu)
      (exWithCpu (exWorkload 3 "nginx:1.19" exRolling) exOneCpu) = true :=
  ⟨rfl, (needsUpdate_iff (exPod "web-0" "nginx:1.18") (exWorkload 3 "nginx:1.19" exRolling)).2
    _ rfl (by decide),
    (needsUpdate_iff (exPodWithCpu (exPod "web-0" "nginx:1.19") exMilliCpu)
      (exWithCpu (exWorkload 3 "nginx:1.19" exRolling) exOneCpu)).1.mpr
      (Or.inr (Or.inr ⟨0, _, _, rfl, rfl, Or.inr (fun h => absurd (h.1.2 "cpu") (by decide))⟩))⟩

/-- C19, counterexample: a Running pod whose condition list is Ready=False followed by
Ready=True contains a Ready condition whose status is True, and `isPodReady` is false: the
first Ready condition decides. -/
theorem isPodReady_counterexample :
    (exWithConditions (exPod "web-0" "nginx:1.19")
      [{ Type_ := "Ready", Status := "False" }, { Type_ := "Ready", Status := "True" }]).Status.Phase =
      "Running" ∧
    ({ Type_ := "Ready", Status := "True" } : PodCondition) ∈
      (exWithConditions (exPod "web-0" "nginx:1.19")
        [{ Type_ := "Ready", Status := "False" },
         { Type_ := "Ready", Status := "True" }]).Status.Conditions ∧
    isPodReady (exWithConditions (exPod "web-0" "nginx:1.19")
      [{ Type_ := "Ready", Status := "False" }, { Type_ := "Ready", Status := "True" }]) = false := by
  decide

/-- C19 (amended). Readiness predicate: `isPodReady(pod)` is true exactly when the pod's
phase is Running and the first condition of type Ready in its condition list has status
True; when the list has at most one condition of type Ready, that is exactly when the phase
is Running and the list contains a Ready condition whose status is True. It is false for a
Pending pod, whatever its conditions, and for a Running pod all of whose Ready conditions
have status False. -/
theorem isPodReady_iff (pod : Pod) :
    (isPodReady pod = true ↔
      pod.Status.Phase = "Running" ∧
      ∃ c, pod.Status.Conditions.find? (fun c => c.Type_ == "Ready") = some c ∧
        c.Status = "True") ∧
    ((pod.Status.Conditions.filter (fun c => c.Type_ == "Ready")).length ≤ 1 →
      (isPodReady pod = true ↔
        pod.Status.Phase = "Running" ∧
        ∃ c ∈ pod.Status.Conditions, c.Type_ = "Ready" ∧ c.Status = "True")) ∧
    (pod.Status.Phase = "Pending" → isPodReady pod = false) ∧
    ((∀ c ∈ pod.Status.Conditions, c.Type_ = "Ready" → c.Status = "False") →
      isPodReady pod = false) := by
  have main : isPodReady pod = true ↔
      pod.Status.Phase = "Running" ∧
      ∃ c, pod.Status.Conditions.find? (fun c => c.Type_ == "Ready") = some c ∧
        c.Status = "True" := by
    unfold isPodReady
    by_cases hph : pod.Status.Phase = "Running"
    · simp only [hph, bne_self_eq_false, Bool.false_eq_true, if_false, true_and]
      exact readyCondition_iff_find _
    · have : (pod.Status.Phase != "Running") = true := by simpa using hph
      simp [this, hph]
  refine ⟨main, ?_, ?_, ?_⟩
  · intro huniq
    rw [main]
    constructor
    · rintro ⟨h1, c, hc, hs⟩
      have h2 := List.find?_some hc
      exact ⟨h1, c, List.mem_of_find?_eq_some hc, by simpa using h2, hs⟩
    · rintro ⟨h1, c, hc, ht, hs⟩
      exact ⟨h1, c, find?_eq_of_filter_le_one _ _ c huniq hc (by simp [ht]), hs⟩
  · intro hp
    cases h : isPodReady pod with
    | false => rfl
    | true =>
      have := (main.mp h).1
      rw [hp] at this
      exact absurd this (by decide)
  · intro hall
    cases h : isPodReady pod with
    | false => rfl
    | true =>
      obtain ⟨_, c, hc, hs⟩ := main.mp h
      have h2 := List.find?_some hc
      have h3 := hall c (List.mem_of_find?_eq_some hc) (by simpa using h2)
      rw [hs] at h3
      exact absurd h3 (by decide)

/-- C19 (amended), at the inputs of the test: a Running pod with Ready=True is ready, a
Pending pod with Ready=True and a Running pod with Ready=False are not. -/
theorem isPodReady_iff_witness :
    isPodReady (exPod "web-0" "nginx:1.19") = true ∧
    ((exInPhase (exPod "web-0" "nginx:1.19") "Pending").Status.Phase = "Pending" ∧
      isPodReady (exInPhase (exPod "web-0" "nginx:1.19") "Pending") = false) ∧
    ((exWithConditions (exPod "web-0" "nginx:1.19")
        [{ Type_ := "Ready", Status := "False" }]).Status.Phase = "Running" ∧
      isPodReady (exWithConditions (exPod "web-0" "nginx:1.19")
        [{ Type_ := "Ready", Status := "False" }]) = false) :=
  ⟨((isPodReady_iff (exPod "web-0" "nginx:1.19")).2.1 (by decide)).mpr
      ⟨rfl, { Type_ := "Ready", Status := "True" }, by decide, rfl, rfl⟩,
    ⟨rfl, (isPodReady_iff (exInPhase (exPod "web-0" "nginx:1.19") "Pending")).2.2.1 rfl⟩,
    ⟨rfl, (isPodReady_iff (exWithConditions (exPod "web-0" "nginx:1.19")
        [{ Type_ := "Ready", Status := "False" }])).2.2.2 (by decide)⟩⟩

/-- C20. An absent key passes for an empty-valued template label: the template labels are
`app=test, tier=""` and the Running pod `web-0`, with the template's image, carries only
`app=test`; the key `tier` is not present on the pod, and `isPodUpdated` is true (while
`needsUpdate` finds the label maps different). -/
theorem isPodUpdated_empty_value :
    mapLookup (exWithTemplateLabels (exWorkload 3 "nginx:1.19" exRolling)
      (some [("app", "test"), ("tier", "")])).Spec.Template.Labels "tier" = some "" ∧
    mapLookup (exPod "web-0" "nginx:1.19").Labels "tier" = none ∧
    isPodUpdated (exPod "web-0" "nginx:1.19")
      (exWithTemplateLabels (exWorkload 3 "nginx:1.19" exRolling)
        (some [("app", "test"), ("tier", "")])) = true ∧
    needsUpdate (exPod "web-0" "nginx:1.19")
      (exWithTemplateLabels (exWorkload 3 "nginx:1.19" exRolling)
        (some [("app", "test"), ("tier", "")])) = true := by
  decide

/-- C21. Availability predicate: for every pod, every `minReadySeconds` m (also a negative
one) and every clock value `now`, `isPodAvailable` is true exactly when `isPodReady` holds
and either m = 0 or at least m seconds (m * 10^9 nanoseconds) lie between the last transition
time of the pod's Ready condition, the first condition of type Ready in its list, and `now`;
when the list has at most one condition of type Ready, that is the Ready condition in the
list. Available implies ready, and for m = 0 `isPodAvailable` is `isPodReady`. -/
theorem isPodAvailable_iff (now : Int) (pod : Pod) (m : Int) :
    (isPodAvailable now pod m = true ↔
      isPodReady pod = true ∧
      (m = 0 ∨ ∃ c, pod.Status.Conditions.find? (fun c => c.Type_ == "Ready") = some c ∧
        now - c.LastTransitionTime ≥ m * 1000000000)) ∧
    ((pod.Status.Conditions.filter (fun c => c.Type_ == "Ready")).length ≤ 1 →
      (isPodAvailable now pod m = true ↔
        isPodReady pod = true ∧
        (m = 0 ∨ ∃ c ∈ pod.Status.Conditions, c.Type_ = "Ready" ∧
          now - c.LastTransitionTime ≥ m * 1000000000))) ∧
    (isPodAvailable now pod m = true → isPodReady pod = true) ∧
    isPodAvailable now pod 0 = isPodReady pod := by
  have main : isPodAvailable now pod m = true ↔
      isPodReady pod = true ∧
      (m = 0 ∨ ∃ c, pod.Status.Conditions.find? (fun c => c.Type_ == "Ready") = some c ∧
        now - c.LastTransitionTime ≥ m * 1000000000) := by
    unfold isPodAvailable
    cases hr : isPodReady pod with
    | false => simp
    | true =>
      obtain ⟨c, hc, hl⟩ := readyLongEnough_of_ready now m _ (isPodReady_conditions pod hr)
      by_cases hm : m = 0
      · simp [hm]
      · have hm2 : (m == 0) = false := by simpa using hm
        simp only [Bool.not_true, Bool.false_eq_true, if_false, hm2, hl, decide_eq_true_eq,
          true_and, hm, false_or, hc, Option.some.injEq]
        constructor
        · intro h
          exact ⟨c, rfl, h⟩
        · rintro ⟨d, hd, h⟩
          rw [hd]
          exact h
  refine ⟨main, ?_, fun h => (main.mp h).1, ?_⟩
  · intro huniq
    rw [main]
    constructor
    · rintro ⟨h1, h2⟩
      refine ⟨h1, ?_⟩
      rcases h2 with h2 | ⟨c, hc, h2⟩
      · exact Or.inl h2
      · have h3 := List.find?_some hc
        exact Or.inr ⟨c, List.mem_of_find?_eq_some hc, by simpa using h3, h2⟩
    · rintro ⟨h1, h2⟩
      refine ⟨h1, ?_⟩
      rcases h2 with h2 | ⟨c, hc, ht, h2⟩
      · exact Or.inl h2
      · exact Or.inr ⟨c, find?_eq_of_filter_le_one _ _ c huniq hc (by simp [ht]), h2⟩
  · unfold isPodAvailable
    cases hr : isPodReady pod <;> simp

/-- C21, at a pod that became Ready at second 100 with `minReadySeconds` 10: not available at
second 105, available at second 110, and available at once for `minReadySeconds` 0. -/
theorem isPodAvailable_iff_witness :
    isPodAvailable 105000000000
      (exWithConditions (exPod "web-0" "nginx:1.19")
        [{ Type_ := "Ready", Status := "True", LastTransitionTime := 100000000000 }]) 10 = false ∧
    isPodAvailable 110000000000
      (exWithConditions (exPod "web-0" "nginx:1.19")
        [{ Type_ := "Ready", Status := "True", LastTransitionTime := 100000000000 }]) 10 = true ∧
    isPodReady (exWithConditions (exPod "web-0" "nginx:1.19")
        [{ Type_ := "Ready", Status := "True", LastTransitionTime := 100000000000 }]) = true ∧
    isPodAvailable 100000000000
      (exWithConditions (exPod "web-0" "nginx:1.19")
        [{ Type_ := "Ready", Status := "True", LastTransitionTime := 100000000000 }]) 0 = true :=
  ⟨by decide,
    (isPodAvailable_iff 110000000000 (exWithConditions (exPod "web-0" "nginx:1.19")
        [{ Type_ := "Ready", Status := "True", LastTransitionTime := 100000000000 }]) 10).1.mpr
      ⟨by decide, Or.inr ⟨_, rfl, by decide⟩⟩,
    (isPodAvailable_iff 110000000000 (exWithConditions (exPod "web-0" "nginx:1.19")
        [{ Type_ := "Ready", Status := "True", LastTransitionTime := 100000000000 }]) 10).2.2.1
      (by decide),
    by decide⟩

/-- C22. No round trip from ordinal 10 on: the pod that `createPod` builds for ordinal 10 of
the workload `web` is named `web-10`, and `getOrdinal` of that name is 0, not 10; for every
name and every k it is the last decimal digit of k. -/
theorem getOrdinal_not_round_trip :
    (buildPod (exWorkload 11 "nginx:1.19" exRolling) 10).Name = "web-10" ∧
    getOrdinal (buildPod (exWorkload 11 "nginx:1.19" exRolling) 10).Name = some 0 ∧
    ∀ (name : String) (k : Nat), getOrdinal (podNameOf name k) = some (k % 10) :=
  ⟨by decide, by decide, getOrdinal_podNameOf⟩

/-- C23. Pod identity on creation: when the template has at least one container and no pod
named `<name>-<i>` exists in the workload's namespace, `createPod` returns no error and
afterwards the pod that `Get` returns for `<name>-<i>` in that namespace has the template
labels, the hostname `<name>-<i>`, the governing service name as subdomain when that name
is non-empty, and as its only owner reference a controller reference to the workload. When
the template has no container, `createPod` returns an error and the cluster is unchanged. -/
theorem createPod_identity (w : World) (m : MyStatefulset) (i : Nat) :
    (m.Spec.Template.Spec.Containers ≠ [] →
      (∀ q ∈ w.pods, ¬ (q.Namespace = m.Namespace ∧ q.Name = podNameOf m.Name i)) →
      (createPod w m i).1 = .ok () ∧
      ∃ p, getPod (createPod w m i).2 m.Namespace (podNameOf m.Name i) = .ok p ∧
        p ∈ (createPod w m i).2.pods ∧
        p.Name = podNameOf m.Name i ∧ p.Namespace = m.Namespace ∧
        p.Labels = m.Spec.Template.Labels ∧
        p.Spec.Hostname = podNameOf m.Name i ∧
        (m.Spec.ServiceName ≠ "" → p.Spec.Subdomain = m.Spec.ServiceName) ∧
        p.OwnerReferences = [newControllerRef m] ∧
        (newControllerRef m).Controller = some true ∧
        (newControllerRef m).Kind = "MyStatefulset" ∧
        (newControllerRef m).Name = m.Name ∧ (newControllerRef m).UID = m.UID) ∧
    (m.Spec.Template.Spec.Containers = [] →
      (∃ e, (createPod w m i).1 = .error e) ∧ (createPod w m i).2 = w) := by
  constructor
  · intro hc hfree
    have hok := createPod_ok_of_free w m i hc hfree
    refine ⟨hok, ?_⟩
    have hw : (createPod w m i).2 =
        { w with pods := w.pods ++ [buildPod m i],
                 log := w.log ++ [.createPod (buildPod m i)] } := by
      rcases createPod_world w m i with ⟨⟨e, he⟩, _⟩ | ⟨_, h⟩
      · rw [hok] at he; cases he
      · exact h
    rw [hw]
    refine ⟨buildPod m i, ?_, by simp, rfl, rfl, rfl, rfl, ?_, rfl, rfl, rfl, rfl, rfl⟩
    · unfold getPod
      have hf : (w.pods ++ [buildPod m i]).find?
          (fun p => p.Namespace == m.Namespace && p.Name == podNameOf m.Name i) =
          some (buildPod m i) := by
        rw [List.find?_append]
        have hn : w.pods.find?
            (fun p => p.Namespace == m.Namespace && p.Name == podNameOf m.Name i) = none := by
          rw [List.find?_eq_none]
          intro q hq hcon
          simp only [Bool.and_eq_true, beq_iff_eq] at hcon
          exact hfree q hq hcon
        rw [hn]
        simp [List.find?, buildPod]
      simp only [hf]
    · intro hs
      have : (m.Spec.ServiceName != "") = true := by simpa using hs
      simp [buildPod, this]
  · intro hc
    unfold createPod
    simp [hc]

/-- C23, at the input of the test: the workload `web` with one container and an empty
cluster; the pod `web-0` is created. -/
theorem createPod_identity_witness :
    (createPod {} (exWorkload 3 "nginx:1.19" exRolling) 0).1 = .ok () ∧
    ∃ p, getPod (createPod {} (exWorkload 3 "nginx:1.19" exRolling) 0).2 "default" "web-0" =
        .ok p ∧
      p.Labels = exLabels ∧ p.Spec.Hostname = "web-0" ∧ p.Spec.Subdomain = "web-svc" :=
  have h := (createPod_identity {} (exWorkload 3 "nginx:1.19" exRolling) 0).1 (by decide)
    (by decide)
  ⟨h.1, h.2.choose, h.2.choose_spec.1, h.2.choose_spec.2.2.2.2.1, h.2.choose_spec.2.2.2.2.2.1,
    h.2.choose_spec.2.2.2.2.2.2.1 (by decide)⟩

/-- C24. Admission validation on create: `ValidateCreate` returns an error exactly when
replicas < 0, or replicas > 100, or the template has no container, or some container has an
empty image, or some container has two ports, at positions i < j, with the same non-empty
name; it returns nil in every other case. The workload of the test with replicas = 3 and
one nginx container is accepted, the one with replicas = -1 is rejected, and so is one whose
container has two ports named `http` (two unnamed ports between them are no duplicate). -/
theorem ValidateCreate_iff (r : MyStatefulset) :
    ((∃ e, ValidateCreate r = .error e) ↔
      r.Spec.Replicas < 0 ∨ r.Spec.Replicas > 100 ∨
      r.Spec.Template.Spec.Containers = [] ∨
      (∃ c ∈ r.Spec.Template.Spec.Containers, c.Image = "") ∨
      (∃ c ∈ r.Spec.Template.Spec.Containers, ∃ (i j : Nat) (p q : ContainerPort),
        i < j ∧ c.Ports[i]? = some p ∧ c.Ports[j]? = some q ∧
          p.Name = q.Name ∧ p.Name ≠ "")) ∧
    ((∃ e, ValidateCreate r = .error e) ∨ ValidateCreate r = .ok ()) ∧
    ValidateCreate (exAdmitted 3 "nginx:latest") = .ok () ∧
    ValidateCreate (exAdmitted (-1) "nginx:latest") =
      .error [{ Type_ := "FieldValueInvalid", Field := "spec.replicas", BadValue := .int (-1),
                Detail := "must be greater than or equal to 0" }] ∧
    ValidateCreate (exWithPorts (exAdmitted 3 "nginx:latest")
        [{ Name := "http", ContainerPort := 80 }, { ContainerPort := 9090 },
         { ContainerPort := 9091 }, { Name := "http", ContainerPort := 8080 }]) =
      .error [{ Type_ := "FieldValueDuplicate",
                Field := "spec.template.spec.containers[0].ports[http]",
                BadValue := .str "port name must be unique", Detail := "" }] := by
  refine ⟨?_, ?_, by decide, by decide, by decide⟩
  · unfold ValidateCreate
    rw [validateMyStatefulSet_error_iff, Ne, validationErrors_eq_nil]
    constructor
    · intro h
      by_contra hcon
      simp only [not_or, not_exists, not_and] at hcon
      obtain ⟨h1, h2, h3, h4, h5⟩ := hcon
      apply h
      refine ⟨by omega, by omega, h3, ?_⟩
      intro c hc
      refine ⟨h4 c hc, ?_⟩
      by_contra hp
      obtain ⟨i, j, p, q, hij, hp1, hq1, hr⟩ := (not_pairwise_iff_getElem? _ _).mp hp
      have hr2 : p.Name = q.Name ∧ p.Name ≠ "" := by
        by_contra hx
        exact hr hx
      exact h5 c hc i j p q hij hp1 hq1 hr2.1 hr2.2
    · rintro (h | h | h | ⟨c, hc, h⟩ | ⟨c, hc, i, j, p, q, hij, hp, hq, hn, hne⟩)
      · rintro ⟨h1, _⟩; omega
      · rintro ⟨_, h2, _⟩; omega
      · rintro ⟨_, _, h3, _⟩; exact h3 h
      · rintro ⟨_, _, _, h4⟩; exact (h4 c hc).1 h
      · rintro ⟨_, _, _, h4⟩
        exact (not_pairwise_iff_getElem? _ _).mpr ⟨i, j, p, q, hij, hp, hq,
          fun hx => hx ⟨hn, hne⟩⟩ (h4 c hc).2
  · unfold ValidateCreate validateMyStatefulSet
    split
    · right; rfl
    · left; exact ⟨_, rfl⟩

/-- C25. A replica change that is rejected though it is no increase of more than 100%: the
workload of the test with one container whose image is `registry-prod/unit-test:1.0` passes
the create validation with 1 and with 2 replicas, the two objects differ in the replica
count only, and `ValidateUpdate` rejects the update 1 -> 2 with "invalid image update",
whatever the comparison of quantities: `isValidImageUpdate` is false as soon as the old
image contains `prod` and the new one contains `test`, also when the image did not change.
With the image `nginx:latest` of the test the update 1 -> 2 is accepted and 1 -> 3 is
rejected. -/
theorem ValidateUpdate_rejects_unchanged_image :
    ValidateCreate (exAdmitted 1 "registry-prod/unit-test:1.0") = .ok () ∧
    ValidateCreate (exAdmitted 2 "registry-prod/unit-test:1.0") = .ok () ∧
    exAdmitted 2 "registry-prod/unit-test:1.0" =
      { exAdmitted 1 "registry-prod/unit-test:1.0" with
        Spec := { (exAdmitted 1 "registry-prod/unit-test:1.0").Spec with Replicas := 2 } } ∧
    (∀ cmp : Quantity → Quantity → Int,
      ValidateUpdate cmp (exAdmitted 2 "registry-prod/unit-test:1.0")
          (exAdmitted 1 "registry-prod/unit-test:1.0") =
        .error [{ Type_ := "FieldValueInvalid",
                  Field := "spec.template.spec.containers[0].image",
                  BadValue := .str "registry-prod/unit-test:1.0",
                  Detail := "invalid image update" }]) ∧
    isValidImageUpdate "registry-prod/unit-test:1.0" "registry-prod/unit-test:1.0" = false ∧
    (∀ cmp : Quantity → Quantity → Int,
      ValidateUpdate cmp (exAdmitted 2 "nginx:latest") (exAdmitted 1 "nginx:latest") = .ok ()) ∧
    (∀ cmp : Quantity → Quantity → Int,
      ValidateUpdate cmp (exAdmitted 3 "nginx:latest") (exAdmitted 1 "nginx:latest") =
        .error [{ Type_ := "FieldValueInvalid", Field := "spec.replicas", BadValue := .int 3,
                  Detail := "cannot increase replicas by more than 100% in a single update" }]) :=
  ⟨by decide, by decide, rfl, fun _ => rfl, by decide, fun _ => rfl, fun _ => rfl⟩

/-- C26. A freshly created pod is up to date: for every workload and every ordinal i, the pod
that `createPod` builds from the workload does not differ from the template, `needsUpdate`
is false (for a template with containers and for one without); so the loop of the rolling
update, run on pods that were all built from the current template, replaces none of them and
leaves the cluster as it is. -/
theorem needsUpdate_buildPod (m : MyStatefulset) (i : Nat) :
    needsUpdate (buildPod m i) m = false ∧
    ∀ (P : Int) (w : World) (ordinals : List Nat),
      rollingUpdateLoop m P w (ordinals.map (buildPod m)) = (none, w) := by
  refine ⟨?_, fun P w ordinals => rollingUpdateLoop_buildPod m P w ordinals⟩
  unfold needsUpdate
  have h1 : (buildPod m i).Labels = m.Spec.Template.Labels := rfl
  have h2 : (buildPod m i).Spec.Containers = m.Spec.Template.Spec.Containers := rfl
  rw [h1, h2]
  simp [mapDeepEqual_self, containersDiffer_self]

/-- C27, counterexample: the workload `web` has 3 replicas and strategy RollingUpdate, and
the pods `web-0 .. web-5` exist on an old image (the workload was scaled down from 6 and its
template changed). The pass deletes `web-5` and creates `web-5` again, a pod of ordinal 5
with 5 >= 3, and returns before Drain: a rolling replacement recreates the pod at its
ordinal, whatever the replica count. -/
theorem reconcilePods_creates_out_of_range :
    (reconcilePods { pods := exPods 6 "nginx:1.18" } (exWorkload 3 "nginx:1.19" exRolling)).1 =
      .ok () ∧
    (reconcilePods { pods := exPods 6 "nginx:1.18" } (exWorkload 3 "nginx:1.19" exRolling)).2.log =
      [.deletePod "default" "web-5",
       .createPod (buildPod (exWorkload 3 "nginx:1.19" exRolling) 5)] ∧
    (buildPod (exWorkload 3 "nginx:1.19" exRolling) 5).Name = "web-5" ∧
    (exWorkload 3 "nginx:1.19" exRolling).Spec.Replicas = 3 := by
  decide

/-- C27 (amended). Created pods: every pod that a `reconcilePods` pass creates is either
created by Fill, and is then the pod built from the template for an ordinal i with
0 <= i < N, named `<name>-<i>`; or it is the replacement of a rolling update: the strategy is
RollingUpdate and the pass consists of the deletion of one pod of the cluster that differs
from the template, followed by the creation of this pod, built from the template for the
ordinal o that `getOrdinal` reads from the name of the deleted pod, with o at or above the
partition, and named `<name>-<o>`; o is not bounded by N. The calls of a pass are appended
to the log. -/
theorem reconcilePods_created_pods (w : World) (m : MyStatefulset) :
    (∃ acts, (reconcilePods w m).2.log = w.log ++ acts) ∧
    ∀ (acts : List Action) (p : Pod), (reconcilePods w m).2.log = w.log ++ acts →
      Action.createPod p ∈ acts →
      (∃ i : Nat, (i : Int) < m.Spec.Replicas ∧ p = buildPod m i ∧
        p.Name = podNameOf m.Name i) ∨
      (m.Spec.UpdateStrategy.Type_ = RollingUpdateStatefulSetStrategyType ∧
        ∃ victim ∈ w.pods, ∃ o : Nat, getOrdinal victim.Name = some o ∧
          partitionOf m ≤ (o : Int) ∧ needsUpdate victim m = true ∧
          acts = [.deletePod victim.Namespace victim.Name, .createPod p] ∧
          p = buildPod m o ∧ p.Name = podNameOf m.Name o) := by
  rcases reconcilePods_log_cases w m with ⟨new, dels, hlog, hnew, hdels⟩ |
      ⟨hs, v, hv, o, ho, hpart, hneeds, hlog⟩
  · refine ⟨⟨_, hlog⟩, ?_⟩
    intro acts p hacts hp
    left
    rw [hlog] at hacts
    have hacts2 := List.append_cancel_left hacts
    rw [← hacts2] at hp
    rcases List.mem_append.mp hp with hp | hp
    · obtain ⟨q, hq, hqp⟩ := List.mem_map.mp hp
      have hqp2 : q = p := by simpa using hqp
      subst hqp2
      obtain ⟨i, hi, rfl⟩ := hnew q hq
      exact ⟨i, hi, rfl, rfl⟩
    · obtain ⟨ns, nm, o, ha, _⟩ := hdels _ hp
      cases ha
  · refine ⟨⟨_, hlog⟩, ?_⟩
    intro acts p hacts hp
    right
    rw [hlog] at hacts
    have hacts2 := List.append_cancel_left hacts
    rw [← hacts2] at hp ⊢
    by_cases hok : (reconcilePods w m).1 = .ok ()
    · simp only [hok, if_true, List.mem_cons, List.mem_singleton, List.not_mem_nil,
        or_false] at hp
      rcases hp with hp | hp
      · cases hp
      · have hp2 : p = buildPod m o := by simpa using hp
        subst hp2
        exact ⟨hs, v, hv, o, ho, hpart, hneeds, by simp [hok], rfl, rfl⟩
    · simp only [hok, if_false, List.mem_singleton] at hp
      cases hp

/-- C27 (amended), at two inputs: with 3 replicas and the pods 0 and 1, the pass creates
`web-2`, a pod of Fill with 2 < 3; with 3 replicas and the pods 0 to 5 on an old image, the
pod `web-5` the pass creates is the replacement of the pod it deleted. -/
theorem reconcilePods_created_pods_witness :
    ((∃ i : Nat, (i : Int) < (exWorkload 3 "nginx:1.19" exRolling).Spec.Replicas ∧
        buildPod (exWorkload 3 "nginx:1.19" exRolling) 2 =
          buildPod (exWorkload 3 "nginx:1.19" exRolling) i ∧
        (buildPod (exWorkload 3 "nginx:1.19" exRolling) 2).Name =
          podNameOf (exWorkload 3 "nginx:1.19" exRolling).Name i) ∨
      ((exWorkload 3 "nginx:1.19" exRolling).Spec.UpdateStrategy.Type_ =
          RollingUpdateStatefulSetStrategyType ∧
        ∃ victim ∈ ({ pods := exPods 2 "nginx:1.19" } : World).pods, ∃ o : Nat,
          getOrdinal victim.Name = some o ∧
          partitionOf (exWorkload 3 "nginx:1.19" exRolling) ≤ (o : Int) ∧
          needsUpdate victim (exWorkload 3 "nginx:1.19" exRolling) = true ∧
          [Action.createPod (buildPod (exWorkload 3 "nginx:1.19" exRolling) 2)] =
            [.deletePod victim.Namespace victim.Name,
             .createPod (buildPod (exWorkload 3 "nginx:1.19" exRolling) 2)] ∧
          buildPod (exWorkload 3 "nginx:1.19" exRolling) 2 =
            buildPod (exWorkload 3 "nginx:1.19" exRolling) o ∧
          (buildPod (exWorkload 3 "nginx:1.19" exRolling) 2).Name =
            podNameOf (exWorkload 3 "nginx:1.19" exRolling).Name o)) ∧
    ((∃ i : Nat, (i : Int) < (exWorkload 3 "nginx:1.19" exRolling).Spec.Replicas ∧
        buildPod (exWorkload 3 "nginx:1.19" exRolling) 5 =
          buildPod (exWorkload 3 "nginx:1.19" exRolling) i ∧
        (buildPod (exWorkload 3 "nginx:1.19" exRolling) 5).Name =
          podNameOf (exWorkload 3 "nginx:1.19" exRolling).Name i) ∨
      ((exWorkload 3 "nginx:1.19" exRolling).Spec.UpdateStrategy.Type_ =
          RollingUpdateStatefulSetStrategyType ∧
        ∃ victim ∈ ({ pods := exPods 6 "nginx:1.18" } : World).pods, ∃ o : Nat,
          getOrdinal victim.Name = some o ∧
          partitionOf (exWorkload 3 "nginx:1.19" exRolling) ≤ (o : Int) ∧
          needsUpdate victim (exWorkload 3 "nginx:1.19" exRolling) = true ∧
          [Action.deletePod "default" "web-5",
           Action.createPod (buildPod (exWorkload 3 "nginx:1.19" exRolling) 5)] =
            [.deletePod victim.Namespace victim.Name,
             .createPod (buildPod (exWorkload 3 "nginx:1.19" exRolling) 5)] ∧
          buildPod (exWorkload 3 "nginx:1.19" exRolling) 5 =
            buildPod (exWorkload 3 "nginx:1.19" exRolling) o ∧
          (buildPod (exWorkload 3 "nginx:1.19" exRolling) 5).Name =
            podNameOf (exWorkload 3 "nginx:1.19" exRolling).Name o)) :=
  ⟨(reconcilePods_created_pods { pods := exPods 2 "nginx:1.19" }
      (exWorkload 3 "nginx:1.19" exRolling)).2
      [.createPod (buildPod (exWorkload 3 "nginx:1.19" exRolling) 2)]
      (buildPod (exWorkload 3 "nginx:1.19" exRolling) 2) (by decide) (by decide),
    (reconcilePods_created_pods { pods := exPods 6 "nginx:1.18" }
      (exWorkload 3 "nginx:1.19" exRolling)).2
      [.deletePod "default" "web-5",
       .createPod (buildPod (exWorkload 3 "nginx:1.19" exRolling) 5)]
      (buildPod (exWorkload 3 "nginx:1.19" exRolling) 5) (by decide) (by decide)⟩

/-- C28. The deletion path reads the selector unguarded: the stored workload `web` has no
selector and is marked for deletion; `Reconcile` hands it to `handleDeletion`, which reads
`Spec.Selector.MatchLabels` and panics on the nil pointer. Without the deletion mark the
same workload is stopped by the nil check with the error "selector cannot be nil". -/
theorem Reconcile_panics_on_nil_selector :
    (exDeleting (exWithSelector (exWorkload 3 "nginx:1.19" exRolling) none)).Spec.Selector =
      none ∧
    Reconcile 0
        { objects := [exDeleting (exWithSelector (exWorkload 3 "nginx:1.19" exRolling) none)] }
        "default" "web" =
      (.error (.panic "nil pointer dereference"),
        { objects := [exDeleting (exWithSelector (exWorkload 3 "nginx:1.19" exRolling) none)] }) ∧
    (Reconcile 0
        { objects := [exWithSelector (exWorkload 3 "nginx:1.19" exRolling) none] }
        "default" "web").1 = .error (.error "selector cannot be nil") := by
  decide

end MySts
